import Mathlib

/-!
# UDisks Linux provider and MD-RAID object: registry and lifecycle engine

A shallow embedding of `src/udiskslinuxmdraidobject.c` and
`src/udiskslinuxprovider.c`, followed by the properties proved about it.

Conventions of the embedding.

* A C string is the list of its characters before the terminating NUL; a
  `gchar *` that may be `NULL` is an `Option`.
* A `GObject *` is a natural number (its address); the objects themselves live
  in an association list from addresses to values (the heap).
* A `GHashTable` with string keys is an association list with unique keys.
* Calls that leave the two source files (D-Bus object manager, the cleanup
  subsystem, the drive and block objects, the GIO scheduler) are recorded in
  the order in which the code makes them.
-/

namespace UDisks

/-! ## GLib: hash tables -/

/-- The value stored under `key`, if any (`g_hash_table_lookup`). -/
def g_hash_table_lookup {κ α : Type} [DecidableEq κ] : List (κ × α) → κ → Option α
  | [], _ => none
  | (k, v) :: rest, key => if k = key then some v else g_hash_table_lookup rest key

/-- Store `value` under `key`, replacing the value of an existing entry
(`g_hash_table_insert`). -/
def g_hash_table_insert {κ α : Type} [DecidableEq κ] : List (κ × α) → κ → α → List (κ × α)
  | [], key, value => [(key, value)]
  | (k, v) :: rest, key, value =>
    if k = key then (k, value) :: rest else (k, v) :: g_hash_table_insert rest key value

/-- Drop the entry stored under `key` (`g_hash_table_remove`, the table part). -/
def g_hash_table_remove {κ α : Type} [DecidableEq κ] : List (κ × α) → κ → List (κ × α)
  | [], _ => []
  | (k, v) :: rest, key =>
    if k = key then g_hash_table_remove rest key else (k, v) :: g_hash_table_remove rest key

/-- The values of the table (`g_hash_table_get_values`). -/
def g_hash_table_get_values {κ α : Type} (t : List (κ × α)) : List α :=
  t.map Prod.snd

/-! ## GLib: strings -/

/-- The characters `g_ascii_isspace` accepts: space, form feed, newline,
carriage return, horizontal tab, vertical tab. -/
def g_ascii_isspace (c : Char) : Bool :=
  c = ' ' || c = Char.ofNat 12 || c = '\n' || c = '\r' || c = '\t' || c = Char.ofNat 11

/-- Skip leading white space (`g_strchug`): the pointer `start` advances while
it points at white space, then the rest is moved to the front. -/
def g_strchug : List Char → List Char
  | [] => []
  | c :: cs => if g_ascii_isspace c then g_strchug cs else c :: cs

/-- The loop of `g_strchomp`: `while (len--)` overwrites `string[len]` with NUL
as long as it is white space; the result is the length of the string left. -/
def g_strchomp_len (string : List Char) : Nat → Nat
  | 0 => 0
  | len + 1 =>
    match string[len]? with
    | some c => if g_ascii_isspace c then g_strchomp_len string len else len + 1
    | none => len + 1

/-- Cut trailing white space (`g_strchomp`). -/
def g_strchomp (string : List Char) : List Char :=
  string.take (g_strchomp_len string string.length)

/-- Remove leading and trailing white space (`g_strstrip`, which is
`g_strchomp (g_strchug (string))`). -/
def g_strstrip (string : List Char) : List Char :=
  g_strchomp (g_strchug string)

/-! ## Device snapshots -/

/-- A `GUdevDevice`: the read-only view of one kernel device. The last two
fields are what the drive classifier answers for this snapshot. -/
structure GUdevDevice where
  sysfs_path : String
  subsystem : String
  properties : List (String × String)
  should_include : Bool
  vpd : Option String
deriving DecidableEq, Repr

/-! ## MD-RAID object (`udiskslinuxmdraidobject.c`) -/

/-- The `UDisksMDRaid` interface skeleton, as far as this file reads it. -/
structure UDisksMDRaid where
  uuid : Option String
deriving DecidableEq, Repr

/-- What `update_iface` does to the outside, in program order. -/
inductive IfaceCall where
  | has_func
  | g_object_new
  | connect_func
  | remove_interface
  | update_func (uevent_action : String)
  | add_interface
deriving DecidableEq, Repr

/-- The struct `_UDisksLinuxMDRaidObject` (without the daemon pointer),
together with the object path of its skeleton and the record of calls. -/
structure UDisksLinuxMDRaidObject where
  devices : List GUdevDevice
  iface_mdraid : Option UDisksMDRaid
  object_path : Option String
  calls : List IfaceCall
deriving DecidableEq, Repr

/-- The `for` loop of `strip_and_replace_with_uscore`: `n` runs over the
indices of `s` until `s[n]` is the terminating NUL; `fuel` bounds the number of
iterations and is the length of the string at the call. -/
def strip_and_replace_with_uscore_loop : Nat → Nat → List Char → List Char
  | 0, _, s => s
  | fuel + 1, n, s =>
    match s[n]? with
    | none => s
    | some c =>
      if c = ' ' ∨ c = '-' ∨ c = ':' then
        strip_and_replace_with_uscore_loop fuel (n + 1) (s.set n '_')
      else
        strip_and_replace_with_uscore_loop fuel (n + 1) s

/-- Source function `strip_and_replace_with_uscore`: nothing for `NULL`, else `g_strstrip`
followed by the replacement loop. -/
def strip_and_replace_with_uscore : Option String → Option String
  | none => none
  | some s =>
    let stripped := g_strstrip s.data
    some (String.mk (strip_and_replace_with_uscore_loop stripped.length 0 stripped))

/-- Source function `update_iface` for the slot `object->iface_mdraid`. `skeleton` is the
fresh instance `g_object_new (skeleton_type, NULL)` returns; `update_func`
returns the updated interface with its result. -/
def update_iface (object : UDisksLinuxMDRaidObject) (uevent_action : String)
    (has_func : UDisksLinuxMDRaidObject → Bool)
    (connect_func : Option (UDisksLinuxMDRaidObject → UDisksLinuxMDRaidObject))
    (update_func : UDisksLinuxMDRaidObject → String → UDisksMDRaid → UDisksMDRaid × Bool)
    (skeleton : UDisksMDRaid) : Bool × UDisksLinuxMDRaidObject :=
  let has := has_func object
  let object := { object with calls := object.calls ++ [IfaceCall.has_func] }
  let step1 : Bool × UDisksLinuxMDRaidObject :=
    match object.iface_mdraid with
    | none =>
      if has then
        let object := { object with iface_mdraid := some skeleton,
                                    calls := object.calls ++ [IfaceCall.g_object_new] }
        match connect_func with
        | some connect =>
          let object := connect object
          (true, { object with calls := object.calls ++ [IfaceCall.connect_func] })
        | none => (true, object)
      else (false, object)
    | some _ =>
      if !has then
        (false, { object with iface_mdraid := none,
                              calls := object.calls ++ [IfaceCall.remove_interface] })
      else (false, object)
  let add := step1.1
  let object := step1.2
  match object.iface_mdraid with
  | some iface =>
    let r := update_func object uevent_action iface
    let object := { object with iface_mdraid := some r.1,
                                calls := object.calls ++ [IfaceCall.update_func uevent_action] }
    let object := if add then { object with calls := object.calls ++ [IfaceCall.add_interface] }
                  else object
    (r.2, object)
  | none => (false, object)

/-- Source function `mdraid_check`. -/
def mdraid_check (_object : UDisksLinuxMDRaidObject) : Bool := true

/-- Source function `mdraid_connect`. -/
def mdraid_connect (object : UDisksLinuxMDRaidObject) : UDisksLinuxMDRaidObject := object

/-- Source function `mdraid_update`: hands over to `udisks_linux_mdraid_update`, which is not
part of these sources and is a parameter here. -/
def mdraid_update
    (udisks_linux_mdraid_update : UDisksMDRaid → UDisksLinuxMDRaidObject → UDisksMDRaid × Bool)
    (object : UDisksLinuxMDRaidObject) (_uevent_action : String) (iface : UDisksMDRaid) :
    UDisksMDRaid × Bool :=
  udisks_linux_mdraid_update iface object

/-- Source function `find_link_for_sysfs_path`: the index of the first member whose sysfs path
is `sysfs_path`. -/
def find_link_for_sysfs_path : List GUdevDevice → String → Option Nat
  | [], _ => none
  | device :: rest, sysfs_path =>
    if device.sysfs_path = sysfs_path then some 0
    else (find_link_for_sysfs_path rest sysfs_path).map Nat.succ

/-- The member-list part of `udisks_linux_mdraid_object_uevent`. -/
def mdraid_uevent_devices (devices : List GUdevDevice) (action : String)
    (device : Option GUdevDevice) : List GUdevDevice :=
  let link : Option Nat :=
    match device with
    | some d => find_link_for_sysfs_path devices d.sysfs_path
    | none => none
  if action = "remove" then
    match link with
    | some i => devices.eraseIdx i
    | none => devices
  else
    match link, device with
    | some i, some d => devices.set i d
    | some _, none => devices
    | none, some d => devices ++ [d]
    | none, none => devices

/-- Source function `udisks_linux_mdraid_object_uevent`. -/
def udisks_linux_mdraid_object_uevent
    (udisks_linux_mdraid_update : UDisksMDRaid → UDisksLinuxMDRaidObject → UDisksMDRaid × Bool)
    (object : UDisksLinuxMDRaidObject) (action : String) (device : Option GUdevDevice) :
    UDisksLinuxMDRaidObject :=
  let object := { object with devices := mdraid_uevent_devices object.devices action device }
  (update_iface object action mdraid_check (some mdraid_connect)
    (mdraid_update udisks_linux_mdraid_update) { uuid := none }).2

/-- The object as `udisks_linux_mdraid_object_new` hands it to `constructed`:
the `device` property has put the one device in the list. -/
def udisks_linux_mdraid_object_new (device : GUdevDevice) : UDisksLinuxMDRaidObject :=
  { devices := [device], iface_mdraid := none, object_path := none, calls := [] }

/-- Source function `udisks_linux_mdraid_object_constructed`: the initial
coldplug uevent, then the object path from the UUID of the interface;
`object_path` is the string handed to
`g_dbus_object_skeleton_set_object_path`. The result is `none` where the C
code reads through a `NULL` pointer or formats a `NULL` string. -/
def udisks_linux_mdraid_object_constructed
    (udisks_linux_mdraid_update : UDisksMDRaid → UDisksLinuxMDRaidObject → UDisksMDRaid × Bool)
    (object : UDisksLinuxMDRaidObject) : Option UDisksLinuxMDRaidObject :=
  match object.devices.head? with
  | none => none
  | some device =>
    let object := udisks_linux_mdraid_object_uevent udisks_linux_mdraid_update object "add"
      (some device)
    match object.iface_mdraid with
    | none => none
    | some iface =>
      match strip_and_replace_with_uscore iface.uuid with
      | none => none
      | some uuid =>
        some { object with object_path := some ("/org/freedesktop/UDisks2/mdraid/" ++ uuid) }

/-! ## The sanitisation as the specification words it -/

/-- The replacement of one character: `' '`, `'-'` and `':'` become `'_'`. -/
def uscore (c : Char) : Char :=
  if c = ' ' ∨ c = '-' ∨ c = ':' then '_' else c

/-- Trim leading and trailing white space. -/
def trim (s : List Char) : List Char :=
  ((s.dropWhile g_ascii_isspace).reverse.dropWhile g_ascii_isspace).reverse

/-- Trim surrounding white space, then replace each of `' '`, `'-'`, `':'`
by `'_'`. -/
def sanitize (u : String) : String :=
  String.mk ((trim u.data).map uscore)

/-! ## Drive and block objects (their sources are not part of this development) -/

/-- The part of a `UDisksLinuxDriveObject` the provider reads: the member
devices and the `"x-vpd"` datum attached with `g_object_set_data_full`. -/
structure UDisksLinuxDriveObject where
  devices : List GUdevDevice
  x_vpd : Option String
deriving DecidableEq, Repr

/-- The part of a `UDisksLinuxBlockObject` the provider reads: the cached
device snapshot. -/
structure UDisksLinuxBlockObject where
  device : GUdevDevice
deriving DecidableEq, Repr

/-- Modelled from the spec: `udisks_linux_drive_object_should_include_device`,
the static classifier `should_include_device(client, device) → (bool, vpd?)`
of §4.3; its answer for a snapshot is carried by the snapshot. -/
def udisks_linux_drive_object_should_include_device (device : GUdevDevice) :
    Bool × Option String :=
  (device.should_include, device.vpd)

/-- Modelled from the spec: `udisks_linux_drive_object_new`, `new(daemon,
device)` of §4.3: the new drive has the creating device as its only member
(§3: at least one member while alive). -/
def udisks_linux_drive_object_new (device : GUdevDevice) : Option UDisksLinuxDriveObject :=
  some { devices := [device], x_vpd := none }

/-- Modelled from the spec: the member list after
`udisks_linux_drive_object_uevent`, §4.3: on `remove` a member with matching
sysfs path is dropped; otherwise a member with matching sysfs path has its
snapshot replaced; otherwise a non-null device is appended. A `remove` without
a matching member leaves the list as it is, as in the MD-RAID object, whose
member-list maintenance §4.4 declares to be the same. -/
def udisks_linux_drive_object_uevent (object : UDisksLinuxDriveObject) (action : String)
    (device : Option GUdevDevice) : UDisksLinuxDriveObject :=
  match device with
  | none => object
  | some d =>
    match find_link_for_sysfs_path object.devices d.sysfs_path with
    | some i =>
      if action = "remove" then { object with devices := object.devices.eraseIdx i }
      else { object with devices := object.devices.set i d }
    | none =>
      if action = "remove" then object
      else { object with devices := object.devices ++ [d] }

/-- Modelled from the spec: `udisks_linux_block_object_new`, `new(daemon,
device)` of §4.2. -/
def udisks_linux_block_object_new (device : GUdevDevice) : UDisksLinuxBlockObject :=
  { device := device }

/-- Modelled from the spec: `udisks_linux_block_object_uevent`, §4.2: on a
uevent with a non-null device the object adopts the snapshot; a null device
leaves the cached snapshot alone. -/
def udisks_linux_block_object_uevent (object : UDisksLinuxBlockObject) (_action : String)
    (device : Option GUdevDevice) : UDisksLinuxBlockObject :=
  match device with
  | some d => { object with device := d }
  | none => object

/-! ## Provider (`udiskslinuxprovider.c`) -/

/-- The two job functions handed to `g_io_scheduler_push_job`, with their user
data. -/
inductive Job where
  | perform_initial_housekeeping_for_drive (object : Nat)
  | housekeeping_thread_func
deriving DecidableEq, Repr

/-- The three hash tables of the provider. -/
inductive Index where
  | sysfs_to_block
  | vpd_to_drive
  | sysfs_path_to_drive
deriving DecidableEq, Repr

/-- What the provider does to its tables and to the outside, in program
order. -/
inductive Effect where
  | insert (index : Index) (key : String) (object : Nat)
  | remove (index : Index) (key : String)
  | export_uniquely (object : Nat)
  | unexport (object : Nat)
  | drive_uevent (object : Nat) (action : String) (device : GUdevDevice)
  | block_uevent (object : Nat) (action : String) (device : Option GUdevDevice)
  | cleanup_check
  | drive_housekeeping (object : Nat) (secs_since_last : Nat)
deriving DecidableEq, Repr

/-- The struct `_UDisksLinuxProvider` (hash tables, `coldplug`, the
housekeeping fields) together with the process state its functions act on:
the drive and block objects by address, the next free address, the queue of
the GIO scheduler and the record of effects. -/
structure UDisksLinuxProvider where
  sysfs_to_block : List (String × Nat)
  vpd_to_drive : List (String × Nat)
  sysfs_path_to_drive : List (String × Nat)
  coldplug : Bool
  housekeeping_last : Nat
  housekeeping_running : Bool
  drive_objects : List (Nat × UDisksLinuxDriveObject)
  block_objects : List (Nat × UDisksLinuxBlockObject)
  next_object : Nat
  jobs : List Job
  trace : List Effect
deriving DecidableEq, Repr

/-- Append one effect to the record. -/
def record (provider : UDisksLinuxProvider) (e : Effect) : UDisksLinuxProvider :=
  { provider with trace := provider.trace ++ [e] }

/-- The call `udisks_linux_drive_object_uevent (object, action, device)` on the
drive object at address `object`: the call is recorded and the object
updated. -/
def drive_object_uevent (provider : UDisksLinuxProvider) (object : Nat) (action : String)
    (device : GUdevDevice) : UDisksLinuxProvider :=
  let provider := record provider (Effect.drive_uevent object action device)
  match g_hash_table_lookup provider.drive_objects object with
  | some o =>
    { provider with
      drive_objects := g_hash_table_insert provider.drive_objects object
        (udisks_linux_drive_object_uevent o action (some device)) }
  | none => provider

/-- Modelled from the spec: `udisks_linux_drive_object_get_devices`,
`get_devices() → snapshot list` of §4.3, on the drive object at address
`object`: its member devices. -/
def udisks_linux_drive_object_get_devices (provider : UDisksLinuxProvider) (object : Nat) :
    List GUdevDevice :=
  match g_hash_table_lookup provider.drive_objects object with
  | some o => o.devices
  | none => []

/-- The call `g_object_get_data (G_OBJECT (object), "x-vpd")`. -/
def g_object_get_data_x_vpd (provider : UDisksLinuxProvider) (object : Nat) : Option String :=
  match g_hash_table_lookup provider.drive_objects object with
  | some o => o.x_vpd
  | none => none

/-- The call `udisks_linux_block_object_uevent (object, action, device)` on the
block object at address `object`. -/
def block_object_uevent (provider : UDisksLinuxProvider) (object : Nat) (action : String)
    (device : Option GUdevDevice) : UDisksLinuxProvider :=
  let provider := record provider (Effect.block_uevent object action device)
  match g_hash_table_lookup provider.block_objects object with
  | some o =>
    { provider with
      block_objects := g_hash_table_insert provider.block_objects object
        (udisks_linux_block_object_uevent o action device) }
  | none => provider

/-- Source function `handle_block_uevent_for_drive`. -/
def handle_block_uevent_for_drive (provider : UDisksLinuxProvider) (action : String)
    (device : GUdevDevice) : UDisksLinuxProvider :=
  let sysfs_path := device.sysfs_path
  if action = "remove" then
    match g_hash_table_lookup provider.sysfs_path_to_drive sysfs_path with
    | some object =>
      let provider := drive_object_uevent provider object action device
      let provider := record
        { provider with
          sysfs_path_to_drive := g_hash_table_remove provider.sysfs_path_to_drive sysfs_path }
        (Effect.remove Index.sysfs_path_to_drive sysfs_path)
      match udisks_linux_drive_object_get_devices provider object with
      | [] =>
        let provider := record provider (Effect.unexport object)
        match g_object_get_data_x_vpd provider object with
        | some vpd =>
          record
            { provider with vpd_to_drive := g_hash_table_remove provider.vpd_to_drive vpd }
            (Effect.remove Index.vpd_to_drive vpd)
        | none => provider
      | _ :: _ => provider
    | none => provider
  else
    match udisks_linux_drive_object_should_include_device device with
    | (false, _) => provider
    | (true, none) => provider
    | (true, some vpd) =>
      match g_hash_table_lookup provider.vpd_to_drive vpd with
      | some object =>
        let provider :=
          match g_hash_table_lookup provider.sysfs_path_to_drive sysfs_path with
          | none =>
            record
              { provider with
                sysfs_path_to_drive :=
                  g_hash_table_insert provider.sysfs_path_to_drive sysfs_path object }
              (Effect.insert Index.sysfs_path_to_drive sysfs_path object)
          | some _ => provider
        drive_object_uevent provider object action device
      | none =>
        match udisks_linux_drive_object_new device with
        | some o =>
          let object := provider.next_object
          let provider :=
            { provider with
              next_object := object + 1
              drive_objects :=
                g_hash_table_insert provider.drive_objects object { o with x_vpd := some vpd } }
          let provider := record provider (Effect.export_uniquely object)
          let provider := record
            { provider with vpd_to_drive := g_hash_table_insert provider.vpd_to_drive vpd object }
            (Effect.insert Index.vpd_to_drive vpd object)
          let provider := record
            { provider with
              sysfs_path_to_drive :=
                g_hash_table_insert provider.sysfs_path_to_drive sysfs_path object }
            (Effect.insert Index.sysfs_path_to_drive sysfs_path object)
          if !provider.coldplug then
            { provider with
              jobs := provider.jobs ++ [Job.perform_initial_housekeeping_for_drive object] }
          else provider
        | none => provider

/-- Source function `handle_block_uevent_for_block`. -/
def handle_block_uevent_for_block (provider : UDisksLinuxProvider) (action : String)
    (device : GUdevDevice) : UDisksLinuxProvider :=
  let sysfs_path := device.sysfs_path
  if action = "remove" then
    match g_hash_table_lookup provider.sysfs_to_block sysfs_path with
    | some object =>
      let provider := record provider (Effect.unexport object)
      record
        { provider with sysfs_to_block := g_hash_table_remove provider.sysfs_to_block sysfs_path }
        (Effect.remove Index.sysfs_to_block sysfs_path)
    | none => provider
  else
    match g_hash_table_lookup provider.sysfs_to_block sysfs_path with
    | some object => block_object_uevent provider object action (some device)
    | none =>
      let object := provider.next_object
      let provider :=
        { provider with
          next_object := object + 1
          block_objects :=
            g_hash_table_insert provider.block_objects object
              (udisks_linux_block_object_new device) }
      let provider := record provider (Effect.export_uniquely object)
      record
        { provider with
          sysfs_to_block := g_hash_table_insert provider.sysfs_to_block sysfs_path object }
        (Effect.insert Index.sysfs_to_block sysfs_path object)

/-- Modelled from the spec: `udisks_cleanup_check`, the `check()` entry point
of the cleanup subsystem (§6), an external collaborator: the call is
recorded. -/
def udisks_cleanup_check (provider : UDisksLinuxProvider) : UDisksLinuxProvider :=
  record provider Effect.cleanup_check

/-- Source function `handle_block_uevent`. -/
def handle_block_uevent (provider : UDisksLinuxProvider) (action : String)
    (device : GUdevDevice) : UDisksLinuxProvider :=
  let provider :=
    if action = "remove" then
      let provider := handle_block_uevent_for_block provider action device
      handle_block_uevent_for_drive provider action device
    else
      let provider := handle_block_uevent_for_drive provider action device
      handle_block_uevent_for_block provider action device
  if action ≠ "add" then udisks_cleanup_check provider else provider

/-- Source function `udisks_linux_provider_handle_uevent`. -/
def udisks_linux_provider_handle_uevent (provider : UDisksLinuxProvider) (action : String)
    (device : GUdevDevice) : UDisksLinuxProvider :=
  if device.subsystem = "block" then handle_block_uevent provider action device
  else provider

/-- Source function `housekeeping_all_drives`: one call of
`udisks_linux_drive_object_housekeeping` for each value of `vpd_to_drive`;
an error is logged and the loop goes on. -/
def housekeeping_all_drives (provider : UDisksLinuxProvider) (secs_since_last : Nat) :
    UDisksLinuxProvider :=
  (g_hash_table_get_values provider.vpd_to_drive).foldl
    (fun provider object => record provider (Effect.drive_housekeeping object secs_since_last))
    provider

/-- Source function `housekeeping_thread_func`; `time` is what `time (NULL)` returns. `now` and
`housekeeping_last` are `guint64`, `secs_since_last` is a `guint`. -/
def housekeeping_thread_func (provider : UDisksLinuxProvider) (time : Nat) :
    UDisksLinuxProvider :=
  let now := time % 2 ^ 64
  let secs_since_last :=
    if provider.housekeeping_last > 0 then
      ((now + 2 ^ 64 - provider.housekeeping_last % 2 ^ 64) % 2 ^ 64) % 2 ^ 32
    else 0
  let provider := { provider with housekeeping_last := now }
  let provider := housekeeping_all_drives provider secs_since_last
  { provider with housekeeping_running := false }

/-- Source function `on_housekeeping_timeout`. -/
def on_housekeeping_timeout (provider : UDisksLinuxProvider) : UDisksLinuxProvider :=
  if provider.housekeeping_running then provider
  else
    let provider := { provider with housekeeping_running := true }
    { provider with jobs := provider.jobs ++ [Job.housekeeping_thread_func] }

/-- Source function `perform_initial_housekeeping_for_drive`: one call of
`udisks_linux_drive_object_housekeeping` with 0 seconds; an error is logged. -/
def perform_initial_housekeeping_for_drive (provider : UDisksLinuxProvider) (object : Nat) :
    UDisksLinuxProvider :=
  record provider (Effect.drive_housekeeping object 0)

/-- The GIO scheduler takes a queued job off its queue and runs it to
completion. -/
def g_io_scheduler_run_job (provider : UDisksLinuxProvider) (job : Job) (time : Nat) :
    UDisksLinuxProvider :=
  if job ∈ provider.jobs then
    let provider := { provider with jobs := provider.jobs.erase job }
    match job with
    | Job.perform_initial_housekeeping_for_drive object =>
      perform_initial_housekeeping_for_drive provider object
    | Job.housekeeping_thread_func => housekeeping_thread_func provider time
  else provider

/-- Source function `udisks_linux_provider_start`; `devices` is what
`g_udev_client_query_by_subsystem (provider->gudev_client, "block")` returns. -/
def udisks_linux_provider_start (provider : UDisksLinuxProvider) (devices : List GUdevDevice) :
    UDisksLinuxProvider :=
  let provider := { provider with coldplug := true }
  let provider :=
    { provider with sysfs_to_block := [], vpd_to_drive := [], sysfs_path_to_drive := [] }
  let provider :=
    devices.foldl (fun provider device => udisks_linux_provider_handle_uevent provider "add" device)
      provider
  let provider := on_housekeeping_timeout provider
  { provider with coldplug := false }

/-- The provider as `g_object_new` leaves it: zeroed fields, no objects, no
jobs. -/
def udisks_linux_provider_new : UDisksLinuxProvider :=
  { sysfs_to_block := [], vpd_to_drive := [], sysfs_path_to_drive := [],
    coldplug := false, housekeeping_last := 0, housekeeping_running := false,
    drive_objects := [], block_objects := [], next_object := 0, jobs := [], trace := [] }

/-- The states the provider can be in: from the new provider by block uevents,
housekeeping ticks, completed jobs and the assignments to `coldplug`. -/
inductive Reachable : UDisksLinuxProvider → Prop where
  | new : Reachable udisks_linux_provider_new
  | coldplug (provider : UDisksLinuxProvider) (b : Bool) :
      Reachable provider → Reachable { provider with coldplug := b }
  | uevent (provider : UDisksLinuxProvider) (action : String) (device : GUdevDevice) :
      Reachable provider → Reachable (handle_block_uevent provider action device)
  | timeout (provider : UDisksLinuxProvider) :
      Reachable provider → Reachable (on_housekeeping_timeout provider)
  | job (provider : UDisksLinuxProvider) (job : Job) (time : Nat) :
      Reachable provider → Reachable (g_io_scheduler_run_job provider job time)

/-- Process a sequence of block uevents in order. -/
def run_uevents (provider : UDisksLinuxProvider) :
    List (String × GUdevDevice) → UDisksLinuxProvider
  | [] => provider
  | (action, device) :: rest => run_uevents (handle_block_uevent provider action device) rest

/-- The sysfs paths of the members of a drive object. -/
def member_paths (o : UDisksLinuxDriveObject) : List String :=
  o.devices.map GUdevDevice.sysfs_path

/-- The registry part of the state: the three indexes, the objects they point
at and the next free address. -/
def registry (s : UDisksLinuxProvider) :
    List (String × Nat) × List (String × Nat) × List (String × Nat) ×
      List (Nat × UDisksLinuxDriveObject) × List (Nat × UDisksLinuxBlockObject) × Nat :=
  (s.sysfs_to_block, s.vpd_to_drive, s.sysfs_path_to_drive, s.drive_objects, s.block_objects,
    s.next_object)

/-- Insertions into and removals from `vpd_to_drive` and
`sysfs_path_to_drive`. -/
def is_drive_mutation : Effect → Bool
  | Effect.insert Index.vpd_to_drive _ _ => true
  | Effect.insert Index.sysfs_path_to_drive _ _ => true
  | Effect.remove Index.vpd_to_drive _ => true
  | Effect.remove Index.sysfs_path_to_drive _ => true
  | _ => false

/-- Insertions into and removals from `sysfs_to_block`. -/
def is_block_mutation : Effect → Bool
  | Effect.insert Index.sysfs_to_block _ _ => true
  | Effect.remove Index.sysfs_to_block _ => true
  | _ => false

/-- A block device snapshot with the given sysfs path which the drive
classifier accepts with the given vpd. -/
def block_device (sysfs_path : String) (vpd : Option String) : GUdevDevice :=
  { sysfs_path := sysfs_path, subsystem := "block", properties := [], should_include := true,
    vpd := vpd }

/-- The effects recorded on the way from state `s` to state `s'`. -/
def new_effects (s s' : UDisksLinuxProvider) : List Effect :=
  s'.trace.drop s.trace.length

/-- The state after `add` of `/sys/block/sda` with vpd `S1W1` on a new
provider. -/
def state_sda : UDisksLinuxProvider :=
  run_uevents udisks_linux_provider_new [("add", block_device "/sys/block/sda" (some "S1W1"))]

/-- I2: every sysfs path of a member of a drive stored in `vpd_to_drive` has
an entry in `sysfs_path_to_drive`, and the entry is this drive. -/
def members_indexed (s : UDisksLinuxProvider) : Prop :=
  ∀ v obj o, g_hash_table_lookup s.vpd_to_drive v = some obj →
    g_hash_table_lookup s.drive_objects obj = some o →
    ∀ q ∈ member_paths o, g_hash_table_lookup s.sysfs_path_to_drive q = some obj

/-- The event does not give a registered path another identity: a `remove`, a
device the drive side skips, a path without entry in `sysfs_path_to_drive`,
or a vpd equal to the tag of the drive the path is registered with. -/
def vpd_agrees (s : UDisksLinuxProvider) (action : String) (device : GUdevDevice) : Bool :=
  action == "remove" || !device.should_include ||
    match device.vpd, g_hash_table_lookup s.sysfs_path_to_drive device.sysfs_path with
    | some v, some obj => g_object_get_data_x_vpd s obj == some v
    | _, _ => true

/-- Every event of the sequence agrees, in the state in which it is
processed, with the registration of its path. -/
def vpd_agrees_run (s : UDisksLinuxProvider) : List (String × GUdevDevice) → Bool
  | [] => true
  | (action, device) :: rest =>
    vpd_agrees s action device && vpd_agrees_run (handle_block_uevent s action device) rest

/-- The state after `add` of `/sys/block/sda` with vpd `S1W1`, `change` of
the same path with vpd `S2W2` and `remove` of the path. -/
def state_stale : UDisksLinuxProvider :=
  run_uevents udisks_linux_provider_new
    [("add", block_device "/sys/block/sda" (some "S1W1")),
     ("change", block_device "/sys/block/sda" (some "S2W2")),
     ("remove", block_device "/sys/block/sda" (some "S2W2"))]

/-- The state after `add` of `/sys/block/sda` without vpd. -/
def state_no_vpd : UDisksLinuxProvider :=
  run_uevents udisks_linux_provider_new [("add", block_device "/sys/block/sda" none)]

/-- The branch of `handle_block_uevent_for_drive` that creates a drive object:
the action is not `remove` and the device is accepted with a vpd that has no
entry in `vpd_to_drive`. -/
def creates_drive (s : UDisksLinuxProvider) (action : String) (device : GUdevDevice) : Bool :=
  action != "remove" && device.should_include &&
    match device.vpd with
    | some v => (g_hash_table_lookup s.vpd_to_drive v).isNone
    | none => false

/-- Source function `update_all_block_objects`: the values of `sysfs_to_block`
are taken, then each gets a `change` uevent without device. -/
def update_all_block_objects (provider : UDisksLinuxProvider) : UDisksLinuxProvider :=
  (g_hash_table_get_values provider.sysfs_to_block).foldl
    (fun provider object => block_object_uevent provider object "change" none) provider

/-- Source function `fstab_monitor_on_entry_added`. -/
def fstab_monitor_on_entry_added (provider : UDisksLinuxProvider) : UDisksLinuxProvider :=
  update_all_block_objects provider

/-- Source function `fstab_monitor_on_entry_removed`. -/
def fstab_monitor_on_entry_removed (provider : UDisksLinuxProvider) : UDisksLinuxProvider :=
  update_all_block_objects provider

/-- Source function `crypttab_monitor_on_entry_added`. -/
def crypttab_monitor_on_entry_added (provider : UDisksLinuxProvider) : UDisksLinuxProvider :=
  update_all_block_objects provider

/-- Source function `crypttab_monitor_on_entry_removed`. -/
def crypttab_monitor_on_entry_removed (provider : UDisksLinuxProvider) : UDisksLinuxProvider :=
  update_all_block_objects provider

/-- What one thread does, in program order: `G_LOCK (provider_lock)`,
`G_UNLOCK (provider_lock)`, or one of the recorded effects. -/
inductive LockEvent where
  | lock
  | unlock
  | effect (e : Effect)
deriving DecidableEq, Repr

/-- The calls that enter published-interface code: the uevent entry point of a
drive or block object and the housekeeping of a drive. -/
def enters_interface_code : Effect → Bool
  | Effect.drive_uevent _ _ _ => true
  | Effect.block_uevent _ _ _ => true
  | Effect.drive_housekeeping _ _ => true
  | _ => false

/-- For each call into published-interface code among the events, in order,
whether the thread holds the lock at the call; `held` is the state of the lock
before the first event. -/
def lock_at_calls : Bool → List LockEvent → List Bool
  | _, [] => []
  | _, LockEvent.lock :: rest => lock_at_calls true rest
  | _, LockEvent.unlock :: rest => lock_at_calls false rest
  | held, LockEvent.effect e :: rest =>
    if enters_interface_code e then held :: lock_at_calls held rest
    else lock_at_calls held rest

/-- The events of `udisks_linux_provider_handle_uevent`: `G_LOCK`, the handling
of the event, `G_UNLOCK`. -/
def udisks_linux_provider_handle_uevent_events (provider : UDisksLinuxProvider)
    (action : String) (device : GUdevDevice) : List LockEvent :=
  [LockEvent.lock] ++
    (new_effects provider
      (udisks_linux_provider_handle_uevent provider action device)).map LockEvent.effect ++
    [LockEvent.unlock]

/-- The events of `update_all_block_objects`: `G_LOCK`, the snapshot of the
values, `G_UNLOCK`, then the loop over the snapshot. -/
def update_all_block_objects_events (provider : UDisksLinuxProvider) : List LockEvent :=
  [LockEvent.lock, LockEvent.unlock] ++
    (new_effects provider (update_all_block_objects provider)).map LockEvent.effect

/-- The events of `housekeeping_all_drives`: `G_LOCK`, the snapshot of the
values, `G_UNLOCK`, then the loop over the snapshot. -/
def housekeeping_all_drives_events (provider : UDisksLinuxProvider) (secs_since_last : Nat) :
    List LockEvent :=
  [LockEvent.lock, LockEvent.unlock] ++
    (new_effects provider
      (housekeeping_all_drives provider secs_since_last)).map LockEvent.effect

/-- The events of `housekeeping_thread_func`: those of `housekeeping_all_drives`,
then `G_LOCK`, the reset of `housekeeping_running`, `G_UNLOCK`. -/
def housekeeping_thread_func_events (provider : UDisksLinuxProvider) (time : Nat) :
    List LockEvent :=
  [LockEvent.lock, LockEvent.unlock] ++
    (new_effects provider (housekeeping_thread_func provider time)).map LockEvent.effect ++
    [LockEvent.lock, LockEvent.unlock]

/-- The events of `perform_initial_housekeeping_for_drive`: the call of the
housekeeping of the drive, without lock. -/
def perform_initial_housekeeping_for_drive_events (provider : UDisksLinuxProvider)
    (object : Nat) : List LockEvent :=
  (new_effects provider
    (perform_initial_housekeeping_for_drive provider object)).map LockEvent.effect

/-- The state after `add` of three block devices without vpd. -/
def state_three_blocks : UDisksLinuxProvider :=
  run_uevents udisks_linux_provider_new
    [("add", block_device "/sys/block/sda" none), ("add", block_device "/sys/block/sdb" none),
     ("add", block_device "/sys/block/sdc" none)]

/-- A sequence of calls of `udisks_linux_mdraid_object_uevent` on one object. -/
def run_mdraid_uevents
    (udisks_linux_mdraid_update : UDisksMDRaid → UDisksLinuxMDRaidObject → UDisksMDRaid × Bool)
    (object : UDisksLinuxMDRaidObject) :
    List (String × Option GUdevDevice) → UDisksLinuxMDRaidObject
  | [] => object
  | (action, device) :: rest =>
    run_mdraid_uevents udisks_linux_mdraid_update
      (udisks_linux_mdraid_object_uevent udisks_linux_mdraid_update object action device) rest

/-- The arguments of one call of `update_iface` on an object. -/
structure IfaceFuncs where
  uevent_action : String
  has_func : UDisksLinuxMDRaidObject → Bool
  connect_func : Option (UDisksLinuxMDRaidObject → UDisksLinuxMDRaidObject)
  update_func : UDisksLinuxMDRaidObject → String → UDisksMDRaid → UDisksMDRaid × Bool
  skeleton : UDisksMDRaid

/-- A sequence of calls of `update_iface` on one object. -/
def update_iface_calls (object : UDisksLinuxMDRaidObject) :
    List IfaceFuncs → UDisksLinuxMDRaidObject
  | [] => object
  | f :: rest =>
    update_iface_calls
      (update_iface object f.uevent_action f.has_func f.connect_func f.update_func f.skeleton).2
      rest

/-- What a trace of calls says about the publication: `in_order` is false
once `add_interface` was called while the interface was published or when the
call right before it was not `update_func`; `published` is whether the
interface is on the bus at the end; `updated` is whether the last call is
`update_func`. -/
structure Publication where
  in_order : Bool
  published : Bool
  updated : Bool
deriving DecidableEq, Repr

/-- One call of the trace. -/
def publication_step (st : Publication) : IfaceCall → Publication
  | IfaceCall.add_interface =>
    { in_order := st.in_order && !st.published && st.updated, published := true,
      updated := false }
  | IfaceCall.remove_interface => { st with published := false, updated := false }
  | IfaceCall.update_func _ => { st with updated := true }
  | _ => { st with updated := false }

/-- The publication over a trace of calls that starts with the interface not
published. -/
def publication (calls : List IfaceCall) : Publication :=
  calls.foldl publication_step { in_order := true, published := false, updated := false }

/-- The calls one call of `update_iface` makes, from the slot and the result
of `has_func` at entry. -/
def update_iface_trace (slot_empty has connect : Bool) (uevent_action : String) :
    List IfaceCall :=
  IfaceCall.has_func ::
    (if slot_empty then
      if has then
        IfaceCall.g_object_new ::
          ((if connect then [IfaceCall.connect_func] else []) ++
            [IfaceCall.update_func uevent_action, IfaceCall.add_interface])
      else []
    else
      if has then [IfaceCall.update_func uevent_action]
      else [IfaceCall.remove_interface])

/-- A connect callback that leaves the slot and the record of calls alone. -/
def connect_frame
    (connect_func : Option (UDisksLinuxMDRaidObject → UDisksLinuxMDRaidObject)) : Prop :=
  ∀ c, connect_func = some c →
    ∀ o, (c o).iface_mdraid = o.iface_mdraid ∧ (c o).calls = o.calls

/-- The loop of `housekeeping_all_drives` over the snapshot `objects`, with
the result of each call of `udisks_linux_drive_object_housekeeping` (not part
of these sources, a parameter here): the calls made, as pairs of the drive
and the seconds passed, and the drives a warning is logged for. -/
def housekeeping_all_drives_loop (udisks_linux_drive_object_housekeeping : Nat → Nat → Bool)
    (secs_since_last : Nat) : List Nat → List (Nat × Nat) × List Nat
  | [] => ([], [])
  | object :: rest =>
    let r := housekeeping_all_drives_loop udisks_linux_drive_object_housekeeping
      secs_since_last rest
    if udisks_linux_drive_object_housekeeping object secs_since_last then
      ((object, secs_since_last) :: r.1, r.2)
    else
      ((object, secs_since_last) :: r.1, object :: r.2)

/-- The state after a housekeeping tick and the completed housekeeping job
at clock reading 1000, on the provider with the drive of `/sys/block/sda`. -/
def state_housekept : UDisksLinuxProvider :=
  g_io_scheduler_run_job (on_housekeeping_timeout state_sda) Job.housekeeping_thread_func 1000

/-- The consistency of the indexes with the objects they point at.
`vpd`: a drive stored under a vpd is a live object that carries this vpd as
its tag and has a member. `back`: a drive stored under a sysfs path is stored
in `vpd_to_drive` under its own tag and has a member with this path. `fresh`,
`block_fresh`: objects live below the next free address. `nodup`: no two
members of a drive share a sysfs path. `block`: a block object stored under a
sysfs path is a live object for a device with this path. `disjoint`: no
address holds both a drive object and a block object. -/
structure Consistent (s : UDisksLinuxProvider) : Prop where
  vpd : ∀ v obj, g_hash_table_lookup s.vpd_to_drive v = some obj →
    ∃ o, g_hash_table_lookup s.drive_objects obj = some o ∧ o.x_vpd = some v ∧ o.devices ≠ []
  back : ∀ path obj, g_hash_table_lookup s.sysfs_path_to_drive path = some obj →
    ∃ o v, g_hash_table_lookup s.drive_objects obj = some o ∧ o.x_vpd = some v ∧
      g_hash_table_lookup s.vpd_to_drive v = some obj ∧ path ∈ member_paths o
  fresh : ∀ obj o, g_hash_table_lookup s.drive_objects obj = some o → obj < s.next_object
  nodup : ∀ obj o, g_hash_table_lookup s.drive_objects obj = some o → (member_paths o).Nodup
  block : ∀ path b, g_hash_table_lookup s.sysfs_to_block path = some b →
    ∃ bo, g_hash_table_lookup s.block_objects b = some bo ∧ bo.device.sysfs_path = path
  block_fresh : ∀ b bo, g_hash_table_lookup s.block_objects b = some bo → b < s.next_object
  disjoint : ∀ x o bo, g_hash_table_lookup s.drive_objects x = some o →
    g_hash_table_lookup s.block_objects x = some bo → False

/-! ## Lemmas on the GLib string functions -/

theorem g_strchug_eq_dropWhile (s : List Char) :
    g_strchug s = s.dropWhile g_ascii_isspace := by
  induction s with
  | nil => rfl
  | cons c cs ih =>
    by_cases h : g_ascii_isspace c = true
    · simp [g_strchug, List.dropWhile, h, ih]
    · simp [g_strchug, List.dropWhile, h]

theorem g_strchomp_len_le (s : List Char) (n : Nat) : g_strchomp_len s n ≤ n := by
  induction n with
  | zero => simp [g_strchomp_len]
  | succ n ih =>
    simp only [g_strchomp_len]
    split
    · split
      · omega
      · exact le_refl _
    · exact le_refl _

theorem g_strchomp_len_snoc (pre : List Char) (c : Char) :
    g_strchomp_len (pre ++ [c]) (pre.length + 1) =
      if g_ascii_isspace c then g_strchomp_len (pre ++ [c]) pre.length else pre.length + 1 := by
  simp [g_strchomp_len]

theorem g_strchomp_len_append (pre post : List Char) :
    g_strchomp_len (pre ++ post) pre.length = g_strchomp_len pre pre.length := by
  induction pre using List.reverseRecOn generalizing post with
  | nil => simp [g_strchomp_len]
  | append_singleton pre c ih =>
    have h1 : (pre ++ [c] ++ post) = pre ++ ([c] ++ post) := by simp
    have h2 : (pre ++ [c]).length = pre.length + 1 := by simp
    rw [h2, g_strchomp_len_snoc]
    simp only [g_strchomp_len]
    have h3 : (pre ++ [c] ++ post)[pre.length]? = some c := by
      rw [h1, List.getElem?_append_right (le_refl _)]
      simp
    rw [h3]
    simp only []
    rw [h1, ih ([c] ++ post), ih [c]]

theorem g_strchomp_eq (s : List Char) :
    g_strchomp s = (s.reverse.dropWhile g_ascii_isspace).reverse := by
  induction s using List.reverseRecOn with
  | nil => simp [g_strchomp, g_strchomp_len]
  | append_singleton pre c ih =>
    unfold g_strchomp at ih ⊢
    have h2 : (pre ++ [c]).length = pre.length + 1 := by simp
    rw [h2, g_strchomp_len_snoc]
    by_cases h : g_ascii_isspace c = true
    · have hle : g_strchomp_len pre pre.length ≤ pre.length := g_strchomp_len_le _ _
      simp only [h, if_true, List.reverse_append, List.reverse_cons, List.reverse_nil,
        List.nil_append, List.singleton_append, List.dropWhile_cons]
      rw [g_strchomp_len_append, List.take_append_of_le_length hle, ih]
    · simp [h, List.dropWhile_cons]

theorem g_strstrip_eq_trim (s : List Char) : g_strstrip s = trim s := by
  simp [g_strstrip, trim, g_strchomp_eq, g_strchug_eq_dropWhile]

theorem strip_and_replace_with_uscore_loop_eq (fuel : Nat) (pre post : List Char)
    (h : post.length ≤ fuel) :
    strip_and_replace_with_uscore_loop fuel pre.length (pre ++ post) = pre ++ post.map uscore := by
  induction fuel generalizing pre post with
  | zero =>
    have hp : post = [] := List.length_eq_zero.mp (Nat.le_zero.mp h)
    subst hp
    simp [strip_and_replace_with_uscore_loop]
  | succ fuel ih =>
    cases post with
    | nil => simp [strip_and_replace_with_uscore_loop]
    | cons c post =>
      have hget : (pre ++ c :: post)[pre.length]? = some c := by
        rw [List.getElem?_append_right (le_refl _)]
        simp
      have hlen : post.length ≤ fuel := by simpa using h
      have hset : (pre ++ c :: post).set pre.length '_' = (pre ++ ['_']) ++ post := by
        simp [List.set_append]
      have hsame : pre ++ c :: post = (pre ++ [c]) ++ post := by simp
      have hl1 : pre.length + 1 = (pre ++ ['_']).length := by simp
      have hl2 : pre.length + 1 = (pre ++ [c]).length := by simp
      simp only [strip_and_replace_with_uscore_loop, hget]
      by_cases hc : c = ' ' ∨ c = '-' ∨ c = ':'
      · rw [if_pos hc, hset, hl1, ih _ _ hlen]
        simp [uscore, hc]
      · rw [if_neg hc, hsame, hl2, ih _ _ hlen]
        simp [uscore, hc]

theorem strip_and_replace_with_uscore_eq_sanitize (u : String) :
    strip_and_replace_with_uscore (some u) = some (sanitize u) := by
  have h := strip_and_replace_with_uscore_loop_eq (g_strstrip u.data).length []
    (g_strstrip u.data) (le_refl _)
  simp only [List.length_nil, List.nil_append, g_strstrip_eq_trim] at h
  simp only [strip_and_replace_with_uscore, sanitize, g_strstrip_eq_trim, h]

theorem trim_spec (s : List Char) :
    ∃ l r, s = l ++ trim s ++ r ∧ (∀ c ∈ l, g_ascii_isspace c = true) ∧
      (∀ c ∈ r, g_ascii_isspace c = true) ∧
      (∀ c, (trim s).head? = some c → g_ascii_isspace c = false) ∧
      (∀ c, (trim s).getLast? = some c → g_ascii_isspace c = false) := by
  let s1 := s.dropWhile g_ascii_isspace
  let t := s1.reverse.dropWhile g_ascii_isspace
  have htrim : trim s = t.reverse := rfl
  have hs : s = s.takeWhile g_ascii_isspace ++ s1 :=
    (List.takeWhile_append_dropWhile g_ascii_isspace s).symm
  have hs1 : s1 = t.reverse ++ (s1.reverse.takeWhile g_ascii_isspace).reverse := by
    have h := List.takeWhile_append_dropWhile g_ascii_isspace s1.reverse
    have h2 := congrArg List.reverse h
    simp only [List.reverse_append, List.reverse_reverse] at h2
    exact h2.symm
  have hlast : ∀ c, t.reverse.getLast? = some c → g_ascii_isspace c = false := by
    intro c hc
    rw [List.getLast?_reverse] at hc
    have h := List.head?_dropWhile_not g_ascii_isspace s1.reverse
    have ht : (List.dropWhile g_ascii_isspace s1.reverse).head? = some c := hc
    rw [ht] at h
    simpa using h
  refine ⟨s.takeWhile g_ascii_isspace, (s1.reverse.takeWhile g_ascii_isspace).reverse, ?_, ?_, ?_,
    ?_, ?_⟩
  · rw [htrim, List.append_assoc, ← hs1]
    exact hs
  · intro c hc
    exact List.mem_takeWhile_imp hc
  · intro c hc
    exact List.mem_takeWhile_imp (List.mem_reverse.mp hc)
  · intro c hc
    rw [htrim] at hc
    have h := List.head?_dropWhile_not g_ascii_isspace s
    have hhead : s1.head? = some c := by
      rw [hs1, List.head?_append, hc]
      rfl
    have hhead2 : (List.dropWhile g_ascii_isspace s).head? = some c := hhead
    rw [hhead2] at h
    simpa using h
  · intro c hc
    rw [htrim] at hc
    exact hlast c hc

/-! ## Lemmas on hash tables -/

theorem lookup_insert {κ α : Type} [DecidableEq κ] (t : List (κ × α)) (k k' : κ) (v : α) :
    g_hash_table_lookup (g_hash_table_insert t k v) k' =
      if k = k' then some v else g_hash_table_lookup t k' := by
  induction t with
  | nil => simp [g_hash_table_insert, g_hash_table_lookup]
  | cons e t ih =>
    obtain ⟨k0, v0⟩ := e
    by_cases h0 : k0 = k
    · subst h0
      by_cases h1 : k0 = k' <;> simp [g_hash_table_insert, g_hash_table_lookup, h1]
    · by_cases h1 : k0 = k'
      · subst h1
        have h2 : ¬ k = k0 := fun h => h0 h.symm
        simp [g_hash_table_insert, g_hash_table_lookup, h0, h2]
      · simp [g_hash_table_insert, g_hash_table_lookup, h0, h1, ih]

theorem lookup_remove {κ α : Type} [DecidableEq κ] (t : List (κ × α)) (k k' : κ) :
    g_hash_table_lookup (g_hash_table_remove t k) k' =
      if k = k' then none else g_hash_table_lookup t k' := by
  induction t with
  | nil => simp [g_hash_table_remove, g_hash_table_lookup]
  | cons e t ih =>
    obtain ⟨k0, v0⟩ := e
    by_cases h0 : k0 = k
    · subst h0
      by_cases h1 : k0 = k'
      · subst h1
        simpa [g_hash_table_remove] using ih
      · simpa [g_hash_table_remove, g_hash_table_lookup, h1] using ih
    · by_cases h1 : k0 = k'
      · subst h1
        have h2 : ¬ k = k0 := fun h => h0 h.symm
        simp [g_hash_table_remove, g_hash_table_lookup, h0, h2]
      · simp [g_hash_table_remove, g_hash_table_lookup, h0, h1, ih]

theorem remove_of_lookup_none {κ α : Type} [DecidableEq κ] (t : List (κ × α)) (k : κ)
    (h : g_hash_table_lookup t k = none) : g_hash_table_remove t k = t := by
  induction t with
  | nil => rfl
  | cons e t ih =>
    obtain ⟨k0, v0⟩ := e
    by_cases h0 : k0 = k
    · simp [g_hash_table_lookup, h0] at h
    · simp only [g_hash_table_lookup, h0, if_false] at h
      simp [g_hash_table_remove, h0, ih h]

theorem remove_insert_of_lookup_none {κ α : Type} [DecidableEq κ] (t : List (κ × α)) (k : κ)
    (v : α) (h : g_hash_table_lookup t k = none) :
    g_hash_table_remove (g_hash_table_insert t k v) k = t := by
  induction t with
  | nil => simp [g_hash_table_insert, g_hash_table_remove]
  | cons e t ih =>
    obtain ⟨k0, v0⟩ := e
    by_cases h0 : k0 = k
    · simp [g_hash_table_lookup, h0] at h
    · simp only [g_hash_table_lookup, h0, if_false] at h
      simp [g_hash_table_insert, g_hash_table_remove, h0, ih h]

/-! ## Lemmas on member lists -/

theorem find_link_none_iff (devices : List GUdevDevice) (sysfs_path : String) :
    find_link_for_sysfs_path devices sysfs_path = none ↔
      sysfs_path ∉ devices.map GUdevDevice.sysfs_path := by
  induction devices with
  | nil => simp [find_link_for_sysfs_path]
  | cons d ds ih =>
    by_cases h : d.sysfs_path = sysfs_path
    · simp [find_link_for_sysfs_path, h]
    · have h2 : ¬ sysfs_path = d.sysfs_path := fun e => h e.symm
      simp only [find_link_for_sysfs_path, h, if_false, Option.map_eq_none', ih, List.map_cons,
        List.mem_cons, h2, false_or]

theorem find_link_some (devices : List GUdevDevice) (sysfs_path : String) (i : Nat)
    (h : find_link_for_sysfs_path devices sysfs_path = some i) :
    (devices.eraseIdx i).map GUdevDevice.sysfs_path =
        (devices.map GUdevDevice.sysfs_path).erase sysfs_path ∧
      (∀ d : GUdevDevice, d.sysfs_path = sysfs_path →
        (devices.set i d).map GUdevDevice.sysfs_path = devices.map GUdevDevice.sysfs_path) ∧
      sysfs_path ∈ devices.map GUdevDevice.sysfs_path := by
  induction devices generalizing i with
  | nil => simp [find_link_for_sysfs_path] at h
  | cons d ds ih =>
    by_cases hd : d.sysfs_path = sysfs_path
    · simp only [find_link_for_sysfs_path, hd, if_true, Option.some.injEq] at h
      subst h
      refine ⟨by simp [hd], ?_, by simp [hd]⟩
      intro d' hd'
      simp [hd, hd']
    · simp only [find_link_for_sysfs_path, hd, if_false, Option.map_eq_some'] at h
      obtain ⟨j, hj, rfl⟩ := h
      obtain ⟨h1, h2, h3⟩ := ih j hj
      refine ⟨?_, ?_, ?_⟩
      · simp only [List.eraseIdx_cons_succ, List.map_cons, h1]
        rw [List.erase_cons_tail]
        simpa using hd
      · intro d' hd'
        simp only [List.set_cons_succ, List.map_cons, h2 d' hd']
      · simp [h3]

theorem find_link_append_self (devices : List GUdevDevice) (d : GUdevDevice)
    (h : d.sysfs_path ∉ devices.map GUdevDevice.sysfs_path) :
    find_link_for_sysfs_path (devices ++ [d]) d.sysfs_path = some devices.length := by
  induction devices with
  | nil => simp [find_link_for_sysfs_path]
  | cons e es ih =>
    simp only [List.map_cons, List.mem_cons, not_or] at h
    have h1 : ¬ e.sysfs_path = d.sysfs_path := fun x => h.1 x.symm
    simp [find_link_for_sysfs_path, h1, ih h.2]

theorem drive_uevent_x_vpd (o : UDisksLinuxDriveObject) (action : String)
    (device : Option GUdevDevice) :
    (udisks_linux_drive_object_uevent o action device).x_vpd = o.x_vpd := by
  unfold udisks_linux_drive_object_uevent
  split
  · rfl
  · split <;> split <;> rfl

theorem drive_uevent_paths (o : UDisksLinuxDriveObject) (action : String) (d : GUdevDevice) :
    member_paths (udisks_linux_drive_object_uevent o action (some d)) =
      if action = "remove" then (member_paths o).erase d.sysfs_path
      else if d.sysfs_path ∈ member_paths o then member_paths o
      else member_paths o ++ [d.sysfs_path] := by
  cases hlink : find_link_for_sysfs_path o.devices d.sysfs_path with
  | none =>
    have hn := (find_link_none_iff _ _).mp hlink
    by_cases ha : action = "remove"
    · simp [udisks_linux_drive_object_uevent, member_paths, hlink, ha, List.erase_of_not_mem hn]
    · simp [udisks_linux_drive_object_uevent, member_paths, hlink, ha, hn]
  | some i =>
    obtain ⟨h1, h2, h3⟩ := find_link_some _ _ _ hlink
    by_cases ha : action = "remove"
    · simp [udisks_linux_drive_object_uevent, member_paths, hlink, ha, h1]
    · simp [udisks_linux_drive_object_uevent, member_paths, hlink, ha, h3, h2 d rfl]

theorem drive_uevent_add_remove (o : UDisksLinuxDriveObject) (action : String) (d : GUdevDevice)
    (ha : action ≠ "remove") (h : d.sysfs_path ∉ member_paths o) :
    udisks_linux_drive_object_uevent (udisks_linux_drive_object_uevent o action (some d))
      "remove" (some d) = o := by
  have hn := (find_link_none_iff _ _).mpr h
  have h1 : udisks_linux_drive_object_uevent o action (some d) =
      { o with devices := o.devices ++ [d] } := by
    simp [udisks_linux_drive_object_uevent, hn, ha]
  rw [h1]
  have h2 := find_link_append_self o.devices d h
  have h3 : (o.devices ++ [d]).eraseIdx o.devices.length = o.devices := by
    rw [List.eraseIdx_append_of_length_le (le_refl _)]
    simp
  simp [udisks_linux_drive_object_uevent, h2, h3]

/-! ## The branches of the drive side and of the block side -/

theorem for_drive_remove_absent (s : UDisksLinuxProvider) (d : GUdevDevice)
    (h : g_hash_table_lookup s.sysfs_path_to_drive d.sysfs_path = none) :
    handle_block_uevent_for_drive s "remove" d = s := by
  simp [handle_block_uevent_for_drive, h]

theorem for_drive_remove_last (s : UDisksLinuxProvider) (d : GUdevDevice) (obj : Nat)
    (o : UDisksLinuxDriveObject) (v : String)
    (h : g_hash_table_lookup s.sysfs_path_to_drive d.sysfs_path = some obj)
    (ho : g_hash_table_lookup s.drive_objects obj = some o) (hv : o.x_vpd = some v)
    (he : (udisks_linux_drive_object_uevent o "remove" (some d)).devices = []) :
    handle_block_uevent_for_drive s "remove" d =
      { s with
        drive_objects := g_hash_table_insert s.drive_objects obj
          (udisks_linux_drive_object_uevent o "remove" (some d))
        sysfs_path_to_drive := g_hash_table_remove s.sysfs_path_to_drive d.sysfs_path
        vpd_to_drive := g_hash_table_remove s.vpd_to_drive v
        trace := s.trace ++ [Effect.drive_uevent obj "remove" d,
          Effect.remove Index.sysfs_path_to_drive d.sysfs_path, Effect.unexport obj,
          Effect.remove Index.vpd_to_drive v] } := by
  have hv2 : (udisks_linux_drive_object_uevent o "remove" (some d)).x_vpd = some v := by
    rw [drive_uevent_x_vpd, hv]
  simp [handle_block_uevent_for_drive, h, drive_object_uevent, record, ho,
    udisks_linux_drive_object_get_devices, g_object_get_data_x_vpd, lookup_insert, he, hv2]

theorem for_drive_remove_more (s : UDisksLinuxProvider) (d : GUdevDevice) (obj : Nat)
    (o : UDisksLinuxDriveObject)
    (h : g_hash_table_lookup s.sysfs_path_to_drive d.sysfs_path = some obj)
    (ho : g_hash_table_lookup s.drive_objects obj = some o)
    (he : (udisks_linux_drive_object_uevent o "remove" (some d)).devices ≠ []) :
    handle_block_uevent_for_drive s "remove" d =
      { s with
        drive_objects := g_hash_table_insert s.drive_objects obj
          (udisks_linux_drive_object_uevent o "remove" (some d))
        sysfs_path_to_drive := g_hash_table_remove s.sysfs_path_to_drive d.sysfs_path
        trace := s.trace ++ [Effect.drive_uevent obj "remove" d,
          Effect.remove Index.sysfs_path_to_drive d.sysfs_path] } := by
  obtain ⟨x, xs, hx⟩ := List.exists_cons_of_ne_nil he
  simp [handle_block_uevent_for_drive, h, drive_object_uevent, record, ho,
    udisks_linux_drive_object_get_devices, lookup_insert, hx]

theorem for_drive_skip (s : UDisksLinuxProvider) (a : String) (d : GUdevDevice)
    (ha : a ≠ "remove") (h : d.should_include = false ∨ d.vpd = none) :
    handle_block_uevent_for_drive s a d = s := by
  cases hi : d.should_include with
  | false =>
    simp [handle_block_uevent_for_drive, ha, udisks_linux_drive_object_should_include_device, hi]
  | true =>
    have hv : d.vpd = none := by
      rcases h with h | h
      · rw [hi] at h; cases h
      · exact h
    simp [handle_block_uevent_for_drive, ha, udisks_linux_drive_object_should_include_device, hi,
      hv]

theorem for_drive_known_unlinked (s : UDisksLinuxProvider) (a : String) (d : GUdevDevice)
    (v : String) (obj : Nat) (o : UDisksLinuxDriveObject)
    (ha : a ≠ "remove") (hi : d.should_include = true) (hv : d.vpd = some v)
    (hl : g_hash_table_lookup s.vpd_to_drive v = some obj)
    (ho : g_hash_table_lookup s.drive_objects obj = some o)
    (hp : g_hash_table_lookup s.sysfs_path_to_drive d.sysfs_path = none) :
    handle_block_uevent_for_drive s a d =
      { s with
        sysfs_path_to_drive := g_hash_table_insert s.sysfs_path_to_drive d.sysfs_path obj
        drive_objects := g_hash_table_insert s.drive_objects obj
          (udisks_linux_drive_object_uevent o a (some d))
        trace := s.trace ++ [Effect.insert Index.sysfs_path_to_drive d.sysfs_path obj,
          Effect.drive_uevent obj a d] } := by
  simp [handle_block_uevent_for_drive, ha, udisks_linux_drive_object_should_include_device, hi,
    hv, hl, hp, drive_object_uevent, record, ho]

theorem for_drive_known_linked (s : UDisksLinuxProvider) (a : String) (d : GUdevDevice)
    (v : String) (obj obj' : Nat) (o : UDisksLinuxDriveObject)
    (ha : a ≠ "remove") (hi : d.should_include = true) (hv : d.vpd = some v)
    (hl : g_hash_table_lookup s.vpd_to_drive v = some obj)
    (ho : g_hash_table_lookup s.drive_objects obj = some o)
    (hp : g_hash_table_lookup s.sysfs_path_to_drive d.sysfs_path = some obj') :
    handle_block_uevent_for_drive s a d =
      { s with
        drive_objects := g_hash_table_insert s.drive_objects obj
          (udisks_linux_drive_object_uevent o a (some d))
        trace := s.trace ++ [Effect.drive_uevent obj a d] } := by
  simp [handle_block_uevent_for_drive, ha, udisks_linux_drive_object_should_include_device, hi,
    hv, hl, hp, drive_object_uevent, record, ho]

theorem for_drive_new (s : UDisksLinuxProvider) (a : String) (d : GUdevDevice) (v : String)
    (ha : a ≠ "remove") (hi : d.should_include = true) (hv : d.vpd = some v)
    (hl : g_hash_table_lookup s.vpd_to_drive v = none) :
    handle_block_uevent_for_drive s a d =
      { s with
        next_object := s.next_object + 1
        drive_objects := g_hash_table_insert s.drive_objects s.next_object
          { devices := [d], x_vpd := some v }
        vpd_to_drive := g_hash_table_insert s.vpd_to_drive v s.next_object
        sysfs_path_to_drive :=
          g_hash_table_insert s.sysfs_path_to_drive d.sysfs_path s.next_object
        trace := s.trace ++ [Effect.export_uniquely s.next_object,
          Effect.insert Index.vpd_to_drive v s.next_object,
          Effect.insert Index.sysfs_path_to_drive d.sysfs_path s.next_object]
        jobs := if s.coldplug then s.jobs
          else s.jobs ++ [Job.perform_initial_housekeeping_for_drive s.next_object] } := by
  cases hc : s.coldplug <;>
  simp [handle_block_uevent_for_drive, ha, udisks_linux_drive_object_should_include_device, hi,
    hv, hl, udisks_linux_drive_object_new, record, hc]

theorem for_block_remove_absent (s : UDisksLinuxProvider) (d : GUdevDevice)
    (h : g_hash_table_lookup s.sysfs_to_block d.sysfs_path = none) :
    handle_block_uevent_for_block s "remove" d = s := by
  simp [handle_block_uevent_for_block, h]

theorem for_block_remove_present (s : UDisksLinuxProvider) (d : GUdevDevice) (b : Nat)
    (h : g_hash_table_lookup s.sysfs_to_block d.sysfs_path = some b) :
    handle_block_uevent_for_block s "remove" d =
      { s with
        sysfs_to_block := g_hash_table_remove s.sysfs_to_block d.sysfs_path
        trace := s.trace ++ [Effect.unexport b,
          Effect.remove Index.sysfs_to_block d.sysfs_path] } := by
  simp [handle_block_uevent_for_block, h, record]

theorem for_block_known (s : UDisksLinuxProvider) (a : String) (d : GUdevDevice) (b : Nat)
    (bo : UDisksLinuxBlockObject) (ha : a ≠ "remove")
    (h : g_hash_table_lookup s.sysfs_to_block d.sysfs_path = some b)
    (hb : g_hash_table_lookup s.block_objects b = some bo) :
    handle_block_uevent_for_block s a d =
      { s with
        block_objects := g_hash_table_insert s.block_objects b { device := d }
        trace := s.trace ++ [Effect.block_uevent b a (some d)] } := by
  simp [handle_block_uevent_for_block, ha, h, block_object_uevent, record, hb,
    udisks_linux_block_object_uevent]

theorem for_block_new (s : UDisksLinuxProvider) (a : String) (d : GUdevDevice)
    (ha : a ≠ "remove")
    (h : g_hash_table_lookup s.sysfs_to_block d.sysfs_path = none) :
    handle_block_uevent_for_block s a d =
      { s with
        next_object := s.next_object + 1
        block_objects := g_hash_table_insert s.block_objects s.next_object { device := d }
        sysfs_to_block := g_hash_table_insert s.sysfs_to_block d.sysfs_path s.next_object
        trace := s.trace ++ [Effect.export_uniquely s.next_object,
          Effect.insert Index.sysfs_to_block d.sysfs_path s.next_object] } := by
  simp [handle_block_uevent_for_block, ha, h, record, udisks_linux_block_object_new]

/-! ## The indexes stay consistent -/

theorem lookup_insert_self {κ α : Type} [DecidableEq κ] (t : List (κ × α)) (k : κ) (v : α) :
    g_hash_table_lookup (g_hash_table_insert t k v) k = some v := by
  rw [lookup_insert, if_pos rfl]

theorem lookup_insert_ne {κ α : Type} [DecidableEq κ] (t : List (κ × α)) (k k' : κ) (v : α)
    (h : k ≠ k') :
    g_hash_table_lookup (g_hash_table_insert t k v) k' = g_hash_table_lookup t k' := by
  rw [lookup_insert, if_neg h]

theorem lookup_remove_self {κ α : Type} [DecidableEq κ] (t : List (κ × α)) (k : κ) :
    g_hash_table_lookup (g_hash_table_remove t k) k = none := by
  rw [lookup_remove, if_pos rfl]

theorem lookup_remove_ne {κ α : Type} [DecidableEq κ] (t : List (κ × α)) (k k' : κ)
    (h : k ≠ k') :
    g_hash_table_lookup (g_hash_table_remove t k) k' = g_hash_table_lookup t k' := by
  rw [lookup_remove, if_neg h]

theorem lookup_insert_known {κ α : Type} [DecidableEq κ] (t : List (κ × α)) (k x : κ)
    (v v0 y : α) (hk : g_hash_table_lookup t k = some v0)
    (h : g_hash_table_lookup (g_hash_table_insert t k v) x = some y) :
    ∃ y', g_hash_table_lookup t x = some y' := by
  rw [lookup_insert] at h
  split at h
  · rename_i e; subst e; exact ⟨v0, hk⟩
  · exact ⟨y, h⟩

theorem consistent_new : Consistent udisks_linux_provider_new := by
  constructor <;> intros <;> simp_all [udisks_linux_provider_new, g_hash_table_lookup]

theorem consistent_for_drive_remove (s : UDisksLinuxProvider) (d : GUdevDevice)
    (h : Consistent s) : Consistent (handle_block_uevent_for_drive s "remove" d) := by
  cases h1 : g_hash_table_lookup s.sysfs_path_to_drive d.sysfs_path with
  | none => rw [for_drive_remove_absent s d h1]; exact h
  | some obj =>
    obtain ⟨o, v, ho, hv, hvd, hmem⟩ := h.back _ _ h1
    have hpaths := drive_uevent_paths o "remove" d
    simp only [if_true] at hpaths
    have hxv := drive_uevent_x_vpd o "remove" (some d)
    by_cases he : (udisks_linux_drive_object_uevent o "remove" (some d)).devices = []
    · rw [for_drive_remove_last s d obj o v h1 ho hv he]
      have hpe : (member_paths o).erase d.sysfs_path = [] := by
        rw [← hpaths]; simp [member_paths, he]
      constructor
      · intro v' obj' hl
        simp only [lookup_remove] at hl
        split at hl
        · cases hl
        · rename_i hne
          obtain ⟨o2, ho2, hv2, hne2⟩ := h.vpd v' obj' hl
          have hd : obj ≠ obj' := by
            rintro rfl
            rw [ho] at ho2; cases ho2
            rw [hv] at hv2; cases hv2
            exact hne rfl
          exact ⟨o2, by simp only [lookup_insert_ne _ _ _ _ hd, ho2], hv2, hne2⟩
      · intro q obj' hl
        simp only [lookup_remove] at hl
        split at hl
        · cases hl
        · rename_i hne
          obtain ⟨o2, v2, ho2, hv2, hvd2, hm2⟩ := h.back q obj' hl
          have hd : obj ≠ obj' := by
            rintro rfl
            rw [ho] at ho2; cases ho2
            have hq : q ∈ (member_paths o).erase d.sysfs_path :=
              (List.mem_erase_of_ne (fun e => hne e.symm)).mpr hm2
            rw [hpe] at hq
            cases hq
          have hvv : v ≠ v2 := by
            rintro rfl
            rw [hvd] at hvd2; cases hvd2
            exact hd rfl
          exact ⟨o2, v2, by simp only [lookup_insert_ne _ _ _ _ hd, ho2], hv2,
            by simp only [lookup_remove_ne _ _ _ hvv, hvd2], hm2⟩
      · intro obj' o' hl
        simp only [lookup_insert] at hl
        split at hl
        · rename_i e; subst e; exact h.fresh _ _ ho
        · exact h.fresh _ _ hl
      · intro obj' o' hl
        simp only [lookup_insert] at hl
        split at hl
        · cases hl
          rw [hpaths]
          exact (h.nodup _ _ ho).erase _
        · exact h.nodup _ _ hl
      · exact h.block
      · exact h.block_fresh
      · intro x o' bo hx hb
        obtain ⟨y, hy⟩ := lookup_insert_known _ _ _ _ _ _ ho hx
        exact h.disjoint x y bo hy hb
    · rw [for_drive_remove_more s d obj o h1 ho he]
      constructor
      · intro v' obj' hl
        obtain ⟨o2, ho2, hv2, hne2⟩ := h.vpd v' obj' hl
        by_cases hd : obj = obj'
        · subst hd
          rw [ho] at ho2; cases ho2
          exact ⟨_, lookup_insert_self _ _ _, by rw [hxv, hv2], he⟩
        · exact ⟨o2, by simp only [lookup_insert_ne _ _ _ _ hd, ho2], hv2, hne2⟩
      · intro q obj' hl
        simp only [lookup_remove] at hl
        split at hl
        · cases hl
        · rename_i hne
          obtain ⟨o2, v2, ho2, hv2, hvd2, hm2⟩ := h.back q obj' hl
          by_cases hd : obj = obj'
          · subst hd
            rw [ho] at ho2; cases ho2
            refine ⟨_, v2, lookup_insert_self _ _ _, by rw [hxv, hv2], hvd2, ?_⟩
            rw [hpaths]
            exact (List.mem_erase_of_ne (fun e => hne e.symm)).mpr hm2
          · exact ⟨o2, v2, by simp only [lookup_insert_ne _ _ _ _ hd, ho2], hv2, hvd2, hm2⟩
      · intro obj' o' hl
        simp only [lookup_insert] at hl
        split at hl
        · rename_i e; subst e; exact h.fresh _ _ ho
        · exact h.fresh _ _ hl
      · intro obj' o' hl
        simp only [lookup_insert] at hl
        split at hl
        · cases hl
          rw [hpaths]
          exact (h.nodup _ _ ho).erase _
        · exact h.nodup _ _ hl
      · exact h.block
      · exact h.block_fresh
      · intro x o' bo hx hb
        obtain ⟨y, hy⟩ := lookup_insert_known _ _ _ _ _ _ ho hx
        exact h.disjoint x y bo hy hb

theorem drive_uevent_other_facts (o : UDisksLinuxDriveObject) (a : String) (d : GUdevDevice)
    (ha : a ≠ "remove") (hn : (member_paths o).Nodup) :
    d.sysfs_path ∈ member_paths (udisks_linux_drive_object_uevent o a (some d)) ∧
      (∀ q ∈ member_paths o, q ∈ member_paths (udisks_linux_drive_object_uevent o a (some d))) ∧
      (member_paths (udisks_linux_drive_object_uevent o a (some d))).Nodup ∧
      (udisks_linux_drive_object_uevent o a (some d)).devices ≠ [] := by
  have hpaths := drive_uevent_paths o a d
  simp only [ha, if_false] at hpaths
  have hmem : d.sysfs_path ∈ member_paths (udisks_linux_drive_object_uevent o a (some d)) := by
    rw [hpaths]
    split
    · assumption
    · simp
  refine ⟨hmem, ?_, ?_, ?_⟩
  · intro q hq
    rw [hpaths]
    split
    · exact hq
    · exact List.mem_append_left _ hq
  · rw [hpaths]
    split
    · exact hn
    · rename_i hnot
      rw [List.nodup_append]
      refine ⟨hn, List.nodup_singleton _, ?_⟩
      intro x hx hx'
      rw [List.mem_singleton] at hx'
      subst hx'
      exact hnot hx
  · intro he
    simp [member_paths, he] at hmem

theorem consistent_for_drive_other (s : UDisksLinuxProvider) (a : String) (d : GUdevDevice)
    (ha : a ≠ "remove") (h : Consistent s) : Consistent (handle_block_uevent_for_drive s a d) := by
  by_cases hskip : d.should_include = false ∨ d.vpd = none
  · rw [for_drive_skip s a d ha hskip]; exact h
  · have hi : d.should_include = true := by
      cases hd : d.should_include with
      | false => exact absurd (Or.inl hd) hskip
      | true => rfl
    obtain ⟨v, hv⟩ : ∃ v, d.vpd = some v := by
      cases hd : d.vpd with
      | none => exact absurd (Or.inr hd) hskip
      | some v => exact ⟨v, rfl⟩
    cases hl : g_hash_table_lookup s.vpd_to_drive v with
    | some obj =>
      obtain ⟨o, ho, hxv, hne⟩ := h.vpd v obj hl
      obtain ⟨hmem, hsub, hnd, hnonempty⟩ := drive_uevent_other_facts o a d ha (h.nodup _ _ ho)
      have hxv' := drive_uevent_x_vpd o a (some d)
      have hvpd : ∀ v' obj', g_hash_table_lookup s.vpd_to_drive v' = some obj' →
          ∃ o', g_hash_table_lookup (g_hash_table_insert s.drive_objects obj
              (udisks_linux_drive_object_uevent o a (some d))) obj' = some o' ∧
            o'.x_vpd = some v' ∧ o'.devices ≠ [] := by
        intro v' obj' hl'
        obtain ⟨o2, ho2, hv2, hne2⟩ := h.vpd v' obj' hl'
        by_cases hd : obj = obj'
        · subst hd
          rw [ho] at ho2; cases ho2
          exact ⟨_, lookup_insert_self _ _ _, by rw [hxv', hv2], hnonempty⟩
        · exact ⟨o2, by simp only [lookup_insert_ne _ _ _ _ hd, ho2], hv2, hne2⟩
      have hback : ∀ q obj', g_hash_table_lookup s.sysfs_path_to_drive q = some obj' →
          ∃ o' v', g_hash_table_lookup (g_hash_table_insert s.drive_objects obj
              (udisks_linux_drive_object_uevent o a (some d))) obj' = some o' ∧
            o'.x_vpd = some v' ∧ g_hash_table_lookup s.vpd_to_drive v' = some obj' ∧
            q ∈ member_paths o' := by
        intro q obj' hl'
        obtain ⟨o2, v2, ho2, hv2, hvd2, hm2⟩ := h.back q obj' hl'
        by_cases hd : obj = obj'
        · subst hd
          rw [ho] at ho2; cases ho2
          exact ⟨_, v2, lookup_insert_self _ _ _, by rw [hxv', hv2], hvd2, hsub q hm2⟩
        · exact ⟨o2, v2, by simp only [lookup_insert_ne _ _ _ _ hd, ho2], hv2, hvd2, hm2⟩
      have hfresh : ∀ obj' o', g_hash_table_lookup (g_hash_table_insert s.drive_objects obj
          (udisks_linux_drive_object_uevent o a (some d))) obj' = some o' →
          obj' < s.next_object := by
        intro obj' o' hl'
        simp only [lookup_insert] at hl'
        split at hl'
        · rename_i e; subst e; exact h.fresh _ _ ho
        · exact h.fresh _ _ hl'
      have hnodup : ∀ obj' o', g_hash_table_lookup (g_hash_table_insert s.drive_objects obj
          (udisks_linux_drive_object_uevent o a (some d))) obj' = some o' →
          (member_paths o').Nodup := by
        intro obj' o' hl'
        simp only [lookup_insert] at hl'
        split at hl'
        · cases hl'; exact hnd
        · exact h.nodup _ _ hl'
      have hdisj : ∀ x o' bo, g_hash_table_lookup (g_hash_table_insert s.drive_objects obj
          (udisks_linux_drive_object_uevent o a (some d))) x = some o' →
          g_hash_table_lookup s.block_objects x = some bo → False := by
        intro x o' bo hx hb
        obtain ⟨y, hy⟩ := lookup_insert_known _ _ _ _ _ _ ho hx
        exact h.disjoint x y bo hy hb
      cases hp : g_hash_table_lookup s.sysfs_path_to_drive d.sysfs_path with
      | none =>
        rw [for_drive_known_unlinked s a d v obj o ha hi hv hl ho hp]
        refine ⟨hvpd, ?_, hfresh, hnodup, h.block, h.block_fresh, hdisj⟩
        intro q obj' hl'
        simp only [lookup_insert] at hl'
        split at hl'
        · rename_i e
          subst e
          cases hl'
          exact ⟨_, v, lookup_insert_self _ _ _, by rw [hxv', hxv], hl, hmem⟩
        · exact hback q obj' hl'
      | some obj' =>
        rw [for_drive_known_linked s a d v obj obj' o ha hi hv hl ho hp]
        exact ⟨hvpd, hback, hfresh, hnodup, h.block, h.block_fresh, hdisj⟩
    | none =>
      rw [for_drive_new s a d v ha hi hv hl]
      constructor
      · intro v' obj' hl'
        simp only [lookup_insert] at hl'
        split at hl'
        · rename_i e
          subst e
          cases hl'
          exact ⟨_, lookup_insert_self _ _ _, rfl, by simp⟩
        · obtain ⟨o2, ho2, hv2, hne2⟩ := h.vpd v' obj' hl'
          have hlt := h.fresh _ _ ho2
          have hd : s.next_object ≠ obj' := by omega
          exact ⟨o2, by simp only [lookup_insert_ne _ _ _ _ hd, ho2], hv2, hne2⟩
      · intro q obj' hl'
        simp only [lookup_insert] at hl'
        split at hl'
        · rename_i e
          cases hl'
          exact ⟨_, v, lookup_insert_self _ _ _, rfl, lookup_insert_self _ _ _,
            by simp [member_paths, e]⟩
        · obtain ⟨o2, v2, ho2, hv2, hvd2, hm2⟩ := h.back q obj' hl'
          have hlt := h.fresh _ _ ho2
          have hd : s.next_object ≠ obj' := by omega
          have hvv : v ≠ v2 := by
            rintro rfl
            rw [hl] at hvd2; cases hvd2
          exact ⟨o2, v2, by simp only [lookup_insert_ne _ _ _ _ hd, ho2], hv2,
            by simp only [lookup_insert_ne _ _ _ _ hvv, hvd2], hm2⟩
      · intro obj' o' hl'
        simp only [lookup_insert] at hl'
        split at hl'
        · rename_i e; subst e; exact Nat.lt_succ_self _
        · exact Nat.lt_succ_of_lt (h.fresh _ _ hl')
      · intro obj' o' hl'
        simp only [lookup_insert] at hl'
        split at hl'
        · cases hl'; simp [member_paths]
        · exact h.nodup _ _ hl'
      · exact h.block
      · intro b bo hb
        exact Nat.lt_succ_of_lt (h.block_fresh b bo hb)
      · intro x o' bo hx hb
        simp only [lookup_insert] at hx
        split at hx
        · rename_i e
          subst e
          exact absurd (h.block_fresh _ _ hb) (lt_irrefl _)
        · exact h.disjoint x o' bo hx hb

theorem consistent_for_drive (s : UDisksLinuxProvider) (a : String) (d : GUdevDevice)
    (h : Consistent s) : Consistent (handle_block_uevent_for_drive s a d) := by
  by_cases ha : a = "remove"
  · subst ha; exact consistent_for_drive_remove s d h
  · exact consistent_for_drive_other s a d ha h

theorem consistent_for_block (s : UDisksLinuxProvider) (a : String) (d : GUdevDevice)
    (h : Consistent s) : Consistent (handle_block_uevent_for_block s a d) := by
  by_cases ha : a = "remove"
  · subst ha
    cases hl : g_hash_table_lookup s.sysfs_to_block d.sysfs_path with
    | none => rw [for_block_remove_absent s d hl]; exact h
    | some b =>
      rw [for_block_remove_present s d b hl]
      refine ⟨h.vpd, h.back, h.fresh, h.nodup, ?_, h.block_fresh, h.disjoint⟩
      intro q b' hl'
      simp only [lookup_remove] at hl'
      split at hl'
      · cases hl'
      · exact h.block q b' hl'
  · cases hl : g_hash_table_lookup s.sysfs_to_block d.sysfs_path with
    | some b =>
      obtain ⟨bo, hbo, hpath⟩ := h.block _ _ hl
      rw [for_block_known s a d b bo ha hl hbo]
      refine ⟨h.vpd, h.back, h.fresh, h.nodup, ?_, ?_, ?_⟩
      · intro q b' hl'
        obtain ⟨bo2, hbo2, hpath2⟩ := h.block q b' hl'
        by_cases hd : b = b'
        · subst hd
          rw [hbo] at hbo2; cases hbo2
          exact ⟨_, lookup_insert_self _ _ _, by rw [← hpath2, hpath]⟩
        · exact ⟨bo2, by simp only [lookup_insert_ne _ _ _ _ hd, hbo2], hpath2⟩
      · intro b' bo' hl'
        simp only [lookup_insert] at hl'
        split at hl'
        · rename_i e; subst e; exact h.block_fresh _ _ hbo
        · exact h.block_fresh _ _ hl'
      · intro x o' bo' hx hb
        obtain ⟨y, hy⟩ := lookup_insert_known _ _ _ _ _ _ hbo hb
        exact h.disjoint x o' y hx hy
    | none =>
      rw [for_block_new s a d ha hl]
      refine ⟨h.vpd, h.back, ?_, h.nodup, ?_, ?_, ?_⟩
      rotate_left 3
      · intro x o' bo' hx hb
        simp only [lookup_insert] at hb
        split at hb
        · rename_i e
          subst e
          exact absurd (h.fresh _ _ hx) (lt_irrefl _)
        · exact h.disjoint x o' bo' hx hb
      · intro obj o ho
        exact Nat.lt_succ_of_lt (h.fresh obj o ho)
      · intro q b' hl'
        simp only [lookup_insert] at hl'
        split at hl'
        · rename_i e
          cases hl'
          exact ⟨_, lookup_insert_self _ _ _, e⟩
        · obtain ⟨bo2, hbo2, hpath2⟩ := h.block q b' hl'
          have hlt := h.block_fresh _ _ hbo2
          have hd : s.next_object ≠ b' := by omega
          exact ⟨bo2, by simp only [lookup_insert_ne _ _ _ _ hd, hbo2], hpath2⟩
      · intro b' bo' hl'
        simp only [lookup_insert] at hl'
        split at hl'
        · rename_i e; subst e; exact Nat.lt_succ_self _
        · exact Nat.lt_succ_of_lt (h.block_fresh _ _ hl')

theorem consistent_of_registry_eq (s s' : UDisksLinuxProvider) (he : registry s' = registry s)
    (h : Consistent s) : Consistent s' := by
  simp only [registry, Prod.mk.injEq] at he
  obtain ⟨e1, e2, e3, e4, e5, e6⟩ := he
  constructor
  · rw [e2, e4]; exact h.vpd
  · rw [e2, e3, e4]; exact h.back
  · rw [e4, e6]; exact h.fresh
  · rw [e4]; exact h.nodup
  · rw [e1, e5]; exact h.block
  · rw [e5, e6]; exact h.block_fresh
  · rw [e4, e5]; exact h.disjoint

theorem registry_record (s : UDisksLinuxProvider) (e : Effect) :
    registry (record s e) = registry s := rfl

theorem registry_housekeeping_all_drives (s : UDisksLinuxProvider) (secs : Nat) :
    registry (housekeeping_all_drives s secs) = registry s := by
  unfold housekeeping_all_drives
  generalize g_hash_table_get_values s.vpd_to_drive = objects
  induction objects generalizing s with
  | nil => rfl
  | cons x xs ih =>
    simp only [List.foldl_cons]
    rw [ih (record s _), registry_record]

theorem registry_housekeeping_thread_func (s : UDisksLinuxProvider) (time : Nat) :
    registry (housekeeping_thread_func s time) = registry s := by
  unfold housekeeping_thread_func
  simp only []
  exact registry_housekeeping_all_drives _ _

theorem registry_on_housekeeping_timeout (s : UDisksLinuxProvider) :
    registry (on_housekeeping_timeout s) = registry s := by
  unfold on_housekeeping_timeout
  split <;> rfl

theorem registry_run_job (s : UDisksLinuxProvider) (job : Job) (time : Nat) :
    registry (g_io_scheduler_run_job s job time) = registry s := by
  unfold g_io_scheduler_run_job
  split
  · cases job with
    | perform_initial_housekeeping_for_drive obj => rfl
    | housekeeping_thread_func => exact registry_housekeeping_thread_func _ _
  · rfl

theorem consistent_handle_block_uevent (s : UDisksLinuxProvider) (a : String) (d : GUdevDevice)
    (h : Consistent s) : Consistent (handle_block_uevent s a d) := by
  unfold handle_block_uevent
  have key : Consistent (if a = "remove" then
      handle_block_uevent_for_drive (handle_block_uevent_for_block s a d) a d
    else handle_block_uevent_for_block (handle_block_uevent_for_drive s a d) a d) := by
    split
    · exact consistent_for_drive _ _ _ (consistent_for_block _ _ _ h)
    · exact consistent_for_block _ _ _ (consistent_for_drive _ _ _ h)
  simp only []
  split
  · exact consistent_of_registry_eq _ _ (registry_record _ _) key
  · exact key

theorem reachable_consistent (s : UDisksLinuxProvider) (h : Reachable s) : Consistent s := by
  induction h with
  | new => exact consistent_new
  | coldplug p b _ ih => exact consistent_of_registry_eq p _ rfl ih
  | uevent p a d _ ih => exact consistent_handle_block_uevent p a d ih
  | timeout p _ ih => exact consistent_of_registry_eq _ _ (registry_on_housekeeping_timeout p) ih
  | job p j t _ ih => exact consistent_of_registry_eq _ _ (registry_run_job p j t) ih

theorem reachable_run_uevents (s : UDisksLinuxProvider) (evs : List (String × GUdevDevice))
    (h : Reachable s) : Reachable (run_uevents s evs) := by
  induction evs generalizing s with
  | nil => exact h
  | cons e es ih =>
    obtain ⟨a, d⟩ := e
    exact ih _ (Reachable.uevent s a d h)

/-! ## What each side leaves alone, and what it records -/

theorem for_block_frame (s : UDisksLinuxProvider) (a : String) (d : GUdevDevice) :
    (handle_block_uevent_for_block s a d).vpd_to_drive = s.vpd_to_drive ∧
    (handle_block_uevent_for_block s a d).sysfs_path_to_drive = s.sysfs_path_to_drive ∧
    (handle_block_uevent_for_block s a d).drive_objects = s.drive_objects ∧
    (handle_block_uevent_for_block s a d).jobs = s.jobs ∧
    (handle_block_uevent_for_block s a d).coldplug = s.coldplug ∧
    (handle_block_uevent_for_block s a d).housekeeping_running = s.housekeeping_running ∧
    (handle_block_uevent_for_block s a d).housekeeping_last = s.housekeeping_last := by
  unfold handle_block_uevent_for_block block_object_uevent record
  simp only []
  split <;> split <;> (try split) <;> simp

theorem for_block_remove_index (s : UDisksLinuxProvider) (d : GUdevDevice) :
    (handle_block_uevent_for_block s "remove" d).sysfs_to_block =
      g_hash_table_remove s.sysfs_to_block d.sysfs_path := by
  cases h : g_hash_table_lookup s.sysfs_to_block d.sysfs_path with
  | none => rw [for_block_remove_absent s d h, remove_of_lookup_none _ _ h]
  | some b => rw [for_block_remove_present s d b h]

theorem for_drive_frame (s : UDisksLinuxProvider) (a : String) (d : GUdevDevice) :
    (handle_block_uevent_for_drive s a d).sysfs_to_block = s.sysfs_to_block ∧
    (handle_block_uevent_for_drive s a d).block_objects = s.block_objects ∧
    (handle_block_uevent_for_drive s a d).coldplug = s.coldplug ∧
    (handle_block_uevent_for_drive s a d).housekeeping_running = s.housekeeping_running ∧
    (handle_block_uevent_for_drive s a d).housekeeping_last = s.housekeeping_last := by
  unfold handle_block_uevent_for_drive drive_object_uevent record
    udisks_linux_drive_object_get_devices g_object_get_data_x_vpd
    udisks_linux_drive_object_should_include_device udisks_linux_drive_object_new
  simp only []
  split
  · split
    · split
      · split <;> split <;> simp_all
      · split <;> simp_all
    · simp
  · split
    · simp
    · simp
    · split
      · split <;> split <;> simp
      · split <;> simp

theorem for_drive_remove_index (s : UDisksLinuxProvider) (d : GUdevDevice) :
    (handle_block_uevent_for_drive s "remove" d).sysfs_path_to_drive =
      g_hash_table_remove s.sysfs_path_to_drive d.sysfs_path := by
  unfold handle_block_uevent_for_drive drive_object_uevent record
    udisks_linux_drive_object_get_devices g_object_get_data_x_vpd
  simp only [if_true]
  split
  · split
    · split <;> split <;> simp_all
    · split <;> simp_all
  · rename_i h
    rw [remove_of_lookup_none _ _ h]

theorem for_block_trace (s : UDisksLinuxProvider) (a : String) (d : GUdevDevice) :
    (handle_block_uevent_for_block s a d).trace =
        s.trace ++ new_effects s (handle_block_uevent_for_block s a d) ∧
      (∀ e ∈ new_effects s (handle_block_uevent_for_block s a d),
        is_drive_mutation e = false ∧ e ≠ Effect.cleanup_check) ∧
      (∀ x, Effect.unexport x ∈ new_effects s (handle_block_uevent_for_block s a d) →
        a = "remove" ∧ g_hash_table_lookup s.sysfs_to_block d.sysfs_path = some x) := by
  unfold new_effects handle_block_uevent_for_block block_object_uevent record
  simp only []
  split
  · split
    · simp_all [is_drive_mutation]
    · simp
  · split
    · split <;> simp_all [is_drive_mutation]
    · simp_all [is_drive_mutation]

theorem for_drive_trace (s : UDisksLinuxProvider) (a : String) (d : GUdevDevice) :
    (handle_block_uevent_for_drive s a d).trace =
        s.trace ++ new_effects s (handle_block_uevent_for_drive s a d) ∧
      (∀ e ∈ new_effects s (handle_block_uevent_for_drive s a d),
        is_block_mutation e = false ∧ e ≠ Effect.cleanup_check) ∧
      (∀ x, Effect.unexport x ∈ new_effects s (handle_block_uevent_for_drive s a d) →
        a = "remove" ∧ g_hash_table_lookup s.sysfs_path_to_drive d.sysfs_path = some x ∧
        udisks_linux_drive_object_get_devices (handle_block_uevent_for_drive s a d) x = []) := by
  unfold new_effects handle_block_uevent_for_drive drive_object_uevent record
    udisks_linux_drive_object_get_devices g_object_get_data_x_vpd
    udisks_linux_drive_object_should_include_device udisks_linux_drive_object_new
  simp only []
  split
  · split
    · split
      · split <;> split <;> simp_all [is_block_mutation]
      · split <;> simp_all [is_block_mutation]
    · simp
  · split
    · simp
    · simp
    · split
      · split <;> split <;> simp_all [is_block_mutation]
      · split <;> simp_all [is_block_mutation]

theorem new_effects_of_eq (s s' : UDisksLinuxProvider) (t : List Effect)
    (h : s'.trace = s.trace ++ t) : new_effects s s' = t := by
  simp [new_effects, h]

theorem handle_block_uevent_remove (s : UDisksLinuxProvider) (d : GUdevDevice) :
    handle_block_uevent s "remove" d =
      udisks_cleanup_check
        (handle_block_uevent_for_drive (handle_block_uevent_for_block s "remove" d) "remove" d) := by
  simp [handle_block_uevent]

theorem handle_block_uevent_add (s : UDisksLinuxProvider) (d : GUdevDevice) :
    handle_block_uevent s "add" d =
      handle_block_uevent_for_block (handle_block_uevent_for_drive s "add" d) "add" d := by
  simp [handle_block_uevent]

theorem handle_block_uevent_other (s : UDisksLinuxProvider) (a : String) (d : GUdevDevice)
    (h1 : a ≠ "remove") (h2 : a ≠ "add") :
    handle_block_uevent s a d =
      udisks_cleanup_check
        (handle_block_uevent_for_block (handle_block_uevent_for_drive s a d) a d) := by
  simp [handle_block_uevent, h1, h2]

/-! ## When a drive leaves `vpd_to_drive` -/

theorem for_drive_keeps_vpd (s : UDisksLinuxProvider) (a : String) (d : GUdevDevice)
    (ha : a ≠ "remove") (K : Consistent s) (v : String) (obj : Nat)
    (hl : g_hash_table_lookup s.vpd_to_drive v = some obj) :
    g_hash_table_lookup (handle_block_uevent_for_drive s a d).vpd_to_drive v = some obj := by
  by_cases hskip : d.should_include = false ∨ d.vpd = none
  · rw [for_drive_skip s a d ha hskip]; exact hl
  · have hi : d.should_include = true := by
      cases hd : d.should_include with
      | false => exact absurd (Or.inl hd) hskip
      | true => rfl
    obtain ⟨v2, hv⟩ : ∃ v, d.vpd = some v := by
      cases hd : d.vpd with
      | none => exact absurd (Or.inr hd) hskip
      | some v => exact ⟨v, rfl⟩
    cases hl2 : g_hash_table_lookup s.vpd_to_drive v2 with
    | some obj2 =>
      obtain ⟨o, ho, _, _⟩ := K.vpd v2 obj2 hl2
      cases hp : g_hash_table_lookup s.sysfs_path_to_drive d.sysfs_path with
      | none => rw [for_drive_known_unlinked s a d v2 obj2 o ha hi hv hl2 ho hp]; exact hl
      | some obj' => rw [for_drive_known_linked s a d v2 obj2 obj' o ha hi hv hl2 ho hp]; exact hl
    | none =>
      rw [for_drive_new s a d v2 ha hi hv hl2]
      have hne : v2 ≠ v := by
        rintro rfl
        rw [hl] at hl2; cases hl2
      simp only [lookup_insert_ne _ _ _ _ hne, hl]

theorem for_drive_remove_erases (s : UDisksLinuxProvider) (d : GUdevDevice)
    (K : Consistent s) (v : String) (obj : Nat)
    (hl : g_hash_table_lookup s.vpd_to_drive v = some obj) :
    (g_hash_table_lookup (handle_block_uevent_for_drive s "remove" d).vpd_to_drive v = none ∨
      g_hash_table_lookup (handle_block_uevent_for_drive s "remove" d).vpd_to_drive v =
        some obj) ∧
    (g_hash_table_lookup (handle_block_uevent_for_drive s "remove" d).vpd_to_drive v = none ↔
      g_hash_table_lookup s.sysfs_path_to_drive d.sysfs_path = some obj ∧
      udisks_linux_drive_object_get_devices (handle_block_uevent_for_drive s "remove" d) obj
        = []) ∧
    (Effect.unexport obj ∈ new_effects s (handle_block_uevent_for_drive s "remove" d) ↔
      g_hash_table_lookup (handle_block_uevent_for_drive s "remove" d).vpd_to_drive v = none) := by
  obtain ⟨o, ho, hxv, hne⟩ := K.vpd v obj hl
  cases h1 : g_hash_table_lookup s.sysfs_path_to_drive d.sysfs_path with
  | none =>
    rw [for_drive_remove_absent s d h1]
    simp [hl, new_effects]
  | some obj' =>
    obtain ⟨o', v', ho', hv', hvd', hmem'⟩ := K.back _ _ h1
    have hiff : v' = v ↔ obj' = obj := by
      constructor
      · rintro rfl
        rw [hl] at hvd'; cases hvd'; rfl
      · rintro rfl
        rw [ho] at ho'; cases ho'
        rw [hxv] at hv'; cases hv'; rfl
    by_cases he : (udisks_linux_drive_object_uevent o' "remove" (some d)).devices = []
    · rw [for_drive_remove_last s d obj' o' v' h1 ho' hv' he]
      have hne_eff := new_effects_of_eq s
        { s with
          drive_objects := g_hash_table_insert s.drive_objects obj'
            (udisks_linux_drive_object_uevent o' "remove" (some d))
          sysfs_path_to_drive := g_hash_table_remove s.sysfs_path_to_drive d.sysfs_path
          vpd_to_drive := g_hash_table_remove s.vpd_to_drive v'
          trace := s.trace ++ [Effect.drive_uevent obj' "remove" d,
            Effect.remove Index.sysfs_path_to_drive d.sysfs_path, Effect.unexport obj',
            Effect.remove Index.vpd_to_drive v'] } _ rfl
      rw [hne_eff]
      by_cases hsame : obj' = obj
      · have hv := hiff.mpr hsame
        subst hsame
        subst hv
        simp [lookup_remove, udisks_linux_drive_object_get_devices, lookup_insert, he]
      · have hv : ¬ v' = v := fun e => hsame (hiff.mp e)
        have hsame' : ¬ obj = obj' := fun e => hsame e.symm
        simp [lookup_remove, hv, hl, hsame, hsame']
    · rw [for_drive_remove_more s d obj' o' h1 ho' he]
      have hne_eff := new_effects_of_eq s
        { s with
          drive_objects := g_hash_table_insert s.drive_objects obj'
            (udisks_linux_drive_object_uevent o' "remove" (some d))
          sysfs_path_to_drive := g_hash_table_remove s.sysfs_path_to_drive d.sysfs_path
          trace := s.trace ++ [Effect.drive_uevent obj' "remove" d,
            Effect.remove Index.sysfs_path_to_drive d.sysfs_path] } _ rfl
      rw [hne_eff]
      by_cases hsame : obj' = obj
      · subst hsame
        simp [hl, udisks_linux_drive_object_get_devices, lookup_insert, he]
      · simp [hl, hsame]

theorem trace_trans (s s1 s2 : UDisksLinuxProvider) (t1 t2 : List Effect)
    (h1 : s1.trace = s.trace ++ t1) (h2 : s2.trace = s1.trace ++ t2) :
    new_effects s s2 = t1 ++ t2 := by
  apply new_effects_of_eq
  rw [h2, h1, List.append_assoc]

theorem for_block_trace_ex (s : UDisksLinuxProvider) (a : String) (d : GUdevDevice) :
    ∃ tb, (handle_block_uevent_for_block s a d).trace = s.trace ++ tb ∧
      (∀ e ∈ tb, is_drive_mutation e = false ∧ e ≠ Effect.cleanup_check) ∧
      (∀ x, Effect.unexport x ∈ tb →
        a = "remove" ∧ g_hash_table_lookup s.sysfs_to_block d.sysfs_path = some x) :=
  ⟨_, for_block_trace s a d⟩

theorem for_drive_trace_ex (s : UDisksLinuxProvider) (a : String) (d : GUdevDevice) :
    ∃ td, (handle_block_uevent_for_drive s a d).trace = s.trace ++ td ∧
      (∀ e ∈ td, is_block_mutation e = false ∧ e ≠ Effect.cleanup_check) ∧
      (∀ x, Effect.unexport x ∈ td →
        a = "remove" ∧ g_hash_table_lookup s.sysfs_path_to_drive d.sysfs_path = some x ∧
        udisks_linux_drive_object_get_devices (handle_block_uevent_for_drive s a d) x = []) :=
  ⟨_, for_drive_trace s a d⟩

/-! ## Members and their back-references -/

theorem drive_uevent_other_paths (o : UDisksLinuxDriveObject) (a : String) (d : GUdevDevice)
    (ha : a ≠ "remove") (q : String)
    (hq : q ∈ member_paths (udisks_linux_drive_object_uevent o a (some d))) :
    q ∈ member_paths o ∨ q = d.sysfs_path := by
  rw [drive_uevent_paths] at hq
  simp only [ha, if_false] at hq
  split at hq
  · exact Or.inl hq
  · simpa using hq

theorem vpd_agrees_linked (s : UDisksLinuxProvider) (a : String) (d : GUdevDevice) (v : String)
    (obj : Nat) (ha : a ≠ "remove") (hi : d.should_include = true) (hv : d.vpd = some v)
    (hp : g_hash_table_lookup s.sysfs_path_to_drive d.sysfs_path = some obj)
    (hag : vpd_agrees s a d = true) (K : Consistent s) :
    g_hash_table_lookup s.vpd_to_drive v = some obj := by
  obtain ⟨o, v', ho, hv', hvd, -⟩ := K.back _ _ hp
  simp [vpd_agrees, ha, hi, hv, hp, g_object_get_data_x_vpd, ho, hv'] at hag
  subst hag
  exact hvd

theorem members_indexed_for_drive (s : UDisksLinuxProvider) (a : String) (d : GUdevDevice)
    (K : Consistent s) (H : members_indexed s) (hag : vpd_agrees s a d = true) :
    members_indexed (handle_block_uevent_for_drive s a d) := by
  by_cases ha : a = "remove"
  · subst ha
    cases h1 : g_hash_table_lookup s.sysfs_path_to_drive d.sysfs_path with
    | none => rw [for_drive_remove_absent s d h1]; exact H
    | some obj' =>
      obtain ⟨o', v', ho', hv', hvd', hmem'⟩ := K.back _ _ h1
      have hpaths := drive_uevent_paths o' "remove" d
      simp only [if_true] at hpaths
      have hother : ∀ v obj o, obj' ≠ obj → g_hash_table_lookup s.vpd_to_drive v = some obj →
          g_hash_table_lookup s.drive_objects obj = some o → ∀ q ∈ member_paths o,
          g_hash_table_lookup (g_hash_table_remove s.sysfs_path_to_drive d.sysfs_path) q
            = some obj := by
        intro v obj o hd hl ho q hq
        have hs := H v obj o hl ho q hq
        have hqp : d.sysfs_path ≠ q := by
          rintro rfl
          rw [h1] at hs; cases hs
          exact hd rfl
        rw [lookup_remove_ne _ _ _ hqp]; exact hs
      by_cases he : (udisks_linux_drive_object_uevent o' "remove" (some d)).devices = []
      · rw [for_drive_remove_last s d obj' o' v' h1 ho' hv' he]
        intro v obj o hl ho q hq
        simp only [lookup_remove] at hl
        split at hl
        · cases hl
        · rename_i hne
          have hd : obj' ≠ obj := by
            rintro rfl
            obtain ⟨o2, ho2, hv2, -⟩ := K.vpd v obj' hl
            rw [ho'] at ho2; cases ho2
            rw [hv'] at hv2; cases hv2
            exact hne rfl
          simp only [lookup_insert_ne _ _ _ _ hd] at ho
          exact hother v obj o hd hl ho q hq
      · rw [for_drive_remove_more s d obj' o' h1 ho' he]
        intro v obj o hl ho q hq
        by_cases hd : obj' = obj
        · subst hd
          simp only [lookup_insert_self, Option.some.injEq] at ho
          subst ho
          rw [hpaths] at hq
          have hq' := ((K.nodup _ _ ho').mem_erase_iff).mp hq
          have hs := H v obj' o' hl ho' q hq'.2
          have hqp : d.sysfs_path ≠ q := fun e => hq'.1 e.symm
          show g_hash_table_lookup (g_hash_table_remove s.sysfs_path_to_drive d.sysfs_path) q = _
          rw [lookup_remove_ne _ _ _ hqp]; exact hs
        · simp only [lookup_insert_ne _ _ _ _ hd] at ho
          exact hother v obj o hd hl ho q hq
  · by_cases hskip : d.should_include = false ∨ d.vpd = none
    · rw [for_drive_skip s a d ha hskip]; exact H
    · have hi : d.should_include = true := by
        cases hd : d.should_include with
        | false => exact absurd (Or.inl hd) hskip
        | true => rfl
      obtain ⟨v0, hv⟩ : ∃ v, d.vpd = some v := by
        cases hd : d.vpd with
        | none => exact absurd (Or.inr hd) hskip
        | some v => exact ⟨v, rfl⟩
      cases hl0 : g_hash_table_lookup s.vpd_to_drive v0 with
      | some obj0 =>
        obtain ⟨o0, ho0, hxv0, -⟩ := K.vpd v0 obj0 hl0
        cases hp : g_hash_table_lookup s.sysfs_path_to_drive d.sysfs_path with
        | none =>
          rw [for_drive_known_unlinked s a d v0 obj0 o0 ha hi hv hl0 ho0 hp]
          intro v obj o hl ho q hq
          show g_hash_table_lookup (g_hash_table_insert s.sysfs_path_to_drive d.sysfs_path obj0) q
            = _
          by_cases hqp : d.sysfs_path = q
          · subst hqp
            rw [lookup_insert_self]
            by_cases hd : obj0 = obj
            · rw [hd]
            · simp only [lookup_insert_ne _ _ _ _ hd] at ho
              have hs := H v obj o hl ho _ hq
              rw [hp] at hs; cases hs
          · rw [lookup_insert_ne _ _ _ _ hqp]
            by_cases hd : obj0 = obj
            · subst hd
              simp only [lookup_insert_self, Option.some.injEq] at ho
              subst ho
              rcases drive_uevent_other_paths o0 a d ha q hq with hq' | hq'
              · exact H v obj0 o0 hl ho0 q hq'
              · exact absurd hq'.symm hqp
            · simp only [lookup_insert_ne _ _ _ _ hd] at ho
              exact H v obj o hl ho q hq
        | some obj' =>
          have hsame : obj0 = obj' := by
            have := vpd_agrees_linked s a d v0 obj' ha hi hv hp hag K
            rw [hl0] at this
            exact Option.some.inj this
          subst hsame
          rw [for_drive_known_linked s a d v0 obj0 obj0 o0 ha hi hv hl0 ho0 hp]
          intro v obj o hl ho q hq
          show g_hash_table_lookup s.sysfs_path_to_drive q = _
          by_cases hd : obj0 = obj
          · subst hd
            simp only [lookup_insert_self, Option.some.injEq] at ho
            subst ho
            rcases drive_uevent_other_paths o0 a d ha q hq with hq' | hq'
            · exact H v obj0 o0 hl ho0 q hq'
            · rw [hq']; exact hp
          · simp only [lookup_insert_ne _ _ _ _ hd] at ho
            exact H v obj o hl ho q hq
      | none =>
        have hp : g_hash_table_lookup s.sysfs_path_to_drive d.sysfs_path = none := by
          cases hp : g_hash_table_lookup s.sysfs_path_to_drive d.sysfs_path with
          | none => rfl
          | some obj' =>
            have := vpd_agrees_linked s a d v0 obj' ha hi hv hp hag K
            rw [hl0] at this; cases this
        rw [for_drive_new s a d v0 ha hi hv hl0]
        intro v obj o hl ho q hq
        show g_hash_table_lookup
          (g_hash_table_insert s.sysfs_path_to_drive d.sysfs_path s.next_object) q = _
        simp only [lookup_insert] at hl
        split at hl
        · cases hl
          simp only [lookup_insert_self, Option.some.injEq] at ho
          subst ho
          simp only [member_paths, List.map_cons, List.map_nil, List.mem_singleton] at hq
          subst hq
          exact lookup_insert_self _ _ _
        · obtain ⟨o2, ho2, -, -⟩ := K.vpd v obj hl
          have hlt := K.fresh _ _ ho2
          have hd : s.next_object ≠ obj := by omega
          simp only [lookup_insert_ne _ _ _ _ hd] at ho
          have hs := H v obj o hl ho q hq
          have hqp : d.sysfs_path ≠ q := by
            rintro rfl
            rw [hp] at hs; cases hs
          rw [lookup_insert_ne _ _ _ _ hqp]; exact hs

theorem members_indexed_congr (s s' : UDisksLinuxProvider)
    (e1 : s'.vpd_to_drive = s.vpd_to_drive)
    (e2 : s'.sysfs_path_to_drive = s.sysfs_path_to_drive)
    (e3 : s'.drive_objects = s.drive_objects) (H : members_indexed s) : members_indexed s' := by
  intro v obj o hl ho q hq
  rw [e1] at hl
  rw [e3] at ho
  rw [e2]
  exact H v obj o hl ho q hq

theorem vpd_agrees_congr (s s' : UDisksLinuxProvider) (a : String) (d : GUdevDevice)
    (e2 : s'.sysfs_path_to_drive = s.sysfs_path_to_drive)
    (e3 : s'.drive_objects = s.drive_objects) : vpd_agrees s' a d = vpd_agrees s a d := by
  simp only [vpd_agrees, g_object_get_data_x_vpd, e2, e3]

theorem members_indexed_handle_block_uevent (s : UDisksLinuxProvider) (a : String)
    (d : GUdevDevice) (K : Consistent s) (H : members_indexed s)
    (hag : vpd_agrees s a d = true) : members_indexed (handle_block_uevent s a d) := by
  have hD := members_indexed_for_drive s a d K H hag
  obtain ⟨f1, f2, f3, -⟩ := for_block_frame s a d
  obtain ⟨g1, g2, g3, -⟩ := for_block_frame (handle_block_uevent_for_drive s a d) a d
  have hBD : members_indexed
      (handle_block_uevent_for_drive (handle_block_uevent_for_block s a d) a d) :=
    members_indexed_for_drive _ a d (consistent_for_block s a d K)
      (members_indexed_congr s _ f1 f2 f3 H) (by rw [vpd_agrees_congr s _ a d f2 f3]; exact hag)
  have hDB : members_indexed
      (handle_block_uevent_for_block (handle_block_uevent_for_drive s a d) a d) :=
    members_indexed_congr _ _ g1 g2 g3 hD
  by_cases ha : a = "remove"
  · subst ha
    rw [handle_block_uevent_remove]
    exact members_indexed_congr _ _ rfl rfl rfl hBD
  · by_cases hadd : a = "add"
    · subst hadd
      rw [handle_block_uevent_add]; exact hDB
    · rw [handle_block_uevent_other s a d ha hadd]
      exact members_indexed_congr _ _ rfl rfl rfl hDB

theorem members_indexed_run (s : UDisksLinuxProvider) (evs : List (String × GUdevDevice))
    (K : Consistent s) (H : members_indexed s) (hag : vpd_agrees_run s evs = true) :
    members_indexed (run_uevents s evs) := by
  induction evs generalizing s with
  | nil => exact H
  | cons e es ih =>
    obtain ⟨a, d⟩ := e
    simp only [vpd_agrees_run, Bool.and_eq_true] at hag
    exact ih _ (consistent_handle_block_uevent s a d K)
      (members_indexed_handle_block_uevent s a d K H hag.1) hag.2

/-! ## Add then remove, and change -/

theorem add_remove_drive_side (s s3 : UDisksLinuxProvider) (d : GUdevDevice) (K : Consistent s)
    (hd : g_hash_table_lookup s.sysfs_path_to_drive d.sysfs_path = none)
    (hm : ∀ v obj o, d.should_include = true → d.vpd = some v →
      g_hash_table_lookup s.vpd_to_drive v = some obj →
      g_hash_table_lookup s.drive_objects obj = some o → d.sysfs_path ∉ member_paths o)
    (e1 : s3.vpd_to_drive = (handle_block_uevent_for_drive s "add" d).vpd_to_drive)
    (e2 : s3.sysfs_path_to_drive = (handle_block_uevent_for_drive s "add" d).sysfs_path_to_drive)
    (e3 : s3.drive_objects = (handle_block_uevent_for_drive s "add" d).drive_objects) :
    (handle_block_uevent_for_drive s3 "remove" d).vpd_to_drive = s.vpd_to_drive ∧
    (handle_block_uevent_for_drive s3 "remove" d).sysfs_path_to_drive = s.sysfs_path_to_drive ∧
    ∀ obj o, g_hash_table_lookup s.drive_objects obj = some o →
      g_hash_table_lookup (handle_block_uevent_for_drive s3 "remove" d).drive_objects obj
        = some o := by
  have ha : "add" ≠ "remove" := by decide
  by_cases hskip : d.should_include = false ∨ d.vpd = none
  · rw [for_drive_skip s "add" d ha hskip] at e1 e2 e3
    have h3 : g_hash_table_lookup s3.sysfs_path_to_drive d.sysfs_path = none := by
      rw [e2]; exact hd
    rw [for_drive_remove_absent s3 d h3, e1, e2, e3]
    exact ⟨rfl, rfl, fun _ _ h => h⟩
  · have hi : d.should_include = true := by
      cases hd : d.should_include with
      | false => exact absurd (Or.inl hd) hskip
      | true => rfl
    obtain ⟨v0, hv⟩ : ∃ v, d.vpd = some v := by
      cases hd : d.vpd with
      | none => exact absurd (Or.inr hd) hskip
      | some v => exact ⟨v, rfl⟩
    cases hl0 : g_hash_table_lookup s.vpd_to_drive v0 with
    | some obj0 =>
      obtain ⟨o0, ho0, hxv0, hne0⟩ := K.vpd v0 obj0 hl0
      rw [for_drive_known_unlinked s "add" d v0 obj0 o0 ha hi hv hl0 ho0 hd] at e1 e2 e3
      simp only at e1 e2 e3
      have hback := drive_uevent_add_remove o0 "add" d ha (hm v0 obj0 o0 hi hv hl0 ho0)
      have h3 : g_hash_table_lookup s3.sysfs_path_to_drive d.sysfs_path = some obj0 := by
        rw [e2, lookup_insert_self]
      have h3o : g_hash_table_lookup s3.drive_objects obj0 =
          some (udisks_linux_drive_object_uevent o0 "add" (some d)) := by
        rw [e3, lookup_insert_self]
      rw [for_drive_remove_more s3 d obj0 _ h3 h3o (by rw [hback]; exact hne0)]
      refine ⟨e1, ?_, ?_⟩
      · show g_hash_table_remove s3.sysfs_path_to_drive d.sysfs_path = _
        rw [e2, remove_insert_of_lookup_none _ _ _ hd]
      · intro obj o ho
        show g_hash_table_lookup (g_hash_table_insert s3.drive_objects obj0 _) obj = _
        rw [hback, lookup_insert]
        split
        · rename_i e
          subst e
          rw [← ho0, ho]
        · rw [e3, lookup_insert]
          rename_i hne
          rw [if_neg hne]; exact ho
    | none =>
      rw [for_drive_new s "add" d v0 ha hi hv hl0] at e1 e2 e3
      simp only at e1 e2 e3
      have h3 : g_hash_table_lookup s3.sysfs_path_to_drive d.sysfs_path = some s.next_object := by
        rw [e2, lookup_insert_self]
      have h3o : g_hash_table_lookup s3.drive_objects s.next_object =
          some { devices := [d], x_vpd := some v0 } := by
        rw [e3, lookup_insert_self]
      have hempty : (udisks_linux_drive_object_uevent { devices := [d], x_vpd := some v0 }
          "remove" (some d)).devices = [] := by
        simp [udisks_linux_drive_object_uevent, find_link_for_sysfs_path]
      rw [for_drive_remove_last s3 d s.next_object _ v0 h3 h3o rfl hempty]
      refine ⟨?_, ?_, ?_⟩
      · show g_hash_table_remove s3.vpd_to_drive v0 = _
        rw [e1, remove_insert_of_lookup_none _ _ _ hl0]
      · show g_hash_table_remove s3.sysfs_path_to_drive d.sysfs_path = _
        rw [e2, remove_insert_of_lookup_none _ _ _ hd]
      · intro obj o ho
        show g_hash_table_lookup (g_hash_table_insert s3.drive_objects s.next_object _) obj = _
        have hlt := K.fresh _ _ ho
        have hne : s.next_object ≠ obj := by omega
        rw [lookup_insert_ne _ _ _ _ hne, e3, lookup_insert_ne _ _ _ _ hne]
        exact ho

theorem change_drive_side (s : UDisksLinuxProvider) (d : GUdevDevice) (K : Consistent s)
    (hreg : d.should_include = false ∨ d.vpd = none ∨ ∃ v obj, d.vpd = some v ∧
      g_hash_table_lookup s.vpd_to_drive v = some obj ∧
      g_hash_table_lookup s.sysfs_path_to_drive d.sysfs_path = some obj) :
    (handle_block_uevent_for_drive s "change" d).vpd_to_drive = s.vpd_to_drive ∧
    (handle_block_uevent_for_drive s "change" d).sysfs_path_to_drive = s.sysfs_path_to_drive ∧
    (handle_block_uevent_for_drive s "change" d).next_object = s.next_object ∧
    ∀ obj o, g_hash_table_lookup s.drive_objects obj = some o →
      ∃ o', g_hash_table_lookup (handle_block_uevent_for_drive s "change" d).drive_objects obj
          = some o' ∧ member_paths o' = member_paths o ∧ o'.x_vpd = o.x_vpd := by
  have ha : "change" ≠ "remove" := by decide
  by_cases hskip : d.should_include = false ∨ d.vpd = none
  · rw [for_drive_skip s "change" d ha hskip]
    exact ⟨rfl, rfl, rfl, fun obj o ho => ⟨o, ho, rfl, rfl⟩⟩
  · have hi : d.should_include = true := by
      cases hd : d.should_include with
      | false => exact absurd (Or.inl hd) hskip
      | true => rfl
    obtain ⟨v, obj0, hv, hl, hp⟩ : ∃ v obj, d.vpd = some v ∧
        g_hash_table_lookup s.vpd_to_drive v = some obj ∧
        g_hash_table_lookup s.sysfs_path_to_drive d.sysfs_path = some obj := by
      rcases hreg with h1 | h1 | h1
      · exact absurd (Or.inl h1) hskip
      · exact absurd (Or.inr h1) hskip
      · exact h1
    obtain ⟨o0, v', ho0, -, -, hmem⟩ := K.back _ _ hp
    rw [for_drive_known_linked s "change" d v obj0 obj0 o0 ha hi hv hl ho0 hp]
    refine ⟨rfl, rfl, rfl, ?_⟩
    intro obj o ho
    show ∃ o', g_hash_table_lookup (g_hash_table_insert s.drive_objects obj0 _) obj = some o' ∧ _
    by_cases hd : obj0 = obj
    · subst hd
      rw [ho0] at ho; cases ho
      refine ⟨_, lookup_insert_self _ _ _, ?_, drive_uevent_x_vpd _ _ _⟩
      rw [drive_uevent_paths]
      simp [hmem]
    · exact ⟨o, by rw [lookup_insert_ne _ _ _ _ hd]; exact ho, rfl, rfl⟩

/-! ## Removal -/

theorem for_block_lookup_other (s : UDisksLinuxProvider) (a : String) (d : GUdevDevice)
    (q : String) (hq : d.sysfs_path ≠ q) :
    g_hash_table_lookup (handle_block_uevent_for_block s a d).sysfs_to_block q =
      g_hash_table_lookup s.sysfs_to_block q := by
  unfold handle_block_uevent_for_block block_object_uevent record
  simp only []
  split
  · split
    · simp [lookup_remove, hq]
    · rfl
  · split
    · split <;> rfl
    · simp [lookup_insert, hq]

theorem handle_block_uevent_remove_index (s : UDisksLinuxProvider) (d : GUdevDevice) :
    (handle_block_uevent s "remove" d).sysfs_to_block =
      g_hash_table_remove s.sysfs_to_block d.sysfs_path := by
  obtain ⟨g1, -⟩ := for_drive_frame (handle_block_uevent_for_block s "remove" d) "remove" d
  rw [handle_block_uevent_remove]
  show (handle_block_uevent_for_drive _ "remove" d).sysfs_to_block = _
  rw [g1, for_block_remove_index]

theorem handle_block_uevent_lookup_other (s : UDisksLinuxProvider) (a : String)
    (d : GUdevDevice) (q : String) (hq : d.sysfs_path ≠ q) :
    g_hash_table_lookup (handle_block_uevent s a d).sysfs_to_block q =
      g_hash_table_lookup s.sysfs_to_block q := by
  obtain ⟨d1, -⟩ := for_drive_frame s a d
  have hB := for_block_lookup_other (handle_block_uevent_for_drive s a d) a d q hq
  rw [d1] at hB
  by_cases ha : a = "remove"
  · subst ha
    rw [handle_block_uevent_remove_index, lookup_remove_ne _ _ _ hq]
  · by_cases hadd : a = "add"
    · subst hadd
      rw [handle_block_uevent_add]; exact hB
    · rw [handle_block_uevent_other s a d ha hadd]
      exact hB

theorem run_uevents_lookup_other (s : UDisksLinuxProvider) (evs : List (String × GUdevDevice))
    (q : String) (hq : ∀ e ∈ evs, e.2.sysfs_path ≠ q) :
    g_hash_table_lookup (run_uevents s evs).sysfs_to_block q =
      g_hash_table_lookup s.sysfs_to_block q := by
  induction evs generalizing s with
  | nil => rfl
  | cons e es ih =>
    obtain ⟨a, d⟩ := e
    simp only [run_uevents]
    rw [ih _ (fun e he => hq e (List.mem_cons_of_mem _ he)),
      handle_block_uevent_lookup_other s a d q (hq (a, d) (List.mem_cons_self _ _))]

theorem run_uevents_append (s : UDisksLinuxProvider) (xs ys : List (String × GUdevDevice)) :
    run_uevents s (xs ++ ys) = run_uevents (run_uevents s xs) ys := by
  induction xs generalizing s with
  | nil => rfl
  | cons e es ih =>
    obtain ⟨a, d⟩ := e
    simp only [List.cons_append, run_uevents]
    exact ih _

theorem remove_clears_path (s : UDisksLinuxProvider) (d : GUdevDevice) :
    g_hash_table_lookup (handle_block_uevent s "remove" d).sysfs_to_block d.sysfs_path = none ∧
    g_hash_table_lookup (handle_block_uevent s "remove" d).sysfs_path_to_drive d.sysfs_path
      = none := by
  constructor
  · rw [handle_block_uevent_remove_index, lookup_remove_self]
  · rw [handle_block_uevent_remove]
    show g_hash_table_lookup (handle_block_uevent_for_drive _ "remove" d).sysfs_path_to_drive _ = _
    rw [for_drive_remove_index, lookup_remove_self]

/-! ## Jobs -/

theorem for_drive_jobs (s : UDisksLinuxProvider) (a : String) (d : GUdevDevice) :
    (handle_block_uevent_for_drive s a d).jobs =
      s.jobs ++ (if creates_drive s a d && !s.coldplug then
        [Job.perform_initial_housekeeping_for_drive s.next_object] else []) := by
  unfold creates_drive handle_block_uevent_for_drive drive_object_uevent record
    udisks_linux_drive_object_get_devices g_object_get_data_x_vpd
    udisks_linux_drive_object_should_include_device udisks_linux_drive_object_new
  simp only []
  split
  · split
    · split
      · split <;> split <;> simp_all
      · split <;> simp_all
    · simp_all
  · split
    · simp_all
    · simp_all
    · split
      · split <;> split <;> simp_all
      · split <;> simp_all

theorem creates_drive_stores (s : UDisksLinuxProvider) (a : String) (d : GUdevDevice)
    (h : creates_drive s a d = true) :
    ∃ v, d.vpd = some v ∧ g_hash_table_lookup s.vpd_to_drive v = none ∧
      g_hash_table_lookup (handle_block_uevent_for_drive s a d).vpd_to_drive v
        = some s.next_object := by
  simp only [creates_drive, Bool.and_eq_true, bne_iff_ne, ne_eq] at h
  obtain ⟨⟨ha, hi⟩, hv⟩ := h
  cases hvpd : d.vpd with
  | none => simp [hvpd] at hv
  | some v =>
    simp only [hvpd, Option.isNone_iff_eq_none] at hv
    refine ⟨v, rfl, hv, ?_⟩
    rw [for_drive_new s a d v ha hi hvpd hv]
    exact lookup_insert_self _ _ _

theorem handle_uevent_coldplug (s : UDisksLinuxProvider) (d : GUdevDevice)
    (hc : s.coldplug = true) :
    (udisks_linux_provider_handle_uevent s "add" d).jobs = s.jobs ∧
      (udisks_linux_provider_handle_uevent s "add" d).coldplug = true := by
  unfold udisks_linux_provider_handle_uevent
  split
  · rw [handle_block_uevent_add]
    obtain ⟨-, -, d3, -⟩ := for_drive_frame s "add" d
    obtain ⟨-, -, -, b4, b5, -⟩ := for_block_frame (handle_block_uevent_for_drive s "add" d)
      "add" d
    rw [b4, b5, d3, for_drive_jobs, hc]
    simp
  · exact ⟨rfl, hc⟩

theorem coldplug_enumeration (s : UDisksLinuxProvider) (devices : List GUdevDevice)
    (hc : s.coldplug = true) :
    (devices.foldl (fun provider device =>
        udisks_linux_provider_handle_uevent provider "add" device) s).jobs = s.jobs ∧
      (devices.foldl (fun provider device =>
        udisks_linux_provider_handle_uevent provider "add" device) s).coldplug = true := by
  induction devices generalizing s with
  | nil => exact ⟨rfl, hc⟩
  | cons d ds ih =>
    simp only [List.foldl_cons]
    obtain ⟨h1, h2⟩ := handle_uevent_coldplug s d hc
    obtain ⟨i1, i2⟩ := ih _ h2
    exact ⟨by rw [i1, h1], i2⟩

theorem housekeeping_all_drives_frame (s : UDisksLinuxProvider) (secs : Nat) :
    (housekeeping_all_drives s secs).jobs = s.jobs ∧
      (housekeeping_all_drives s secs).housekeeping_running = s.housekeeping_running := by
  unfold housekeeping_all_drives
  generalize g_hash_table_get_values s.vpd_to_drive = objects
  induction objects generalizing s with
  | nil => exact ⟨rfl, rfl⟩
  | cons x xs ih =>
    simp only [List.foldl_cons]
    obtain ⟨h1, h2⟩ := ih (record s (Effect.drive_housekeeping x secs))
    exact ⟨h1, h2⟩

theorem housekeeping_thread_func_frame (s : UDisksLinuxProvider) (time : Nat) :
    (housekeeping_thread_func s time).jobs = s.jobs ∧
      (housekeeping_thread_func s time).housekeeping_running = false := by
  unfold housekeeping_thread_func
  simp only []
  exact ⟨(housekeeping_all_drives_frame _ _).1, trivial⟩

theorem for_drive_jobs_ex (s : UDisksLinuxProvider) (a : String) (d : GUdevDevice) :
    ∃ js, (handle_block_uevent_for_drive s a d).jobs = s.jobs ++ js ∧
      ∀ j ∈ js, j ≠ Job.housekeeping_thread_func := by
  refine ⟨_, for_drive_jobs s a d, ?_⟩
  intro j hj
  split at hj
  · rw [List.mem_singleton] at hj
    subst hj
    exact fun e => by cases e
  · cases hj

theorem handle_block_uevent_jobs (s : UDisksLinuxProvider) (a : String) (d : GUdevDevice) :
    (∃ js, (handle_block_uevent s a d).jobs = s.jobs ++ js ∧
      ∀ j ∈ js, j ≠ Job.housekeeping_thread_func) ∧
    (handle_block_uevent s a d).housekeeping_running = s.housekeeping_running := by
  obtain ⟨-, -, -, b4, -, b6, -⟩ := for_block_frame s a d
  obtain ⟨-, -, -, c4, -, c6, -⟩ := for_block_frame (handle_block_uevent_for_drive s a d) a d
  obtain ⟨-, -, -, d4, -⟩ := for_drive_frame s a d
  obtain ⟨-, -, -, e4, -⟩ := for_drive_frame (handle_block_uevent_for_block s a d) a d
  obtain ⟨js1, j1, k1⟩ := for_drive_jobs_ex s a d
  obtain ⟨js2, j2, k2⟩ := for_drive_jobs_ex (handle_block_uevent_for_block s a d) a d
  by_cases ha : a = "remove"
  · subst ha
    rw [handle_block_uevent_remove]
    refine ⟨⟨js2, ?_, k2⟩, ?_⟩
    · show (handle_block_uevent_for_drive _ "remove" d).jobs = _
      rw [j2, b4]
    · show (handle_block_uevent_for_drive _ "remove" d).housekeeping_running = _
      rw [e4, b6]
  · have hcore : (∃ js, (handle_block_uevent_for_block (handle_block_uevent_for_drive s a d)
        a d).jobs = s.jobs ++ js ∧ ∀ j ∈ js, j ≠ Job.housekeeping_thread_func) ∧
        (handle_block_uevent_for_block (handle_block_uevent_for_drive s a d)
        a d).housekeeping_running = s.housekeeping_running :=
      ⟨⟨js1, by rw [c4, j1], k1⟩, by rw [c6, d4]⟩
    by_cases hadd : a = "add"
    · subst hadd
      rw [handle_block_uevent_add]; exact hcore
    · rw [handle_block_uevent_other s a d ha hadd]
      exact hcore

theorem single_flight_invariant (s : UDisksLinuxProvider) (h : Reachable s) :
    s.jobs.count Job.housekeeping_thread_func ≤ 1 ∧
      (s.housekeeping_running = true ↔ Job.housekeeping_thread_func ∈ s.jobs) := by
  induction h with
  | new => simp [udisks_linux_provider_new]
  | coldplug p b _ ih => exact ih
  | uevent p a d _ ih =>
    obtain ⟨⟨js, hj, hjs⟩, hr⟩ := handle_block_uevent_jobs p a d
    have hnot : Job.housekeeping_thread_func ∉ js := fun hm => hjs _ hm rfl
    rw [hj, hr, List.count_append, List.count_eq_zero_of_not_mem hnot]
    refine ⟨ih.1, ?_⟩
    rw [ih.2]
    simp [hnot]
  | timeout p _ ih =>
    unfold on_housekeeping_timeout
    split
    · exact ih
    · rename_i hrun
      have hnot : Job.housekeeping_thread_func ∉ p.jobs := fun hm => hrun (ih.2.mpr hm)
      simp [List.count_eq_zero_of_not_mem hnot]
  | job p j t _ ih =>
    unfold g_io_scheduler_run_job
    split
    · rename_i hmem
      cases j with
      | perform_initial_housekeeping_for_drive obj =>
        have hne : Job.housekeeping_thread_func ≠ Job.perform_initial_housekeeping_for_drive obj :=
          fun e => by cases e
        show (p.jobs.erase _).count _ ≤ 1 ∧ (p.housekeeping_running = true ↔ _ ∈ p.jobs.erase _)
        rw [List.count_erase_of_ne hne, List.mem_erase_of_ne hne]
        exact ih
      | housekeeping_thread_func =>
        obtain ⟨f1, f2⟩ := housekeeping_thread_func_frame
          { p with jobs := p.jobs.erase Job.housekeeping_thread_func } t
        simp only [] at f1 f2 ⊢
        rw [f1, f2]
        have hc : (p.jobs.erase Job.housekeeping_thread_func).count Job.housekeeping_thread_func
            = 0 := by
          rw [List.count_erase_self]
          have := ih.1
          omega
        refine ⟨by omega, ?_⟩
        have hnot := List.count_eq_zero.mp hc
        simp [hnot]
    · exact ih
/-! ## The cleanup check -/

theorem count_cleanup_zero (t : List Effect) (h : ∀ e ∈ t, e ≠ Effect.cleanup_check) :
    t.count Effect.cleanup_check = 0 :=
  List.count_eq_zero.mpr (fun hm => h _ hm rfl)

theorem handle_block_uevent_cleanup_count (s : UDisksLinuxProvider) (a : String)
    (d : GUdevDevice) :
    (new_effects s (handle_block_uevent s a d)).count Effect.cleanup_check =
      if a ≠ "add" then 1 else 0 := by
  by_cases ha : a = "remove"
  · subst ha
    obtain ⟨tb, tb1, tb2, -⟩ := for_block_trace_ex s "remove" d
    obtain ⟨td, td1, td2, -⟩ :=
      for_drive_trace_ex (handle_block_uevent_for_block s "remove" d) "remove" d
    have htr : new_effects s (handle_block_uevent s "remove" d) =
        (tb ++ td) ++ [Effect.cleanup_check] := by
      rw [handle_block_uevent_remove]
      exact trace_trans s _ _ (tb ++ td) [Effect.cleanup_check]
        (by rw [td1, tb1, List.append_assoc]) rfl
    rw [htr, List.count_append, List.count_append,
      count_cleanup_zero tb (fun e he => (tb2 e he).2),
      count_cleanup_zero td (fun e he => (td2 e he).2)]
    simp
  · obtain ⟨td, td1, td2, -⟩ := for_drive_trace_ex s a d
    obtain ⟨tb, tb1, tb2, -⟩ := for_block_trace_ex (handle_block_uevent_for_drive s a d) a d
    have hcomp := trace_trans s _ _ td tb td1 tb1
    by_cases hadd : a = "add"
    · subst hadd
      rw [handle_block_uevent_add, hcomp, List.count_append,
        count_cleanup_zero tb (fun e he => (tb2 e he).2),
        count_cleanup_zero td (fun e he => (td2 e he).2)]
      simp
    · have htr : new_effects s (handle_block_uevent s a d) =
          (td ++ tb) ++ [Effect.cleanup_check] := by
        rw [handle_block_uevent_other s a d ha hadd]
        exact trace_trans s _ _ (td ++ tb) [Effect.cleanup_check]
          (by rw [tb1, td1, List.append_assoc]) rfl
      rw [htr, List.count_append, List.count_append,
        count_cleanup_zero tb (fun e he => (tb2 e he).2),
        count_cleanup_zero td (fun e he => (td2 e he).2)]
      simp [hadd]

/-! ## The registry after one event, branch by branch -/

theorem registry_handle_block_uevent (s : UDisksLinuxProvider) (a : String) (d : GUdevDevice) :
    registry (handle_block_uevent s a d) =
      if a = "remove" then
        registry (handle_block_uevent_for_drive (handle_block_uevent_for_block s a d) a d)
      else registry (handle_block_uevent_for_block (handle_block_uevent_for_drive s a d) a d) := by
  by_cases ha : a = "remove"
  · subst ha
    rw [handle_block_uevent_remove, if_pos rfl]
    rfl
  · rw [if_neg ha]
    by_cases hadd : a = "add"
    · subst hadd
      rw [handle_block_uevent_add]
    · rw [handle_block_uevent_other s a d ha hadd]
      rfl

theorem registry_add_new_drive (s : UDisksLinuxProvider) (a : String) (d : GUdevDevice)
    (v : String) (ha : a ≠ "remove") (hi : d.should_include = true) (hv : d.vpd = some v)
    (hl : g_hash_table_lookup s.vpd_to_drive v = none)
    (hb : g_hash_table_lookup s.sysfs_to_block d.sysfs_path = none) :
    registry (handle_block_uevent s a d) =
      (g_hash_table_insert s.sysfs_to_block d.sysfs_path (s.next_object + 1),
       g_hash_table_insert s.vpd_to_drive v s.next_object,
       g_hash_table_insert s.sysfs_path_to_drive d.sysfs_path s.next_object,
       g_hash_table_insert s.drive_objects s.next_object { devices := [d], x_vpd := some v },
       g_hash_table_insert s.block_objects (s.next_object + 1) { device := d },
       s.next_object + 2) := by
  rw [registry_handle_block_uevent, if_neg ha,
    for_block_new (handle_block_uevent_for_drive s a d) a d ha
      (by rw [(for_drive_frame s a d).1]; exact hb),
    for_drive_new s a d v ha hi hv hl]
  rfl

theorem registry_add_known_drive (s : UDisksLinuxProvider) (a : String) (d : GUdevDevice)
    (v : String) (obj : Nat) (o : UDisksLinuxDriveObject)
    (ha : a ≠ "remove") (hi : d.should_include = true) (hv : d.vpd = some v)
    (hl : g_hash_table_lookup s.vpd_to_drive v = some obj)
    (ho : g_hash_table_lookup s.drive_objects obj = some o)
    (hp : g_hash_table_lookup s.sysfs_path_to_drive d.sysfs_path = none)
    (hb : g_hash_table_lookup s.sysfs_to_block d.sysfs_path = none) :
    registry (handle_block_uevent s a d) =
      (g_hash_table_insert s.sysfs_to_block d.sysfs_path s.next_object,
       s.vpd_to_drive,
       g_hash_table_insert s.sysfs_path_to_drive d.sysfs_path obj,
       g_hash_table_insert s.drive_objects obj (udisks_linux_drive_object_uevent o a (some d)),
       g_hash_table_insert s.block_objects s.next_object { device := d },
       s.next_object + 1) := by
  rw [registry_handle_block_uevent, if_neg ha,
    for_block_new (handle_block_uevent_for_drive s a d) a d ha
      (by rw [(for_drive_frame s a d).1]; exact hb),
    for_drive_known_unlinked s a d v obj o ha hi hv hl ho hp]
  rfl

theorem registry_remove_member (s : UDisksLinuxProvider) (d : GUdevDevice) (obj : Nat)
    (o : UDisksLinuxDriveObject)
    (h : g_hash_table_lookup s.sysfs_path_to_drive d.sysfs_path = some obj)
    (ho : g_hash_table_lookup s.drive_objects obj = some o)
    (he : (udisks_linux_drive_object_uevent o "remove" (some d)).devices ≠ []) :
    registry (handle_block_uevent s "remove" d) =
      (g_hash_table_remove s.sysfs_to_block d.sysfs_path,
       s.vpd_to_drive,
       g_hash_table_remove s.sysfs_path_to_drive d.sysfs_path,
       g_hash_table_insert s.drive_objects obj
         (udisks_linux_drive_object_uevent o "remove" (some d)),
       s.block_objects, s.next_object) := by
  obtain ⟨f1, f2, f3, -⟩ := for_block_frame s "remove" d
  have hidx := for_block_remove_index s d
  have hbo : (handle_block_uevent_for_block s "remove" d).block_objects = s.block_objects ∧
      (handle_block_uevent_for_block s "remove" d).next_object = s.next_object := by
    cases hl : g_hash_table_lookup s.sysfs_to_block d.sysfs_path with
    | none => rw [for_block_remove_absent s d hl]; exact ⟨rfl, rfl⟩
    | some b => rw [for_block_remove_present s d b hl]; exact ⟨rfl, rfl⟩
  rw [registry_handle_block_uevent, if_pos rfl,
    for_drive_remove_more (handle_block_uevent_for_block s "remove" d) d obj o
      (by rw [f2]; exact h) (by rw [f3]; exact ho) he]
  simp only [registry, f1, f2, f3, hidx, hbo.1, hbo.2]

theorem registry_remove_last_member (s : UDisksLinuxProvider) (d : GUdevDevice) (obj : Nat)
    (o : UDisksLinuxDriveObject) (v : String)
    (h : g_hash_table_lookup s.sysfs_path_to_drive d.sysfs_path = some obj)
    (ho : g_hash_table_lookup s.drive_objects obj = some o) (hv : o.x_vpd = some v)
    (he : (udisks_linux_drive_object_uevent o "remove" (some d)).devices = []) :
    registry (handle_block_uevent s "remove" d) =
      (g_hash_table_remove s.sysfs_to_block d.sysfs_path,
       g_hash_table_remove s.vpd_to_drive v,
       g_hash_table_remove s.sysfs_path_to_drive d.sysfs_path,
       g_hash_table_insert s.drive_objects obj
         (udisks_linux_drive_object_uevent o "remove" (some d)),
       s.block_objects, s.next_object) := by
  obtain ⟨f1, f2, f3, -⟩ := for_block_frame s "remove" d
  have hidx := for_block_remove_index s d
  have hbo : (handle_block_uevent_for_block s "remove" d).block_objects = s.block_objects ∧
      (handle_block_uevent_for_block s "remove" d).next_object = s.next_object := by
    cases hl : g_hash_table_lookup s.sysfs_to_block d.sysfs_path with
    | none => rw [for_block_remove_absent s d hl]; exact ⟨rfl, rfl⟩
    | some b => rw [for_block_remove_present s d b hl]; exact ⟨rfl, rfl⟩
  rw [registry_handle_block_uevent, if_pos rfl,
    for_drive_remove_last (handle_block_uevent_for_block s "remove" d) d obj o v
      (by rw [f2]; exact h) (by rw [f3]; exact ho) hv he]
  simp only [registry, f1, f2, f3, hidx, hbo.1, hbo.2]

theorem registry_fields (s : UDisksLinuxProvider)
    (r : List (String × Nat) × List (String × Nat) × List (String × Nat) ×
      List (Nat × UDisksLinuxDriveObject) × List (Nat × UDisksLinuxBlockObject) × Nat)
    (h : registry s = r) :
    s.sysfs_to_block = r.1 ∧ s.vpd_to_drive = r.2.1 ∧ s.sysfs_path_to_drive = r.2.2.1 ∧
      s.drive_objects = r.2.2.2.1 ∧ s.block_objects = r.2.2.2.2.1 ∧
      s.next_object = r.2.2.2.2.2 := by
  subst h
  exact ⟨rfl, rfl, rfl, rfl, rfl, rfl⟩

/-! ## The block object of a device -/

theorem for_block_entry (s : UDisksLinuxProvider) (a : String) (d : GUdevDevice)
    (ha : a ≠ "remove") :
    (g_hash_table_lookup s.sysfs_to_block d.sysfs_path = none →
      g_hash_table_lookup (handle_block_uevent_for_block s a d).sysfs_to_block d.sysfs_path
        = some s.next_object ∧
      g_hash_table_lookup (handle_block_uevent_for_block s a d).block_objects s.next_object
        = some { device := d }) ∧
    (∀ b0, g_hash_table_lookup s.sysfs_to_block d.sysfs_path = some b0 →
      (handle_block_uevent_for_block s a d).sysfs_to_block = s.sysfs_to_block ∧
      ∀ bo, g_hash_table_lookup s.block_objects b0 = some bo →
        g_hash_table_lookup (handle_block_uevent_for_block s a d).block_objects b0
          = some { device := d }) := by
  constructor
  · intro hn
    rw [for_block_new s a d ha hn]
    exact ⟨lookup_insert_self _ _ _, lookup_insert_self _ _ _⟩
  · intro b0 hb
    constructor
    · unfold handle_block_uevent_for_block block_object_uevent record
      simp only [ha, if_false, hb]
      split <;> rfl
    · intro bo hbo
      rw [for_block_known s a d b0 bo ha hb hbo]
      exact lookup_insert_self _ _ _

theorem handle_block_uevent_block_fields (s : UDisksLinuxProvider) (a : String)
    (d : GUdevDevice) (ha : a ≠ "remove") :
    (handle_block_uevent s a d).sysfs_to_block =
        (handle_block_uevent_for_block (handle_block_uevent_for_drive s a d) a d).sysfs_to_block ∧
      (handle_block_uevent s a d).block_objects =
        (handle_block_uevent_for_block (handle_block_uevent_for_drive s a d) a d).block_objects := by
  by_cases hadd : a = "add"
  · subst hadd
    rw [handle_block_uevent_add]
    exact ⟨rfl, rfl⟩
  · rw [handle_block_uevent_other s a d ha hadd]
    exact ⟨rfl, rfl⟩

/-! ## Keys and values of the hash tables -/

theorem keys_insert {κ α : Type} [DecidableEq κ] (t : List (κ × α)) (k : κ) (v : α) :
    (g_hash_table_insert t k v).map Prod.fst =
      if k ∈ t.map Prod.fst then t.map Prod.fst else t.map Prod.fst ++ [k] := by
  induction t with
  | nil => simp [g_hash_table_insert]
  | cons e t ih =>
    obtain ⟨k0, v0⟩ := e
    by_cases h0 : k0 = k
    · subst h0
      simp [g_hash_table_insert]
    · have h1 : ¬ k = k0 := fun e => h0 e.symm
      simp only [g_hash_table_insert, h0, if_false, List.map_cons, ih, List.mem_cons, h1,
        false_or]
      split <;> simp

theorem keys_insert_nodup {κ α : Type} [DecidableEq κ] (t : List (κ × α)) (k : κ) (v : α)
    (h : (t.map Prod.fst).Nodup) : ((g_hash_table_insert t k v).map Prod.fst).Nodup := by
  rw [keys_insert]
  split
  · exact h
  · rename_i hnot
    rw [List.nodup_append]
    refine ⟨h, List.nodup_singleton _, ?_⟩
    intro x hx hx'
    rw [List.mem_singleton] at hx'
    subst hx'
    exact hnot hx

theorem keys_remove_nodup {κ α : Type} [DecidableEq κ] (t : List (κ × α)) (k : κ)
    (h : (t.map Prod.fst).Nodup) : ((g_hash_table_remove t k).map Prod.fst).Nodup := by
  have hsub : List.Sublist ((g_hash_table_remove t k).map Prod.fst) (t.map Prod.fst) := by
    induction t with
    | nil => exact List.Sublist.refl _
    | cons e t ih =>
      obtain ⟨k0, v0⟩ := e
      have ih' := ih (List.nodup_cons.mp h).2
      by_cases h0 : k0 = k
      · simp only [g_hash_table_remove, h0, if_true, List.map_cons]
        exact List.Sublist.cons _ ih'
      · simp only [g_hash_table_remove, h0, if_false, List.map_cons]
        exact List.Sublist.cons₂ _ ih'
  exact List.Nodup.sublist hsub h

theorem lookup_of_mem {κ α : Type} [DecidableEq κ] (t : List (κ × α)) (k : κ) (v : α)
    (h : (t.map Prod.fst).Nodup) (hm : (k, v) ∈ t) : g_hash_table_lookup t k = some v := by
  induction t with
  | nil => cases hm
  | cons e t ih =>
    obtain ⟨k0, v0⟩ := e
    rw [List.map_cons, List.nodup_cons] at h
    rcases List.mem_cons.mp hm with heq | hin
    · cases heq
      simp [g_hash_table_lookup]
    · have hk : k ∈ t.map Prod.fst := List.mem_map.mpr ⟨(k, v), hin, rfl⟩
      have hne : ¬ k0 = k := by
        rintro rfl
        exact h.1 hk
      simp only [g_hash_table_lookup, hne, if_false]
      exact ih h.2 hin

theorem mem_of_lookup {κ α : Type} [DecidableEq κ] (t : List (κ × α)) (k : κ) (v : α)
    (h : g_hash_table_lookup t k = some v) : (k, v) ∈ t := by
  induction t with
  | nil => simp [g_hash_table_lookup] at h
  | cons e t ih =>
    obtain ⟨k0, v0⟩ := e
    by_cases h0 : k0 = k
    · simp only [g_hash_table_lookup, h0, if_true, Option.some.injEq] at h
      subst h0 h
      exact List.mem_cons_self _ _
    · simp only [g_hash_table_lookup, h0, if_false] at h
      exact List.mem_cons_of_mem _ (ih h)

theorem values_nodup {κ α : Type} [DecidableEq κ] (t : List (κ × α))
    (hk : (t.map Prod.fst).Nodup)
    (hinj : ∀ k1 k2 v, g_hash_table_lookup t k1 = some v → g_hash_table_lookup t k2 = some v →
      k1 = k2) : (g_hash_table_get_values t).Nodup := by
  induction t with
  | nil => exact List.nodup_nil
  | cons e t ih =>
    obtain ⟨k0, v0⟩ := e
    have hk' := hk
    rw [List.map_cons, List.nodup_cons] at hk'
    have hl0 : g_hash_table_lookup ((k0, v0) :: t) k0 = some v0 := by
      simp [g_hash_table_lookup]
    have hrest : ∀ k v, (k, v) ∈ t → g_hash_table_lookup ((k0, v0) :: t) k = some v :=
      fun k v hm => lookup_of_mem _ k v hk (List.mem_cons_of_mem _ hm)
    unfold g_hash_table_get_values
    rw [List.map_cons, List.nodup_cons]
    constructor
    · intro hv
      obtain ⟨⟨k, v⟩, hin, hveq⟩ := List.mem_map.mp hv
      simp only at hveq
      subst hveq
      have hkk := hinj k0 k v hl0 (hrest k v hin)
      subst hkk
      exact hk'.1 (List.mem_map.mpr ⟨(k0, v), hin, rfl⟩)
    · apply ih hk'.2
      intro k1 k2 v h1 h2
      exact hinj k1 k2 v (hrest k1 v (mem_of_lookup t k1 v h1))
        (hrest k2 v (mem_of_lookup t k2 v h2))

theorem mem_values_iff {κ α : Type} [DecidableEq κ] (t : List (κ × α)) (v : α)
    (hk : (t.map Prod.fst).Nodup) :
    v ∈ g_hash_table_get_values t ↔ ∃ k, g_hash_table_lookup t k = some v := by
  constructor
  · intro hv
    obtain ⟨⟨k, v'⟩, hin, hveq⟩ := List.mem_map.mp hv
    simp only at hveq
    subst hveq
    exact ⟨k, lookup_of_mem t k v' hk hin⟩
  · rintro ⟨k, hl⟩
    exact List.mem_map.mpr ⟨(k, v), mem_of_lookup t k v hl, rfl⟩

theorem for_drive_vpd_shape (s : UDisksLinuxProvider) (a : String) (d : GUdevDevice) :
    (handle_block_uevent_for_drive s a d).vpd_to_drive = s.vpd_to_drive ∨
      (∃ k, (handle_block_uevent_for_drive s a d).vpd_to_drive =
        g_hash_table_remove s.vpd_to_drive k) ∨
      ∃ k x, (handle_block_uevent_for_drive s a d).vpd_to_drive =
        g_hash_table_insert s.vpd_to_drive k x := by
  unfold handle_block_uevent_for_drive drive_object_uevent record
    udisks_linux_drive_object_get_devices g_object_get_data_x_vpd
    udisks_linux_drive_object_should_include_device udisks_linux_drive_object_new
  simp only []
  split
  · split
    · split
      · split <;> split <;> simp_all
      · split <;> simp_all
    · simp
  · split
    · simp
    · simp
    · split
      · split <;> split <;> simp
      · split <;> simp

theorem for_block_index_shape (s : UDisksLinuxProvider) (a : String) (d : GUdevDevice) :
    (handle_block_uevent_for_block s a d).sysfs_to_block = s.sysfs_to_block ∨
      (handle_block_uevent_for_block s a d).sysfs_to_block =
        g_hash_table_remove s.sysfs_to_block d.sysfs_path ∨
      ∃ x, (handle_block_uevent_for_block s a d).sysfs_to_block =
        g_hash_table_insert s.sysfs_to_block d.sysfs_path x := by
  by_cases ha : a = "remove"
  · subst ha
    exact Or.inr (Or.inl (for_block_remove_index s d))
  · cases hl : g_hash_table_lookup s.sysfs_to_block d.sysfs_path with
    | none =>
      rw [for_block_new s a d ha hl]
      exact Or.inr (Or.inr ⟨_, rfl⟩)
    | some b0 => exact Or.inl ((for_block_entry s a d ha).2 b0 hl).1

theorem keys_nodup_handle_block_uevent (s : UDisksLinuxProvider) (a : String)
    (d : GUdevDevice)
    (h : (s.sysfs_to_block.map Prod.fst).Nodup ∧ (s.vpd_to_drive.map Prod.fst).Nodup) :
    ((handle_block_uevent s a d).sysfs_to_block.map Prod.fst).Nodup ∧
      ((handle_block_uevent s a d).vpd_to_drive.map Prod.fst).Nodup := by
  have hreg := registry_handle_block_uevent s a d
  have hshape : ∀ (x y : UDisksLinuxProvider),
      ((x.sysfs_to_block.map Prod.fst).Nodup ∧ (x.vpd_to_drive.map Prod.fst).Nodup) →
      registry y = registry x →
      ((y.sysfs_to_block.map Prod.fst).Nodup ∧ (y.vpd_to_drive.map Prod.fst).Nodup) := by
    intro x y hx he
    obtain ⟨e1, e2, -⟩ := registry_fields y _ he
    simp only [registry] at e1 e2
    rw [e1, e2]; exact hx
  have hB : ∀ x : UDisksLinuxProvider,
      ((x.sysfs_to_block.map Prod.fst).Nodup ∧ (x.vpd_to_drive.map Prod.fst).Nodup) →
      (((handle_block_uevent_for_block x a d).sysfs_to_block.map Prod.fst).Nodup ∧
        ((handle_block_uevent_for_block x a d).vpd_to_drive.map Prod.fst).Nodup) := by
    intro x hx
    rw [(for_block_frame x a d).1]
    refine ⟨?_, hx.2⟩
    rcases for_block_index_shape x a d with e | e | ⟨y, e⟩
    · rw [e]; exact hx.1
    · rw [e]; exact keys_remove_nodup _ _ hx.1
    · rw [e]; exact keys_insert_nodup _ _ _ hx.1
  have hD : ∀ x : UDisksLinuxProvider,
      ((x.sysfs_to_block.map Prod.fst).Nodup ∧ (x.vpd_to_drive.map Prod.fst).Nodup) →
      (((handle_block_uevent_for_drive x a d).sysfs_to_block.map Prod.fst).Nodup ∧
        ((handle_block_uevent_for_drive x a d).vpd_to_drive.map Prod.fst).Nodup) := by
    intro x hx
    rw [(for_drive_frame x a d).1]
    refine ⟨hx.1, ?_⟩
    rcases for_drive_vpd_shape x a d with e | ⟨k, e⟩ | ⟨k, y, e⟩
    · rw [e]; exact hx.2
    · rw [e]; exact keys_remove_nodup _ _ hx.2
    · rw [e]; exact keys_insert_nodup _ _ _ hx.2
  by_cases ha : a = "remove"
  · rw [if_pos ha] at hreg
    exact hshape _ _ (hD _ (hB s h)) hreg
  · rw [if_neg ha] at hreg
    exact hshape _ _ (hB _ (hD s h)) hreg

theorem reachable_keys_nodup (s : UDisksLinuxProvider) (h : Reachable s) :
    (s.sysfs_to_block.map Prod.fst).Nodup ∧ (s.vpd_to_drive.map Prod.fst).Nodup := by
  induction h with
  | new => exact ⟨List.nodup_nil, List.nodup_nil⟩
  | coldplug p b _ ih => exact ih
  | uevent p a d _ ih => exact keys_nodup_handle_block_uevent p a d ih
  | timeout p _ ih =>
    obtain ⟨e1, e2, -⟩ := registry_fields _ _ (registry_on_housekeeping_timeout p)
    simp only [registry] at e1 e2
    rw [e1, e2]; exact ih
  | job p j t _ ih =>
    obtain ⟨e1, e2, -⟩ := registry_fields _ _ (registry_run_job p j t)
    simp only [registry] at e1 e2
    rw [e1, e2]; exact ih

theorem reachable_block_values_nodup (s : UDisksLinuxProvider) (h : Reachable s) :
    (g_hash_table_get_values s.sysfs_to_block).Nodup := by
  have K := reachable_consistent s h
  apply values_nodup _ (reachable_keys_nodup s h).1
  intro k1 k2 b h1 h2
  obtain ⟨bo1, hb1, hp1⟩ := K.block k1 b h1
  obtain ⟨bo2, hb2, hp2⟩ := K.block k2 b h2
  rw [hb1] at hb2
  cases hb2
  rw [← hp1, ← hp2]

theorem reachable_drive_values_nodup (s : UDisksLinuxProvider) (h : Reachable s) :
    (g_hash_table_get_values s.vpd_to_drive).Nodup := by
  have K := reachable_consistent s h
  apply values_nodup _ (reachable_keys_nodup s h).2
  intro k1 k2 obj h1 h2
  obtain ⟨o1, ho1, hv1, -⟩ := K.vpd k1 obj h1
  obtain ⟨o2, ho2, hv2, -⟩ := K.vpd k2 obj h2
  rw [ho1] at ho2
  cases ho2
  rw [hv1] at hv2
  exact Option.some.inj hv2

/-! ## The fan-out of configuration changes -/

theorem block_object_uevent_none (s : UDisksLinuxProvider) (object : Nat) (a : String) :
    (block_object_uevent s object a none).trace =
        s.trace ++ [Effect.block_uevent object a none] ∧
      (block_object_uevent s object a none).sysfs_to_block = s.sysfs_to_block ∧
      (block_object_uevent s object a none).vpd_to_drive = s.vpd_to_drive ∧
      (block_object_uevent s object a none).sysfs_path_to_drive = s.sysfs_path_to_drive ∧
      ∀ b, g_hash_table_lookup (block_object_uevent s object a none).block_objects b =
        g_hash_table_lookup s.block_objects b := by
  unfold block_object_uevent record
  simp only []
  cases hl : g_hash_table_lookup s.block_objects object with
  | none => exact ⟨rfl, rfl, rfl, rfl, fun _ => rfl⟩
  | some o =>
    refine ⟨rfl, rfl, rfl, rfl, ?_⟩
    intro b
    simp only [udisks_linux_block_object_uevent, lookup_insert]
    split
    · rename_i e; subst e; exact hl.symm
    · rfl

theorem fan_out_loop (objects : List Nat) (s : UDisksLinuxProvider) :
    (objects.foldl (fun provider object => block_object_uevent provider object "change" none)
        s).trace = s.trace ++ objects.map (fun b => Effect.block_uevent b "change" none) ∧
      (objects.foldl (fun provider object => block_object_uevent provider object "change" none)
        s).sysfs_to_block = s.sysfs_to_block ∧
      (objects.foldl (fun provider object => block_object_uevent provider object "change" none)
        s).vpd_to_drive = s.vpd_to_drive ∧
      (objects.foldl (fun provider object => block_object_uevent provider object "change" none)
        s).sysfs_path_to_drive = s.sysfs_path_to_drive ∧
      ∀ b, g_hash_table_lookup (objects.foldl
          (fun provider object => block_object_uevent provider object "change" none)
          s).block_objects b = g_hash_table_lookup s.block_objects b := by
  induction objects generalizing s with
  | nil => exact ⟨by simp, rfl, rfl, rfl, fun _ => rfl⟩
  | cons x xs ih =>
    simp only [List.foldl_cons, List.map_cons]
    obtain ⟨h1, h2, h3, h4, h5⟩ := ih (block_object_uevent s x "change" none)
    obtain ⟨g1, g2, g3, g4, g5⟩ := block_object_uevent_none s x "change"
    refine ⟨?_, ?_, ?_, ?_, ?_⟩
    · rw [h1, g1, List.append_assoc]; rfl
    · rw [h2, g2]
    · rw [h3, g3]
    · rw [h4, g4]
    · intro b; rw [h5, g5]

theorem lock_at_calls_effects (held : Bool) (es : List Effect) :
    lock_at_calls held (es.map LockEvent.effect) =
      (es.filter enters_interface_code).map (fun _ => held) := by
  induction es with
  | nil => rfl
  | cons e es ih =>
    simp only [List.map_cons, lock_at_calls, ih, List.filter_cons]
    split <;> rfl

theorem lock_at_calls_append_effects (held : Bool) (es : List Effect)
    (rest : List LockEvent) :
    lock_at_calls held (es.map LockEvent.effect ++ rest) =
      (es.filter enters_interface_code).map (fun _ => held) ++ lock_at_calls held rest := by
  induction es with
  | nil => rfl
  | cons e es ih =>
    by_cases he : enters_interface_code e = true
    · simp [lock_at_calls, ih, List.filter_cons, he]
    · simp [lock_at_calls, ih, List.filter_cons, he]

/-! ## The member list of an MD-RAID object -/

theorem mdraid_uevent_keeps_devices
    (upd : UDisksMDRaid → UDisksLinuxMDRaidObject → UDisksMDRaid × Bool)
    (object : UDisksLinuxMDRaidObject) (a : String) (device : Option GUdevDevice) :
    (udisks_linux_mdraid_object_uevent upd object a device).devices =
      mdraid_uevent_devices object.devices a device := by
  unfold udisks_linux_mdraid_object_uevent update_iface mdraid_check mdraid_connect
  simp only []
  cases object.iface_mdraid <;> simp

theorem find_link_first (pre post : List GUdevDevice) (m : GUdevDevice) (p : String)
    (hm : m.sysfs_path = p) (hpre : ∀ x ∈ pre, x.sysfs_path ≠ p) :
    find_link_for_sysfs_path (pre ++ m :: post) p = some pre.length := by
  induction pre with
  | nil => simp [find_link_for_sysfs_path, hm]
  | cons x xs ih =>
    have hx : ¬ x.sysfs_path = p := hpre x (List.mem_cons_self _ _)
    simp [find_link_for_sysfs_path, hx, ih (fun y hy => hpre y (List.mem_cons_of_mem _ hy))]

theorem find_link_split (devices : List GUdevDevice) (p : String)
    (h : ∃ x ∈ devices, x.sysfs_path = p) :
    ∃ pre m post, devices = pre ++ m :: post ∧ m.sysfs_path = p ∧
      ∀ x ∈ pre, x.sysfs_path ≠ p := by
  induction devices with
  | nil =>
    obtain ⟨x, hx, -⟩ := h
    cases hx
  | cons d ds ih =>
    by_cases hd : d.sysfs_path = p
    · exact ⟨[], d, ds, rfl, hd, fun x hx => by cases hx⟩
    · obtain ⟨x, hx, hxp⟩ := h
      have hx' : x ∈ ds := by
        rcases List.mem_cons.mp hx with e | e
        · subst e; exact absurd hxp hd
        · exact e
      obtain ⟨pre, m, post, he, hm, hpre⟩ := ih ⟨x, hx', hxp⟩
      refine ⟨d :: pre, m, post, by rw [he]; rfl, hm, ?_⟩
      intro y hy
      rcases List.mem_cons.mp hy with e | e
      · subst e; exact hd
      · exact hpre y e

theorem mdraid_uevent_devices_paths (devices : List GUdevDevice) (a : String) (d : GUdevDevice) :
    (mdraid_uevent_devices devices a (some d)).map GUdevDevice.sysfs_path =
      if a = "remove" then (devices.map GUdevDevice.sysfs_path).erase d.sysfs_path
      else if d.sysfs_path ∈ devices.map GUdevDevice.sysfs_path then
        devices.map GUdevDevice.sysfs_path
      else devices.map GUdevDevice.sysfs_path ++ [d.sysfs_path] := by
  cases hlink : find_link_for_sysfs_path devices d.sysfs_path with
  | none =>
    have hn := (find_link_none_iff _ _).mp hlink
    by_cases ha : a = "remove"
    · simp [mdraid_uevent_devices, hlink, ha, List.erase_of_not_mem hn]
    · simp [mdraid_uevent_devices, hlink, ha, hn]
  | some i =>
    obtain ⟨h1, h2, h3⟩ := find_link_some _ _ _ hlink
    by_cases ha : a = "remove"
    · simp [mdraid_uevent_devices, hlink, ha, h1]
    · simp [mdraid_uevent_devices, hlink, ha, h3, h2 d rfl]

theorem mdraid_uevent_devices_nodup (devices : List GUdevDevice) (a : String)
    (device : Option GUdevDevice) (h : (devices.map GUdevDevice.sysfs_path).Nodup) :
    ((mdraid_uevent_devices devices a device).map GUdevDevice.sysfs_path).Nodup := by
  cases device with
  | none =>
    have : mdraid_uevent_devices devices a none = devices := by
      simp [mdraid_uevent_devices]
    rw [this]; exact h
  | some d =>
    rw [mdraid_uevent_devices_paths]
    split
    · exact h.erase _
    · split
      · exact h
      · rename_i hnot
        rw [List.nodup_append]
        refine ⟨h, List.nodup_singleton _, ?_⟩
        intro x hx hx'
        rw [List.mem_singleton] at hx'
        subst hx'
        exact hnot hx

theorem run_mdraid_uevents_nodup
    (upd : UDisksMDRaid → UDisksLinuxMDRaidObject → UDisksMDRaid × Bool)
    (object : UDisksLinuxMDRaidObject) (evs : List (String × Option GUdevDevice))
    (h : (object.devices.map GUdevDevice.sysfs_path).Nodup) :
    ((run_mdraid_uevents upd object evs).devices.map GUdevDevice.sysfs_path).Nodup := by
  induction evs generalizing object with
  | nil => exact h
  | cons e es ih =>
    obtain ⟨a, device⟩ := e
    simp only [run_mdraid_uevents]
    apply ih
    rw [mdraid_uevent_keeps_devices]
    exact mdraid_uevent_devices_nodup _ _ _ h

/-! ## The interface updater -/

theorem update_iface_absent_unwanted (object : UDisksLinuxMDRaidObject) (a : String)
    (has_func : UDisksLinuxMDRaidObject → Bool)
    (connect_func : Option (UDisksLinuxMDRaidObject → UDisksLinuxMDRaidObject))
    (update_func : UDisksLinuxMDRaidObject → String → UDisksMDRaid → UDisksMDRaid × Bool)
    (skeleton : UDisksMDRaid)
    (hs : object.iface_mdraid = none) (hh : has_func object = false) :
    update_iface object a has_func connect_func update_func skeleton =
      (false, { object with calls := object.calls ++ [IfaceCall.has_func] }) := by
  unfold update_iface
  simp [hs, hh]

theorem update_iface_present_unwanted (object : UDisksLinuxMDRaidObject) (a : String)
    (has_func : UDisksLinuxMDRaidObject → Bool)
    (connect_func : Option (UDisksLinuxMDRaidObject → UDisksLinuxMDRaidObject))
    (update_func : UDisksLinuxMDRaidObject → String → UDisksMDRaid → UDisksMDRaid × Bool)
    (skeleton : UDisksMDRaid) (iface : UDisksMDRaid)
    (hs : object.iface_mdraid = some iface) (hh : has_func object = false) :
    update_iface object a has_func connect_func update_func skeleton =
      (false, { object with iface_mdraid := none,
                            calls := object.calls ++
                              [IfaceCall.has_func, IfaceCall.remove_interface] }) := by
  unfold update_iface
  simp [hs, hh]

theorem update_iface_present_wanted (object : UDisksLinuxMDRaidObject) (a : String)
    (has_func : UDisksLinuxMDRaidObject → Bool)
    (connect_func : Option (UDisksLinuxMDRaidObject → UDisksLinuxMDRaidObject))
    (update_func : UDisksLinuxMDRaidObject → String → UDisksMDRaid → UDisksMDRaid × Bool)
    (skeleton : UDisksMDRaid) (iface : UDisksMDRaid)
    (hs : object.iface_mdraid = some iface) (hh : has_func object = true) :
    update_iface object a has_func connect_func update_func skeleton =
      ((update_func { object with calls := object.calls ++ [IfaceCall.has_func] } a iface).2,
        { object with
          iface_mdraid := some
            (update_func { object with calls := object.calls ++ [IfaceCall.has_func] } a iface).1,
          calls := object.calls ++ [IfaceCall.has_func, IfaceCall.update_func a] }) := by
  unfold update_iface
  simp [hs, hh]

theorem update_iface_absent_wanted (object : UDisksLinuxMDRaidObject) (a : String)
    (has_func : UDisksLinuxMDRaidObject → Bool)
    (connect_func : Option (UDisksLinuxMDRaidObject → UDisksLinuxMDRaidObject))
    (update_func : UDisksLinuxMDRaidObject → String → UDisksMDRaid → UDisksMDRaid × Bool)
    (skeleton : UDisksMDRaid) (hconnect : connect_frame connect_func)
    (hs : object.iface_mdraid = none) (hh : has_func object = true) :
    ∃ o : UDisksLinuxMDRaidObject,
      (connect_func = none →
        o = { object with iface_mdraid := some skeleton,
                          calls := object.calls ++
                            [IfaceCall.has_func, IfaceCall.g_object_new] }) ∧
      (∀ c, connect_func = some c →
        o = { c { object with iface_mdraid := some skeleton,
                              calls := object.calls ++
                                [IfaceCall.has_func, IfaceCall.g_object_new] } with
              calls := object.calls ++
                [IfaceCall.has_func, IfaceCall.g_object_new, IfaceCall.connect_func] }) ∧
      o.iface_mdraid = some skeleton ∧
      o.calls = object.calls ++ IfaceCall.has_func :: IfaceCall.g_object_new ::
        (if connect_func.isSome then [IfaceCall.connect_func] else []) ∧
      update_iface object a has_func connect_func update_func skeleton =
        ((update_func o a skeleton).2,
          { o with iface_mdraid := some (update_func o a skeleton).1,
                   calls := o.calls ++
                     [IfaceCall.update_func a, IfaceCall.add_interface] }) := by
  cases hcf : connect_func with
  | none =>
    refine ⟨{ object with iface_mdraid := some skeleton,
                          calls := object.calls ++
                            [IfaceCall.has_func, IfaceCall.g_object_new] },
      (fun _ => rfl), (fun c hc => by cases hc), rfl, (by simp), ?_⟩
    unfold update_iface
    simp [hs, hh]
  | some c =>
    obtain ⟨f1, f2⟩ := hconnect c hcf
      { object with iface_mdraid := some skeleton,
                    calls := object.calls ++ [IfaceCall.has_func, IfaceCall.g_object_new] }
    refine ⟨{ c { object with iface_mdraid := some skeleton,
                              calls := object.calls ++
                                [IfaceCall.has_func, IfaceCall.g_object_new] } with
              calls := object.calls ++
                [IfaceCall.has_func, IfaceCall.g_object_new, IfaceCall.connect_func] },
      (fun h => by cases h), (fun c' hc' => by cases hc'; rfl), ?_, (by simp), ?_⟩
    · exact f1
    · unfold update_iface
      simp only [hs, hh, if_true, List.append_assoc, List.singleton_append]
      simp only [f1, f2, List.append_assoc, List.cons_append, List.nil_append]

theorem update_iface_shape (object : UDisksLinuxMDRaidObject) (a : String)
    (has_func : UDisksLinuxMDRaidObject → Bool)
    (connect_func : Option (UDisksLinuxMDRaidObject → UDisksLinuxMDRaidObject))
    (update_func : UDisksLinuxMDRaidObject → String → UDisksMDRaid → UDisksMDRaid × Bool)
    (skeleton : UDisksMDRaid) (hconnect : connect_frame connect_func) :
    (update_iface object a has_func connect_func update_func skeleton).2.iface_mdraid.isSome =
      has_func object ∧
    (update_iface object a has_func connect_func update_func skeleton).2.calls =
      object.calls ++ update_iface_trace object.iface_mdraid.isNone (has_func object)
        connect_func.isSome a := by
  cases hs : object.iface_mdraid with
  | none =>
    cases hh : has_func object with
    | false =>
      rw [update_iface_absent_unwanted object a has_func connect_func update_func skeleton hs hh]
      simp [hs, update_iface_trace]
    | true =>
      obtain ⟨o, -, -, h3, h4, h5⟩ :=
        update_iface_absent_wanted object a has_func connect_func update_func skeleton
          hconnect hs hh
      rw [h5]
      simp only [h4, update_iface_trace]
      cases connect_func <;> simp
  | some iface =>
    cases hh : has_func object with
    | false =>
      rw [update_iface_present_unwanted object a has_func connect_func update_func skeleton
        iface hs hh]
      simp [update_iface_trace]
    | true =>
      rw [update_iface_present_wanted object a has_func connect_func update_func skeleton
        iface hs hh]
      simp [update_iface_trace]

theorem publication_append (l1 l2 : List IfaceCall) :
    publication (l1 ++ l2) = l2.foldl publication_step (publication l1) := by
  unfold publication
  rw [List.foldl_append]

theorem publication_update_iface_trace (st : Publication) (slot_empty has connect : Bool)
    (a : String) (h1 : st.in_order = true) (h2 : st.published = !slot_empty) :
    ((update_iface_trace slot_empty has connect a).foldl publication_step st).in_order = true ∧
    ((update_iface_trace slot_empty has connect a).foldl publication_step st).published =
      has := by
  obtain ⟨i, p, u⟩ := st
  simp only at h1 h2
  subst h1 h2
  cases slot_empty <;> cases has <;> cases connect <;>
    simp [update_iface_trace, publication_step]

theorem update_iface_publication (object : UDisksLinuxMDRaidObject) (a : String)
    (has_func : UDisksLinuxMDRaidObject → Bool)
    (connect_func : Option (UDisksLinuxMDRaidObject → UDisksLinuxMDRaidObject))
    (update_func : UDisksLinuxMDRaidObject → String → UDisksMDRaid → UDisksMDRaid × Bool)
    (skeleton : UDisksMDRaid) (hconnect : connect_frame connect_func)
    (h1 : (publication object.calls).in_order = true)
    (h2 : (publication object.calls).published = object.iface_mdraid.isSome) :
    (publication (update_iface object a has_func connect_func update_func
      skeleton).2.calls).in_order = true ∧
    (publication (update_iface object a has_func connect_func update_func
      skeleton).2.calls).published =
      (update_iface object a has_func connect_func update_func skeleton).2.iface_mdraid.isSome := by
  obtain ⟨s1, s2⟩ := update_iface_shape object a has_func connect_func update_func skeleton
    hconnect
  rw [s2, s1, publication_append]
  apply publication_update_iface_trace _ _ _ _ _ h1
  rw [h2]
  cases object.iface_mdraid <;> rfl

theorem update_iface_calls_publication (seq : List IfaceFuncs)
    (object : UDisksLinuxMDRaidObject)
    (hconnect : ∀ f ∈ seq, connect_frame f.connect_func)
    (h1 : (publication object.calls).in_order = true)
    (h2 : (publication object.calls).published = object.iface_mdraid.isSome) :
    (publication (update_iface_calls object seq).calls).in_order = true ∧
    (publication (update_iface_calls object seq).calls).published =
      (update_iface_calls object seq).iface_mdraid.isSome := by
  induction seq generalizing object with
  | nil => exact ⟨h1, h2⟩
  | cons f fs ih =>
    simp only [update_iface_calls]
    obtain ⟨k1, k2⟩ := update_iface_publication object f.uevent_action f.has_func f.connect_func
      f.update_func f.skeleton (hconnect f (List.mem_cons_self _ _)) h1 h2
    exact ih _ (fun g hg => hconnect g (List.mem_cons_of_mem _ hg)) k1 k2

theorem mdraid_connect_frame : connect_frame (some mdraid_connect) := by
  intro c hc o
  cases hc
  exact ⟨rfl, rfl⟩

theorem run_mdraid_uevents_publication
    (upd : UDisksMDRaid → UDisksLinuxMDRaidObject → UDisksMDRaid × Bool)
    (evs : List (String × Option GUdevDevice)) (object : UDisksLinuxMDRaidObject)
    (h1 : (publication object.calls).in_order = true)
    (h2 : (publication object.calls).published = object.iface_mdraid.isSome) :
    (publication (run_mdraid_uevents upd object evs).calls).in_order = true ∧
    (publication (run_mdraid_uevents upd object evs).calls).published =
      (run_mdraid_uevents upd object evs).iface_mdraid.isSome := by
  induction evs generalizing object with
  | nil => exact ⟨h1, h2⟩
  | cons e es ih =>
    obtain ⟨a, device⟩ := e
    simp only [run_mdraid_uevents]
    have k := update_iface_publication
      { object with devices := mdraid_uevent_devices object.devices a device } a mdraid_check
      (some mdraid_connect) (mdraid_update upd) { uuid := none } mdraid_connect_frame h1 h2
    exact ih _ k.1 k.2

/-! ## The housekeeping interval -/

theorem housekeeping_loop_trace (objects : List Nat) (s : UDisksLinuxProvider) (secs : Nat) :
    (objects.foldl (fun provider object =>
        record provider (Effect.drive_housekeeping object secs)) s).trace =
      s.trace ++ objects.map (fun o => Effect.drive_housekeeping o secs) ∧
    (objects.foldl (fun provider object =>
        record provider (Effect.drive_housekeeping object secs)) s).housekeeping_last =
      s.housekeeping_last := by
  induction objects generalizing s with
  | nil => simp
  | cons x xs ih =>
    simp only [List.foldl_cons, List.map_cons]
    obtain ⟨h1, h2⟩ := ih (record s (Effect.drive_housekeeping x secs))
    rw [h1, h2]
    simp [record]

theorem housekeeping_all_drives_effects (s : UDisksLinuxProvider) (secs : Nat) :
    new_effects s (housekeeping_all_drives s secs) =
      (g_hash_table_get_values s.vpd_to_drive).map (fun o => Effect.drive_housekeeping o secs) :=
  new_effects_of_eq _ _ _ (housekeeping_loop_trace _ s secs).1

theorem housekeeping_thread_func_effects (s : UDisksLinuxProvider) (time : Nat) :
    new_effects s (housekeeping_thread_func s time) =
      (g_hash_table_get_values s.vpd_to_drive).map (fun o => Effect.drive_housekeeping o
        (if s.housekeeping_last > 0 then
          ((time % 2 ^ 64 + 2 ^ 64 - s.housekeeping_last % 2 ^ 64) % 2 ^ 64) % 2 ^ 32
        else 0)) ∧
    (housekeeping_thread_func s time).housekeeping_last = time % 2 ^ 64 := by
  constructor
  · apply new_effects_of_eq
    unfold housekeeping_thread_func housekeeping_all_drives
    simp only []
    rw [(housekeeping_loop_trace _ _ _).1]
  · unfold housekeeping_thread_func housekeeping_all_drives
    simp only []
    rw [(housekeeping_loop_trace _ _ _).2]

theorem handle_block_uevent_housekeeping_last (s : UDisksLinuxProvider) (a : String)
    (d : GUdevDevice) : (handle_block_uevent s a d).housekeeping_last = s.housekeeping_last := by
  have fb := fun s => (for_block_frame s a d).2.2.2.2.2.2
  have fd := fun s => (for_drive_frame s a d).2.2.2.2
  unfold handle_block_uevent udisks_cleanup_check record
  simp only []
  split <;> split <;> simp [fb, fd]

theorem reachable_housekeeping_last (s : UDisksLinuxProvider) (h : Reachable s) :
    s.housekeeping_last < 2 ^ 64 := by
  induction h with
  | new => simp [udisks_linux_provider_new]
  | coldplug p b _ ih => exact ih
  | uevent p a d _ ih =>
    rw [handle_block_uevent_housekeeping_last]
    exact ih
  | timeout p _ ih =>
    unfold on_housekeeping_timeout
    split
    · exact ih
    · exact ih
  | job p j t _ ih =>
    unfold g_io_scheduler_run_job
    split
    · cases j with
      | perform_initial_housekeeping_for_drive obj => exact ih
      | housekeeping_thread_func =>
        show (housekeeping_thread_func _ t).housekeeping_last < 2 ^ 64
        rw [(housekeeping_thread_func_effects _ t).2]
        exact Nat.mod_lt _ (by norm_num)
    · exact ih

theorem secs_since_last_int (last time : Nat) (h : last < 2 ^ 64) :
    ((((time % 2 ^ 64 + 2 ^ 64 - last % 2 ^ 64) % 2 ^ 64) % 2 ^ 32 : Nat) : Int) =
      (((time % 2 ^ 64 : Nat) : Int) - (last : Int)) % 2 ^ 32 := by
  norm_num at h ⊢
  omega

theorem secs_since_last_exact (last time : Nat) (h1 : last ≤ time % 2 ^ 64)
    (h2 : time % 2 ^ 64 < last + 2 ^ 32) :
    ((time % 2 ^ 64 + 2 ^ 64 - last % 2 ^ 64) % 2 ^ 64) % 2 ^ 32 = time % 2 ^ 64 - last := by
  norm_num at h1 h2 ⊢
  omega

theorem housekeeping_loop_calls (housekeeping : Nat → Nat → Bool) (secs : Nat)
    (objects : List Nat) :
    (housekeeping_all_drives_loop housekeeping secs objects).1 =
      objects.map (fun o => (o, secs)) ∧
    (housekeeping_all_drives_loop housekeeping secs objects).2 =
      objects.filter (fun o => !housekeeping o secs) := by
  induction objects with
  | nil => exact ⟨rfl, rfl⟩
  | cons x xs ih =>
    simp only [housekeeping_all_drives_loop]
    cases hx : housekeeping x secs <;> simp [ih.1, ih.2, hx]

theorem count_drive_housekeeping (objects : List Nat) (hn : objects.Nodup) (secs : Nat)
    (o : Nat) (ho : o ∈ objects) (v : Nat) :
    (objects.map (fun o => Effect.drive_housekeeping o secs)).count
      (Effect.drive_housekeeping o v) = if v = secs then 1 else 0 := by
  by_cases hv : v = secs
  · subst hv
    rw [if_pos rfl]
    have hinj : Function.Injective (fun o => Effect.drive_housekeeping o v) := by
      intro a b hab
      simp only [Effect.drive_housekeeping.injEq] at hab
      exact hab.1
    rw [List.count_map_of_injective objects _ hinj o]
    exact List.count_eq_one_of_mem hn ho
  · rw [if_neg hv]
    apply List.count_eq_zero_of_not_mem
    intro hm
    obtain ⟨x, -, hx⟩ := List.mem_map.mp hm
    simp only [Effect.drive_housekeeping.injEq] at hx
    exact hv hx.2.symm

/-! ## The object path of an MD-RAID object -/

/-- C1: when the MD-RAID interface reports the UUID string `u` after the
initial uevent, `udisks_linux_mdraid_object_constructed` sets the object path
`"/org/freedesktop/UDisks2/mdraid/"` followed by `sanitize u`; `sanitize u` is
the replacement of `' '`, `'-'`, `':'` by `'_'`, character by character and in
order, applied to `u` without its leading and trailing white space. -/
theorem mdraid_object_path_sanitized
    (udisks_linux_mdraid_update : UDisksMDRaid → UDisksLinuxMDRaidObject → UDisksMDRaid × Bool)
    (object : UDisksLinuxMDRaidObject) (device : GUdevDevice) (u : String)
    (hdevice : object.devices.head? = some device)
    (huuid : (udisks_linux_mdraid_object_uevent udisks_linux_mdraid_update object "add"
      (some device)).iface_mdraid = some { uuid := some u }) :
    (∃ o, udisks_linux_mdraid_object_constructed udisks_linux_mdraid_update object = some o ∧
      o.object_path = some ("/org/freedesktop/UDisks2/mdraid/" ++ sanitize u)) ∧
    (sanitize u).data = (trim u.data).map uscore ∧
    (∃ l r, u.data = l ++ trim u.data ++ r ∧ (∀ c ∈ l, g_ascii_isspace c = true) ∧
      (∀ c ∈ r, g_ascii_isspace c = true) ∧
      (∀ c, (trim u.data).head? = some c → g_ascii_isspace c = false) ∧
      (∀ c, (trim u.data).getLast? = some c → g_ascii_isspace c = false)) := by
  refine ⟨?_, rfl, trim_spec u.data⟩
  simp only [udisks_linux_mdraid_object_constructed, hdevice, huuid,
    strip_and_replace_with_uscore_eq_sanitize]
  exact ⟨_, rfl, rfl⟩

/-- C1, witness: the MD-RAID object whose interface reports the UUID
`" 12:34-ab cd "` gets the path `/org/freedesktop/UDisks2/mdraid/12_34_ab_cd`. -/
theorem mdraid_object_path_sanitized_witness :
    (∃ o, udisks_linux_mdraid_object_constructed
        (fun _ _ => ({ uuid := some " 12:34-ab cd " }, true))
        (udisks_linux_mdraid_object_new
          { sysfs_path := "/sys/devices/virtual/block/md0", subsystem := "block",
            properties := [], should_include := false, vpd := none }) = some o ∧
      o.object_path = some "/org/freedesktop/UDisks2/mdraid/12_34_ab_cd") := by
  have h := (mdraid_object_path_sanitized
    (fun _ _ => ({ uuid := some " 12:34-ab cd " }, true))
    (udisks_linux_mdraid_object_new
      { sysfs_path := "/sys/devices/virtual/block/md0", subsystem := "block",
        properties := [], should_include := false, vpd := none })
    { sysfs_path := "/sys/devices/virtual/block/md0", subsystem := "block",
      properties := [], should_include := false, vpd := none }
    " 12:34-ab cd " (by decide) (by decide)).1
  have hs : "/org/freedesktop/UDisks2/mdraid/" ++ sanitize " 12:34-ab cd " =
      "/org/freedesktop/UDisks2/mdraid/12_34_ab_cd" := by decide
  rw [hs] at h
  exact h

/-! ## The registry invariants -/

/-- C2 (G1): in every reachable state, a drive stored in `sysfs_path_to_drive`
under a path is a live object, is stored in `vpd_to_drive` under its own vpd
tag, and has a member with this sysfs path; so the back-reference never
points at a drive erased from `vpd_to_drive`. -/
theorem back_reference_invariant (s : UDisksLinuxProvider) (h : Reachable s) (path : String)
    (obj : Nat) (hl : g_hash_table_lookup s.sysfs_path_to_drive path = some obj) :
    ∃ o v, g_hash_table_lookup s.drive_objects obj = some o ∧ o.x_vpd = some v ∧
      g_hash_table_lookup s.vpd_to_drive v = some obj ∧ path ∈ member_paths o :=
  (reachable_consistent s h).back path obj hl

/-- C2, witness: after `add` of `/sys/block/sda` with vpd `S1W1` the
back-reference of the path points at the drive stored under `S1W1`. -/
theorem back_reference_invariant_witness :
    g_hash_table_lookup (run_uevents udisks_linux_provider_new
        [("add", block_device "/sys/block/sda" (some "S1W1"))]).sysfs_path_to_drive
        "/sys/block/sda" = some 0 ∧
      ∃ o v, g_hash_table_lookup (run_uevents udisks_linux_provider_new
          [("add", block_device "/sys/block/sda" (some "S1W1"))]).drive_objects 0 = some o ∧
        o.x_vpd = some v ∧
        g_hash_table_lookup (run_uevents udisks_linux_provider_new
          [("add", block_device "/sys/block/sda" (some "S1W1"))]).vpd_to_drive v = some 0 ∧
        "/sys/block/sda" ∈ member_paths o :=
  ⟨by decide, back_reference_invariant _
    (reachable_run_uevents _ _ Reachable.new) "/sys/block/sda" 0 (by decide)⟩

/-- C3 (G2, I1): in every reachable state each drive stored in `vpd_to_drive`
is a live object with a non-empty member list; and when a block uevent is
processed in such a state, a drive stored under a vpd is either still stored
there afterwards or erased, it is erased exactly when the event is a `remove`
that `sysfs_path_to_drive` forwards to this drive and that leaves its member
list empty, and it is unexported exactly when it is erased. -/
theorem drive_members_nonempty (s : UDisksLinuxProvider) (h : Reachable s) :
    (∀ v obj, g_hash_table_lookup s.vpd_to_drive v = some obj →
      ∃ o, g_hash_table_lookup s.drive_objects obj = some o ∧ o.devices ≠ []) ∧
    (∀ a d v obj, g_hash_table_lookup s.vpd_to_drive v = some obj →
      (g_hash_table_lookup (handle_block_uevent s a d).vpd_to_drive v = none ∨
        g_hash_table_lookup (handle_block_uevent s a d).vpd_to_drive v = some obj) ∧
      (g_hash_table_lookup (handle_block_uevent s a d).vpd_to_drive v = none ↔
        a = "remove" ∧ g_hash_table_lookup s.sysfs_path_to_drive d.sysfs_path = some obj ∧
        udisks_linux_drive_object_get_devices (handle_block_uevent s a d) obj = []) ∧
      (Effect.unexport obj ∈ new_effects s (handle_block_uevent s a d) ↔
        g_hash_table_lookup (handle_block_uevent s a d).vpd_to_drive v = none)) := by
  have K := reachable_consistent s h
  refine ⟨fun v obj hl => ?_, fun a d v obj hl => ?_⟩
  · obtain ⟨o, ho, _, hne⟩ := K.vpd v obj hl
    exact ⟨o, ho, hne⟩
  · obtain ⟨o, ho, hxv, hne⟩ := K.vpd v obj hl
    by_cases ha : a = "remove"
    · subst ha
      rw [handle_block_uevent_remove]
      have K1 := consistent_for_block s "remove" d K
      obtain ⟨f1, f2, f3, -⟩ := for_block_frame s "remove" d
      obtain ⟨tb, tb1, -, tb3⟩ := for_block_trace_ex s "remove" d
      obtain ⟨td, td1, -, -⟩ :=
        for_drive_trace_ex (handle_block_uevent_for_block s "remove" d) "remove" d
      have hl1 : g_hash_table_lookup (handle_block_uevent_for_block s "remove" d).vpd_to_drive v
          = some obj := by rw [f1]; exact hl
      obtain ⟨r1, r2, r3⟩ :=
        for_drive_remove_erases (handle_block_uevent_for_block s "remove" d) d K1 v obj hl1
      rw [f2] at r2
      rw [new_effects_of_eq _ _ td td1] at r3
      have hnotb : Effect.unexport obj ∉ tb := by
        intro hmem
        obtain ⟨-, hb⟩ := tb3 obj hmem
        obtain ⟨bo, hbo, -⟩ := K.block _ _ hb
        exact K.disjoint obj o bo ho hbo
      have htr : new_effects s (udisks_cleanup_check (handle_block_uevent_for_drive
          (handle_block_uevent_for_block s "remove" d) "remove" d)) =
          (tb ++ td) ++ [Effect.cleanup_check] :=
        trace_trans s _ _ (tb ++ td) [Effect.cleanup_check]
          (by rw [td1, tb1, List.append_assoc]) rfl
      refine ⟨r1, ?_, ?_⟩
      · constructor
        · intro hx
          exact ⟨rfl, r2.mp hx⟩
        · rintro ⟨-, hx⟩
          exact r2.mpr hx
      · rw [htr]
        simp only [List.mem_append, List.mem_singleton, hnotb, false_or]
        constructor
        · rintro (hx | hx)
          · exact r3.mp hx
          · cases hx
        · intro hx
          exact Or.inl (r3.mpr hx)
    · have hkeep := for_drive_keeps_vpd s a d ha K v obj hl
      obtain ⟨f1, -⟩ := for_block_frame (handle_block_uevent_for_drive s a d) a d
      obtain ⟨tb, tb1, -, tb3⟩ := for_block_trace_ex (handle_block_uevent_for_drive s a d) a d
      obtain ⟨td, td1, -, td3⟩ := for_drive_trace_ex s a d
      have hcomp := trace_trans s _ _ td tb td1 tb1
      have hv : g_hash_table_lookup (handle_block_uevent s a d).vpd_to_drive v = some obj := by
        by_cases hadd : a = "add"
        · subst hadd
          rw [handle_block_uevent_add, f1]; exact hkeep
        · rw [handle_block_uevent_other s a d ha hadd]
          show g_hash_table_lookup (handle_block_uevent_for_block _ a d).vpd_to_drive v = _
          rw [f1]; exact hkeep
      have hno : Effect.unexport obj ∉ new_effects s (handle_block_uevent s a d) := by
        by_cases hadd : a = "add"
        · subst hadd
          rw [handle_block_uevent_add, hcomp]
          simp only [List.mem_append, not_or]
          exact ⟨fun hx => ha (td3 obj hx).1, fun hx => ha (tb3 obj hx).1⟩
        · rw [handle_block_uevent_other s a d ha hadd]
          have htr : new_effects s (udisks_cleanup_check (handle_block_uevent_for_block
              (handle_block_uevent_for_drive s a d) a d)) =
              (td ++ tb) ++ [Effect.cleanup_check] :=
            trace_trans s _ _ (td ++ tb) [Effect.cleanup_check]
              (by rw [tb1, td1, List.append_assoc]) rfl
          rw [htr]
          simp only [List.mem_append, List.mem_singleton, not_or]
          exact ⟨⟨fun hx => ha (td3 obj hx).1, fun hx => ha (tb3 obj hx).1⟩, fun hx => by cases hx⟩
      refine ⟨Or.inr hv, ?_, ?_⟩
      · simp [hv, ha]
      · simp [hv, hno]

/-- C3, witness: after `add` of `/sys/block/sda` the drive stored under `S1W1`
has a member, and the `remove` of the device erases it. -/
theorem drive_members_nonempty_witness :
    (∃ o, g_hash_table_lookup state_sda.drive_objects 0 = some o ∧ o.devices ≠ []) ∧
    (g_hash_table_lookup (handle_block_uevent state_sda "remove"
        (block_device "/sys/block/sda" (some "S1W1"))).vpd_to_drive "S1W1" = none ↔
      "remove" = "remove" ∧
        g_hash_table_lookup state_sda.sysfs_path_to_drive
          (block_device "/sys/block/sda" (some "S1W1")).sysfs_path = some 0 ∧
        udisks_linux_drive_object_get_devices (handle_block_uevent state_sda "remove"
          (block_device "/sys/block/sda" (some "S1W1"))) 0 = []) :=
  ⟨(drive_members_nonempty state_sda (reachable_run_uevents _ _ Reachable.new)).1 "S1W1" 0
      (by decide),
    ((drive_members_nonempty state_sda (reachable_run_uevents _ _ Reachable.new)).2 "remove"
      (block_device "/sys/block/sda" (some "S1W1")) "S1W1" 0 (by decide)).2.1⟩

/-- C4 (I2), counterexample: after `add` of `/sys/block/sda` with vpd `S1W1`
and `change` of the same path with vpd `S2W2`, the drive stored under `S1W1`
still has the path as a member while `sysfs_path_to_drive` maps the path to
the drive created for `S2W2`. -/
theorem members_indexed_counterexample :
    ¬ members_indexed (run_uevents udisks_linux_provider_new
      [("add", block_device "/sys/block/sda" (some "S1W1")),
       ("change", block_device "/sys/block/sda" (some "S2W2"))]) := by
  intro H
  have h := H "S1W1" 0
    { devices := [block_device "/sys/block/sda" (some "S1W1")], x_vpd := some "S1W1" }
    (by decide) (by decide) "/sys/block/sda" (by decide)
  revert h
  decide

/-- C4 (I2), amended: in every state reached from the new provider (with
either value of `coldplug`) by a sequence of block uevents in which no
accepted non-remove event carries a vpd other than the tag of the drive its
sysfs path is registered with in `sysfs_path_to_drive` at that moment, every
sysfs path of a member of a drive stored in `vpd_to_drive` has an entry in
`sysfs_path_to_drive`, and the entry is this drive. -/
theorem members_indexed_of_agreeing (coldplug : Bool) (evs : List (String × GUdevDevice))
    (hag : vpd_agrees_run { udisks_linux_provider_new with coldplug := coldplug } evs = true) :
    members_indexed (run_uevents { udisks_linux_provider_new with coldplug := coldplug } evs) :=
  members_indexed_run _ evs
    (consistent_of_registry_eq udisks_linux_provider_new _ rfl consistent_new)
    (by intro v obj o hl; simp [udisks_linux_provider_new, g_hash_table_lookup] at hl) hag

/-- C4, witness: two paths of one drive are added, one is removed again. -/
theorem members_indexed_of_agreeing_witness :
    vpd_agrees_run { udisks_linux_provider_new with coldplug := false }
        [("add", block_device "/sys/block/sda" (some "S1W1")),
         ("add", block_device "/sys/block/sdb" (some "S1W1")),
         ("remove", block_device "/sys/block/sda" (some "S1W1"))] = true ∧
      members_indexed (run_uevents { udisks_linux_provider_new with coldplug := false }
        [("add", block_device "/sys/block/sda" (some "S1W1")),
         ("add", block_device "/sys/block/sdb" (some "S1W1")),
         ("remove", block_device "/sys/block/sda" (some "S1W1"))]) :=
  ⟨by decide, members_indexed_of_agreeing false _ (by decide)⟩

/-! ## The ordering rule -/

/-- C5: on `remove`, `handle_block_uevent` is `handle_block_uevent_for_block`
followed by `handle_block_uevent_for_drive`; on every other action it is
`handle_block_uevent_for_drive` followed by `handle_block_uevent_for_block`
(in both cases followed by the cleanup check unless the action is `add`, which
leaves the registry as it is). The effects the call records split into three
consecutive parts: on `remove` the first holds no drive-index mutation and the
second no block-index mutation, on every other action the first holds no
block-index mutation and the second no drive-index mutation; the third holds
no index mutation. -/
theorem handle_block_uevent_order (s : UDisksLinuxProvider) (a : String) (d : GUdevDevice) :
    (a = "remove" →
      handle_block_uevent s a d =
          udisks_cleanup_check
            (handle_block_uevent_for_drive (handle_block_uevent_for_block s a d) a d) ∧
        registry (handle_block_uevent s a d) =
          registry (handle_block_uevent_for_drive (handle_block_uevent_for_block s a d) a d)) ∧
    (a ≠ "remove" →
      handle_block_uevent s a d =
          (if a = "add" then
            handle_block_uevent_for_block (handle_block_uevent_for_drive s a d) a d
          else udisks_cleanup_check
            (handle_block_uevent_for_block (handle_block_uevent_for_drive s a d) a d)) ∧
        registry (handle_block_uevent s a d) =
          registry (handle_block_uevent_for_block (handle_block_uevent_for_drive s a d) a d)) ∧
    ∃ t1 t2 t3, (handle_block_uevent s a d).trace = s.trace ++ t1 ++ t2 ++ t3 ∧
      (∀ e ∈ t3, is_drive_mutation e = false ∧ is_block_mutation e = false) ∧
      (a = "remove" →
        (∀ e ∈ t1, is_drive_mutation e = false) ∧ (∀ e ∈ t2, is_block_mutation e = false)) ∧
      (a ≠ "remove" →
        (∀ e ∈ t1, is_block_mutation e = false) ∧ (∀ e ∈ t2, is_drive_mutation e = false)) := by
  refine ⟨?_, ?_, ?_⟩
  · rintro rfl
    rw [handle_block_uevent_remove]
    exact ⟨rfl, rfl⟩
  · intro ha
    by_cases hadd : a = "add"
    · subst hadd
      rw [handle_block_uevent_add]
      exact ⟨by simp, rfl⟩
    · rw [handle_block_uevent_other s a d ha hadd]
      exact ⟨by simp [hadd], rfl⟩
  · by_cases ha : a = "remove"
    · subst ha
      obtain ⟨tb, tb1, tb2, -⟩ := for_block_trace_ex s "remove" d
      obtain ⟨td, td1, td2, -⟩ :=
        for_drive_trace_ex (handle_block_uevent_for_block s "remove" d) "remove" d
      refine ⟨tb, td, [Effect.cleanup_check], ?_, ?_, ?_, ?_⟩
      · rw [handle_block_uevent_remove]
        show (handle_block_uevent_for_drive _ "remove" d).trace ++ [Effect.cleanup_check] = _
        rw [td1, tb1]
      · intro e he
        rw [List.mem_singleton] at he
        subst he
        exact ⟨rfl, rfl⟩
      · intro _
        exact ⟨fun e he => (tb2 e he).1, fun e he => (td2 e he).1⟩
      · intro h
        exact absurd rfl h
    · obtain ⟨td, td1, td2, -⟩ := for_drive_trace_ex s a d
      obtain ⟨tb, tb1, tb2, -⟩ := for_block_trace_ex (handle_block_uevent_for_drive s a d) a d
      by_cases hadd : a = "add"
      · subst hadd
        refine ⟨td, tb, [], ?_, ?_, ?_, ?_⟩
        · rw [handle_block_uevent_add, tb1, td1, List.append_nil]
        · intro e he
          cases he
        · intro h
          exact absurd h ha
        · intro _
          exact ⟨fun e he => (td2 e he).1, fun e he => (tb2 e he).1⟩
      · refine ⟨td, tb, [Effect.cleanup_check], ?_, ?_, ?_, ?_⟩
        · rw [handle_block_uevent_other s a d ha hadd]
          show (handle_block_uevent_for_block _ a d).trace ++ [Effect.cleanup_check] = _
          rw [tb1, td1]
        · intro e he
          rw [List.mem_singleton] at he
          subst he
          exact ⟨rfl, rfl⟩
        · intro h
          exact absurd h ha
        · intro _
          exact ⟨fun e he => (td2 e he).1, fun e he => (tb2 e he).1⟩

/-- C5, witness: the effects of `add` and of `remove` of `/sys/block/sda`: the
drive indexes are filled before `sysfs_to_block` and emptied after it. -/
theorem handle_block_uevent_order_witness :
    (handle_block_uevent state_sda "remove" (block_device "/sys/block/sda" (some "S1W1")) =
        udisks_cleanup_check
          (handle_block_uevent_for_drive
            (handle_block_uevent_for_block state_sda "remove"
              (block_device "/sys/block/sda" (some "S1W1")))
            "remove" (block_device "/sys/block/sda" (some "S1W1")))) ∧
      state_sda.trace =
        [Effect.export_uniquely 0, Effect.insert Index.vpd_to_drive "S1W1" 0,
         Effect.insert Index.sysfs_path_to_drive "/sys/block/sda" 0,
         Effect.export_uniquely 1, Effect.insert Index.sysfs_to_block "/sys/block/sda" 1] ∧
      new_effects state_sda (handle_block_uevent state_sda "remove"
          (block_device "/sys/block/sda" (some "S1W1"))) =
        [Effect.unexport 1, Effect.remove Index.sysfs_to_block "/sys/block/sda",
         Effect.drive_uevent 0 "remove" (block_device "/sys/block/sda" (some "S1W1")),
         Effect.remove Index.sysfs_path_to_drive "/sys/block/sda", Effect.unexport 0,
         Effect.remove Index.vpd_to_drive "S1W1", Effect.cleanup_check] :=
  ⟨((handle_block_uevent_order state_sda "remove"
      (block_device "/sys/block/sda" (some "S1W1"))).1 rfl).1, by decide, by decide⟩

/-! ## Round trip and change -/

/-- C6 (P5), counterexample: in the reachable state `state_stale` the path
`/sys/block/sda` has no entry in `sysfs_to_block` or `sysfs_path_to_drive`,
and the drive stored under `S1W1` is gone from `vpd_to_drive` after `add` and
`remove` of the device with vpd `S1W1`. -/
theorem add_remove_roundtrip_counterexample :
    Reachable state_stale ∧
      g_hash_table_lookup state_stale.sysfs_to_block "/sys/block/sda" = none ∧
      g_hash_table_lookup state_stale.sysfs_path_to_drive "/sys/block/sda" = none ∧
      g_hash_table_lookup state_stale.vpd_to_drive "S1W1" = some 0 ∧
      g_hash_table_lookup
        (handle_block_uevent
          (handle_block_uevent state_stale "add" (block_device "/sys/block/sda" (some "S1W1")))
          "remove" (block_device "/sys/block/sda" (some "S1W1"))).vpd_to_drive "S1W1" = none :=
  ⟨reachable_run_uevents _ _ Reachable.new, by decide, by decide, by decide, by decide⟩

/-- C6 (P5), amended: in a reachable state, for a block device whose sysfs
path has no entry in `sysfs_to_block` or `sysfs_path_to_drive` and is not the
sysfs path of a member of the drive stored under the device's vpd (when the
device is accepted with a vpd and such a drive exists), processing `add` and
then `remove` of the device leaves the three indexes as they were and every
drive object that existed before with the member list it had. -/
theorem add_remove_roundtrip (s : UDisksLinuxProvider) (d : GUdevDevice) (h : Reachable s)
    (hb : g_hash_table_lookup s.sysfs_to_block d.sysfs_path = none)
    (hd : g_hash_table_lookup s.sysfs_path_to_drive d.sysfs_path = none)
    (hm : ∀ v obj o, d.should_include = true → d.vpd = some v →
      g_hash_table_lookup s.vpd_to_drive v = some obj →
      g_hash_table_lookup s.drive_objects obj = some o → d.sysfs_path ∉ member_paths o) :
    (handle_block_uevent (handle_block_uevent s "add" d) "remove" d).sysfs_to_block =
        s.sysfs_to_block ∧
      (handle_block_uevent (handle_block_uevent s "add" d) "remove" d).vpd_to_drive =
        s.vpd_to_drive ∧
      (handle_block_uevent (handle_block_uevent s "add" d) "remove" d).sysfs_path_to_drive =
        s.sysfs_path_to_drive ∧
      ∀ obj o, g_hash_table_lookup s.drive_objects obj = some o →
        g_hash_table_lookup
          (handle_block_uevent (handle_block_uevent s "add" d) "remove" d).drive_objects obj
          = some o := by
  have K := reachable_consistent s h
  have ha : "add" ≠ "remove" := by decide
  rw [handle_block_uevent_add, handle_block_uevent_remove]
  obtain ⟨d1, -⟩ := for_drive_frame s "add" d
  obtain ⟨b1, b2, b3, -⟩ := for_block_frame (handle_block_uevent_for_drive s "add" d) "add" d
  obtain ⟨c1, c2, c3, -⟩ := for_block_frame
    (handle_block_uevent_for_block (handle_block_uevent_for_drive s "add" d) "add" d) "remove" d
  obtain ⟨g1, -⟩ := for_drive_frame (handle_block_uevent_for_block
    (handle_block_uevent_for_block (handle_block_uevent_for_drive s "add" d) "add" d) "remove" d)
    "remove" d
  obtain ⟨r1, r2, r3⟩ := add_remove_drive_side s (handle_block_uevent_for_block
    (handle_block_uevent_for_block (handle_block_uevent_for_drive s "add" d) "add" d) "remove" d)
    d K hd hm (by rw [c1, b1]) (by rw [c2, b2]) (by rw [c3, b3])
  refine ⟨?_, r1, r2, r3⟩
  show (handle_block_uevent_for_drive _ "remove" d).sysfs_to_block = _
  rw [g1, for_block_remove_index,
    for_block_new (handle_block_uevent_for_drive s "add" d) "add" d ha (by rw [d1]; exact hb)]
  show g_hash_table_remove (g_hash_table_insert
    (handle_block_uevent_for_drive s "add" d).sysfs_to_block _ _) _ = _
  rw [d1, remove_insert_of_lookup_none _ _ _ hb]

/-- C6, witness: from the new provider, `add` and then `remove` of
`/sys/block/sda` with vpd `S1W1` leaves all three indexes empty. -/
theorem add_remove_roundtrip_witness :
    (handle_block_uevent
        (handle_block_uevent udisks_linux_provider_new "add"
          (block_device "/sys/block/sda" (some "S1W1")))
        "remove" (block_device "/sys/block/sda" (some "S1W1"))).sysfs_to_block = [] ∧
      (handle_block_uevent
        (handle_block_uevent udisks_linux_provider_new "add"
          (block_device "/sys/block/sda" (some "S1W1")))
        "remove" (block_device "/sys/block/sda" (some "S1W1"))).vpd_to_drive = [] ∧
      (handle_block_uevent
        (handle_block_uevent udisks_linux_provider_new "add"
          (block_device "/sys/block/sda" (some "S1W1")))
        "remove" (block_device "/sys/block/sda" (some "S1W1"))).sysfs_path_to_drive = [] :=
  have h := add_remove_roundtrip udisks_linux_provider_new
    (block_device "/sys/block/sda" (some "S1W1")) Reachable.new (by decide) (by decide)
    (by intro v obj o _ _ hl; simp [udisks_linux_provider_new, g_hash_table_lookup] at hl)
  ⟨h.1, h.2.1, h.2.2.1⟩

/-- C7 (P6), counterexample: `/sys/block/sda` was added without vpd and has a
block object; the `change` that brings the vpd `S1W1` creates a drive, so
`vpd_to_drive` and `sysfs_path_to_drive` gain a key. -/
theorem change_keeps_indexes_counterexample :
    Reachable state_no_vpd ∧
      g_hash_table_lookup state_no_vpd.sysfs_to_block "/sys/block/sda" = some 0 ∧
      g_hash_table_lookup state_no_vpd.vpd_to_drive "S1W1" = none ∧
      g_hash_table_lookup state_no_vpd.sysfs_path_to_drive "/sys/block/sda" = none ∧
      g_hash_table_lookup (handle_block_uevent state_no_vpd "change"
        (block_device "/sys/block/sda" (some "S1W1"))).vpd_to_drive "S1W1" = some 1 ∧
      g_hash_table_lookup (handle_block_uevent state_no_vpd "change"
        (block_device "/sys/block/sda" (some "S1W1"))).sysfs_path_to_drive "/sys/block/sda"
        = some 1 :=
  ⟨reachable_run_uevents _ _ Reachable.new, by decide, by decide, by decide, by decide,
    by decide⟩

/-- C7 (P6), amended: in a reachable state, for a device that has a block
object and that the drive side either skips (rejected, or no vpd) or finds
registered (`sysfs_path_to_drive` maps its path to the drive stored in
`vpd_to_drive` under its vpd), processing `change` leaves the three indexes as
they were and allocates no object; every drive object keeps its member paths
and its tag, the block object of the device caches the new snapshot and the
other block objects are untouched. -/
theorem change_keeps_indexes (s : UDisksLinuxProvider) (d : GUdevDevice) (b : Nat)
    (h : Reachable s) (hb : g_hash_table_lookup s.sysfs_to_block d.sysfs_path = some b)
    (hreg : d.should_include = false ∨ d.vpd = none ∨ ∃ v obj, d.vpd = some v ∧
      g_hash_table_lookup s.vpd_to_drive v = some obj ∧
      g_hash_table_lookup s.sysfs_path_to_drive d.sysfs_path = some obj) :
    (handle_block_uevent s "change" d).sysfs_to_block = s.sysfs_to_block ∧
      (handle_block_uevent s "change" d).vpd_to_drive = s.vpd_to_drive ∧
      (handle_block_uevent s "change" d).sysfs_path_to_drive = s.sysfs_path_to_drive ∧
      (handle_block_uevent s "change" d).next_object = s.next_object ∧
      (∀ obj o, g_hash_table_lookup s.drive_objects obj = some o →
        ∃ o', g_hash_table_lookup (handle_block_uevent s "change" d).drive_objects obj = some o' ∧
          member_paths o' = member_paths o ∧ o'.x_vpd = o.x_vpd) ∧
      g_hash_table_lookup (handle_block_uevent s "change" d).block_objects b
        = some { device := d } ∧
      ∀ b', b' ≠ b →
        g_hash_table_lookup (handle_block_uevent s "change" d).block_objects b' =
          g_hash_table_lookup s.block_objects b' := by
  have K := reachable_consistent s h
  have ha : "change" ≠ "remove" := by decide
  have hadd : "change" ≠ "add" := by decide
  rw [handle_block_uevent_other s "change" d ha hadd]
  obtain ⟨r1, r2, r3, r4⟩ := change_drive_side s d K hreg
  obtain ⟨d1, d2, -⟩ := for_drive_frame s "change" d
  obtain ⟨b1, b2, b3, -⟩ := for_block_frame (handle_block_uevent_for_drive s "change" d)
    "change" d
  obtain ⟨bo, hbo, -⟩ := K.block _ _ hb
  have hkn := for_block_known (handle_block_uevent_for_drive s "change" d) "change" d b bo ha
    (by rw [d1]; exact hb) (by rw [d2]; exact hbo)
  refine ⟨?_, ?_, ?_, ?_, ?_, ?_, ?_⟩
  · show (handle_block_uevent_for_block _ "change" d).sysfs_to_block = _
    rw [hkn]; exact d1
  · show (handle_block_uevent_for_block _ "change" d).vpd_to_drive = _
    rw [b1]; exact r1
  · show (handle_block_uevent_for_block _ "change" d).sysfs_path_to_drive = _
    rw [b2]; exact r2
  · show (handle_block_uevent_for_block _ "change" d).next_object = _
    rw [hkn]; exact r3
  · intro obj o ho
    show ∃ o', g_hash_table_lookup (handle_block_uevent_for_block _ "change" d).drive_objects obj
      = some o' ∧ _
    rw [b3]; exact r4 obj o ho
  · show g_hash_table_lookup (handle_block_uevent_for_block _ "change" d).block_objects b = _
    rw [hkn]
    exact lookup_insert_self _ _ _
  · intro b' hne
    show g_hash_table_lookup (handle_block_uevent_for_block _ "change" d).block_objects b' = _
    rw [hkn]
    show g_hash_table_lookup (g_hash_table_insert _ b _) b' = _
    rw [lookup_insert_ne _ _ _ _ (fun e => hne e.symm), d2]

/-- C7, witness: a `change` of `/sys/block/sda` with new properties after its
`add` with vpd `S1W1`. -/
theorem change_keeps_indexes_witness :
    (handle_block_uevent state_sda "change"
        { block_device "/sys/block/sda" (some "S1W1") with
          properties := [("ID_MODEL", "disk")] }).sysfs_to_block = state_sda.sysfs_to_block ∧
      (handle_block_uevent state_sda "change"
        { block_device "/sys/block/sda" (some "S1W1") with
          properties := [("ID_MODEL", "disk")] }).vpd_to_drive = state_sda.vpd_to_drive ∧
      (handle_block_uevent state_sda "change"
        { block_device "/sys/block/sda" (some "S1W1") with
          properties := [("ID_MODEL", "disk")] }).sysfs_path_to_drive
        = state_sda.sysfs_path_to_drive ∧
      g_hash_table_lookup (handle_block_uevent state_sda "change"
        { block_device "/sys/block/sda" (some "S1W1") with
          properties := [("ID_MODEL", "disk")] }).block_objects 1 =
        some { device := { block_device "/sys/block/sda" (some "S1W1") with
          properties := [("ID_MODEL", "disk")] } } :=
  have h := change_keeps_indexes state_sda
    { block_device "/sys/block/sda" (some "S1W1") with properties := [("ID_MODEL", "disk")] } 1
    (reachable_run_uevents _ _ Reachable.new) (by decide)
    (Or.inr (Or.inr ⟨"S1W1", 0, by decide, by decide, by decide⟩))
  ⟨h.1, h.2.1, h.2.2.1, h.2.2.2.2.2.1⟩

/-! ## Removal -/

/-- C8 (P2): from any state, after a sequence of block uevents in which the
last event for the sysfs path of `d` is a `remove`, `sysfs_to_block` has no
entry for the path; right after a `remove` of `d` is processed the path is a
key of neither `sysfs_to_block` nor `sysfs_path_to_drive`; and a `remove` for a
path without block object leaves `sysfs_to_block` as it is. -/
theorem no_block_object_after_remove (s : UDisksLinuxProvider) (d : GUdevDevice) :
    (∀ pre post : List (String × GUdevDevice),
      (∀ e ∈ post, e.2.sysfs_path ≠ d.sysfs_path) →
      g_hash_table_lookup (run_uevents s (pre ++ ("remove", d) :: post)).sysfs_to_block
        d.sysfs_path = none) ∧
    (g_hash_table_lookup (handle_block_uevent s "remove" d).sysfs_to_block d.sysfs_path = none ∧
      g_hash_table_lookup (handle_block_uevent s "remove" d).sysfs_path_to_drive d.sysfs_path
        = none) ∧
    (g_hash_table_lookup s.sysfs_to_block d.sysfs_path = none →
      (handle_block_uevent s "remove" d).sysfs_to_block = s.sysfs_to_block) := by
  refine ⟨?_, remove_clears_path s d, ?_⟩
  · intro pre post hpost
    rw [run_uevents_append]
    simp only [run_uevents]
    rw [run_uevents_lookup_other _ post _ hpost]
    exact (remove_clears_path _ d).1
  · intro hnone
    rw [handle_block_uevent_remove_index, remove_of_lookup_none _ _ hnone]

/-- C8, witness: `/sys/block/sda` is added and removed while `/sys/block/sdb`
is added and changed. -/
theorem no_block_object_after_remove_witness :
    g_hash_table_lookup (run_uevents udisks_linux_provider_new
        ([("add", block_device "/sys/block/sda" (some "S1W1")),
          ("add", block_device "/sys/block/sdb" (some "S1W1"))] ++
         ("remove", block_device "/sys/block/sda" (some "S1W1")) ::
          [("change", block_device "/sys/block/sdb" (some "S1W1"))])).sysfs_to_block
        (block_device "/sys/block/sda" (some "S1W1")).sysfs_path = none :=
  (no_block_object_after_remove udisks_linux_provider_new
    (block_device "/sys/block/sda" (some "S1W1"))).1
    [("add", block_device "/sys/block/sda" (some "S1W1")),
     ("add", block_device "/sys/block/sdb" (some "S1W1"))]
    [("change", block_device "/sys/block/sdb" (some "S1W1"))] (by decide)

/-! ## Housekeeping jobs -/

/-- C9 (P7): `handle_block_uevent_for_drive` appends to the job queue exactly
one initial-housekeeping job, for the drive it creates, when it creates a
drive and `coldplug` is false, and nothing in every other case; the created
drive is the one stored under the device's vpd. `udisks_linux_provider_start`
appends no initial-housekeeping job (only the job of its housekeeping tick,
if any) and ends with `coldplug` false. -/
theorem initial_housekeeping_jobs (s : UDisksLinuxProvider) (a : String) (d : GUdevDevice)
    (devices : List GUdevDevice) :
    (handle_block_uevent_for_drive s a d).jobs =
        s.jobs ++ (if creates_drive s a d && !s.coldplug then
          [Job.perform_initial_housekeeping_for_drive s.next_object] else []) ∧
      (creates_drive s a d = true →
        ∃ v, d.vpd = some v ∧ g_hash_table_lookup s.vpd_to_drive v = none ∧
          g_hash_table_lookup (handle_block_uevent_for_drive s a d).vpd_to_drive v
            = some s.next_object) ∧
      (∃ js, (udisks_linux_provider_start s devices).jobs = s.jobs ++ js ∧
        ∀ j ∈ js, j = Job.housekeeping_thread_func) ∧
      (udisks_linux_provider_start s devices).coldplug = false := by
  refine ⟨for_drive_jobs s a d, creates_drive_stores s a d, ?_, rfl⟩
  obtain ⟨h1, -⟩ := coldplug_enumeration
    { s with coldplug := true, sysfs_to_block := [], vpd_to_drive := [],
             sysfs_path_to_drive := [] } devices rfl
  unfold udisks_linux_provider_start on_housekeeping_timeout
  simp only []
  split
  · exact ⟨[], by simpa using h1, by simp⟩
  · exact ⟨[Job.housekeeping_thread_func], by simpa using h1, by simp⟩

/-- C9, witness: one initial job for the drive created after coldplug, none
for the drives created by the start of the provider. -/
theorem initial_housekeeping_jobs_witness :
    (handle_block_uevent_for_drive udisks_linux_provider_new "add"
        (block_device "/sys/block/sda" (some "S1W1"))).jobs =
        [Job.perform_initial_housekeeping_for_drive 0] ∧
      (udisks_linux_provider_start udisks_linux_provider_new
        [block_device "/sys/block/sda" (some "S1W1"),
         block_device "/sys/block/sdb" (some "S2W2")]).jobs = [Job.housekeeping_thread_func] ∧
      ∃ v, (block_device "/sys/block/sda" (some "S1W1")).vpd = some v ∧
        g_hash_table_lookup udisks_linux_provider_new.vpd_to_drive v = none ∧
        g_hash_table_lookup (handle_block_uevent_for_drive udisks_linux_provider_new "add"
          (block_device "/sys/block/sda" (some "S1W1"))).vpd_to_drive v
          = some udisks_linux_provider_new.next_object :=
  ⟨by decide, by decide,
    (initial_housekeeping_jobs udisks_linux_provider_new "add"
      (block_device "/sys/block/sda" (some "S1W1")) []).2.1 (by decide)⟩

/-- C10 (P8): `on_housekeeping_timeout` enqueues a housekeeping job and sets
`housekeeping_running` exactly when the flag was false, and changes nothing
when it was true. In every reachable state at most one housekeeping job is
queued and `housekeeping_running` is true exactly while one is; so a tick
while the job is outstanding changes nothing, the completed job leaves no
housekeeping job and the flag false, and the next tick enqueues exactly one
job. -/
theorem housekeeping_single_flight (s : UDisksLinuxProvider) (h : Reachable s) (time : Nat) :
    (on_housekeeping_timeout s =
      if s.housekeeping_running then s
      else { s with housekeeping_running := true,
                    jobs := s.jobs ++ [Job.housekeeping_thread_func] }) ∧
    s.jobs.count Job.housekeeping_thread_func ≤ 1 ∧
    (s.housekeeping_running = true ↔ Job.housekeeping_thread_func ∈ s.jobs) ∧
    (Job.housekeeping_thread_func ∈ s.jobs →
      on_housekeeping_timeout s = s ∧
      Job.housekeeping_thread_func ∉
        (g_io_scheduler_run_job s Job.housekeeping_thread_func time).jobs ∧
      (g_io_scheduler_run_job s Job.housekeeping_thread_func time).housekeeping_running
        = false ∧
      (on_housekeeping_timeout
        (g_io_scheduler_run_job s Job.housekeeping_thread_func time)).jobs =
        (g_io_scheduler_run_job s Job.housekeeping_thread_func time).jobs ++
          [Job.housekeeping_thread_func] ∧
      (on_housekeeping_timeout
        (g_io_scheduler_run_job s Job.housekeeping_thread_func time)).housekeeping_running
        = true) := by
  obtain ⟨i1, i2⟩ := single_flight_invariant s h
  refine ⟨?_, i1, i2, ?_⟩
  · unfold on_housekeeping_timeout
    split <;> rfl
  · intro hmem
    have hrun := i2.mpr hmem
    have hfalse : (g_io_scheduler_run_job s Job.housekeeping_thread_func time).housekeeping_running
        = false := by
      unfold g_io_scheduler_run_job
      rw [if_pos hmem]
      exact (housekeeping_thread_func_frame _ _).2
    obtain ⟨-, k2⟩ := single_flight_invariant _
      (Reachable.job s Job.housekeeping_thread_func time h)
    have hnot : Job.housekeeping_thread_func ∉
        (g_io_scheduler_run_job s Job.housekeeping_thread_func time).jobs := by
      intro hm
      have := k2.mpr hm
      rw [hfalse] at this
      cases this
    refine ⟨?_, hnot, hfalse, ?_, ?_⟩
    · unfold on_housekeeping_timeout
      rw [if_pos hrun]
    · unfold on_housekeeping_timeout
      simp [hfalse]
    · unfold on_housekeeping_timeout
      simp [hfalse]

/-- C10, witness: the tick at start-up enqueues the job, a second tick does
nothing, and the tick after the completed job enqueues one job again. -/
theorem housekeeping_single_flight_witness :
    Job.housekeeping_thread_func ∈ (on_housekeeping_timeout udisks_linux_provider_new).jobs ∧
      (on_housekeeping_timeout (on_housekeeping_timeout udisks_linux_provider_new) =
        on_housekeeping_timeout udisks_linux_provider_new ∧
      Job.housekeeping_thread_func ∉
        (g_io_scheduler_run_job (on_housekeeping_timeout udisks_linux_provider_new)
          Job.housekeeping_thread_func 1000).jobs ∧
      (g_io_scheduler_run_job (on_housekeeping_timeout udisks_linux_provider_new)
          Job.housekeeping_thread_func 1000).housekeeping_running = false ∧
      (on_housekeeping_timeout
        (g_io_scheduler_run_job (on_housekeeping_timeout udisks_linux_provider_new)
          Job.housekeeping_thread_func 1000)).jobs =
        (g_io_scheduler_run_job (on_housekeeping_timeout udisks_linux_provider_new)
          Job.housekeeping_thread_func 1000).jobs ++ [Job.housekeeping_thread_func] ∧
      (on_housekeeping_timeout
        (g_io_scheduler_run_job (on_housekeeping_timeout udisks_linux_provider_new)
          Job.housekeeping_thread_func 1000)).housekeeping_running = true) :=
  ⟨by decide,
    (housekeeping_single_flight (on_housekeeping_timeout udisks_linux_provider_new)
      (Reachable.timeout _ Reachable.new) 1000).2.2.2 (by decide)⟩

/-! ## The cleanup check -/

/-- C11, counterexample: a `change` event of subsystem `scsi` is handled
without any call of the cleanup check. -/
theorem cleanup_check_counterexample :
    "change" ≠ "add" ∧ (new_effects udisks_linux_provider_new
      (udisks_linux_provider_handle_uevent udisks_linux_provider_new "change"
        { sysfs_path := "/sys/devices/pci0000:00/host0/target0:0:0", subsystem := "scsi",
          properties := [], should_include := false, vpd := none })).count
      Effect.cleanup_check = 0 := by
  decide

/-- C11, amended: for every event `udisks_linux_provider_handle_uevent`
handles, the cleanup check is called exactly once if the subsystem of the
device is `block` and the action is not `add`, and not at all otherwise (action
`add`, or a device of another subsystem). -/
theorem cleanup_check_count (s : UDisksLinuxProvider) (a : String) (d : GUdevDevice) :
    (new_effects s (udisks_linux_provider_handle_uevent s a d)).count Effect.cleanup_check =
      if d.subsystem = "block" ∧ a ≠ "add" then 1 else 0 := by
  unfold udisks_linux_provider_handle_uevent
  by_cases hb : d.subsystem = "block"
  · rw [if_pos hb, handle_block_uevent_cleanup_count]
    simp [hb]
  · rw [if_neg hb]
    simp [new_effects, hb]

/-! ## Scenarios -/

/-- C12: two devices with distinct sysfs paths which the drive classifier
accepts with the same vpd `v` are added to a provider with empty registry.
After the two `add` events `vpd_to_drive` has exactly one entry, under `v`,
`sysfs_path_to_drive` maps both paths to this drive and `sysfs_to_block` has
exactly the two paths as keys. After `remove` of the first device the drive
is still stored under `v`, its only member is the second device, and only the
second path is left in `sysfs_path_to_drive`. After `remove` of the second
device `vpd_to_drive` and `sysfs_path_to_drive` are empty. -/
theorem multi_path_drive (coldplug : Bool) (d1 d2 : GUdevDevice) (v : String)
    (hne : d1.sysfs_path ≠ d2.sysfs_path)
    (hi1 : d1.should_include = true) (hi2 : d2.should_include = true)
    (hv1 : d1.vpd = some v) (hv2 : d2.vpd = some v) :
    ∃ obj,
      (run_uevents { udisks_linux_provider_new with coldplug := coldplug }
          [("add", d1), ("add", d2)]).vpd_to_drive = [(v, obj)] ∧
      (run_uevents { udisks_linux_provider_new with coldplug := coldplug }
          [("add", d1), ("add", d2)]).sysfs_path_to_drive =
        [(d1.sysfs_path, obj), (d2.sysfs_path, obj)] ∧
      (run_uevents { udisks_linux_provider_new with coldplug := coldplug }
          [("add", d1), ("add", d2)]).sysfs_to_block.map Prod.fst =
        [d1.sysfs_path, d2.sysfs_path] ∧
      (run_uevents { udisks_linux_provider_new with coldplug := coldplug }
          [("add", d1), ("add", d2), ("remove", d1)]).vpd_to_drive = [(v, obj)] ∧
      udisks_linux_drive_object_get_devices
          (run_uevents { udisks_linux_provider_new with coldplug := coldplug }
            [("add", d1), ("add", d2), ("remove", d1)]) obj = [d2] ∧
      (run_uevents { udisks_linux_provider_new with coldplug := coldplug }
          [("add", d1), ("add", d2), ("remove", d1)]).sysfs_path_to_drive =
        [(d2.sysfs_path, obj)] ∧
      (run_uevents { udisks_linux_provider_new with coldplug := coldplug }
          [("add", d1), ("add", d2), ("remove", d1), ("remove", d2)]).vpd_to_drive = [] ∧
      (run_uevents { udisks_linux_provider_new with coldplug := coldplug }
          [("add", d1), ("add", d2), ("remove", d1), ("remove", d2)]).sysfs_path_to_drive
        = [] := by
  have hne' : ¬ d2.sysfs_path = d1.sysfs_path := fun e => hne e.symm
  have har : "add" ≠ "remove" := by decide
  simp only [run_uevents]
  have z : registry { udisks_linux_provider_new with coldplug := coldplug } =
      ([], [], [], [], [], 0) := rfl
  generalize ({ udisks_linux_provider_new with coldplug := coldplug } : UDisksLinuxProvider)
    = s0 at z ⊢
  obtain ⟨z1, z2, z3, z4, z5, z6⟩ := registry_fields _ _ z
  simp only at z1 z2 z3 z4 z5 z6
  -- after `add` of the first device
  have r1 := registry_add_new_drive s0 "add" d1 v har hi1 hv1
    (by rw [z2]; rfl) (by rw [z1]; rfl)
  rw [z1, z2, z3, z4, z5, z6] at r1
  generalize handle_block_uevent s0 "add" d1 = s1 at r1 ⊢
  obtain ⟨a1, a2, a3, a4, a5, a6⟩ := registry_fields _ _ r1
  simp only [g_hash_table_insert] at a1 a2 a3 a4 a5 a6
  -- after `add` of the second device
  have hu2 : udisks_linux_drive_object_uevent { devices := [d1], x_vpd := some v } "add"
      (some d2) = { devices := [d1, d2], x_vpd := some v } := by
    simp [udisks_linux_drive_object_uevent, find_link_for_sysfs_path, hne]
  have r2 := registry_add_known_drive s1 "add" d2 v 0 { devices := [d1], x_vpd := some v }
    har hi2 hv2
    (by rw [a2]; simp [g_hash_table_lookup])
    (by rw [a4]; simp [g_hash_table_lookup])
    (by rw [a3]; simp [g_hash_table_lookup, hne])
    (by rw [a1]; simp [g_hash_table_lookup, hne])
  rw [hu2, a1, a2, a3, a4, a5, a6] at r2
  generalize handle_block_uevent s1 "add" d2 = s2 at r2 ⊢
  obtain ⟨b1, b2, b3, b4, b5, b6⟩ := registry_fields _ _ r2
  simp only [g_hash_table_insert, hne, if_false, if_true] at b1 b2 b3 b4 b5 b6
  -- after `remove` of the first device
  have hu3 : udisks_linux_drive_object_uevent { devices := [d1, d2], x_vpd := some v } "remove"
      (some d1) = { devices := [d2], x_vpd := some v } := by
    simp [udisks_linux_drive_object_uevent, find_link_for_sysfs_path]
  have r3 := registry_remove_member s2 d1 0 { devices := [d1, d2], x_vpd := some v }
    (by rw [b3]; simp [g_hash_table_lookup])
    (by rw [b4]; simp [g_hash_table_lookup])
    (by rw [hu3]; simp)
  rw [hu3, b1, b2, b3, b4, b5, b6] at r3
  generalize handle_block_uevent s2 "remove" d1 = s3 at r3 ⊢
  obtain ⟨c1, c2, c3, c4, c5, c6⟩ := registry_fields _ _ r3
  simp only [g_hash_table_insert, g_hash_table_remove, hne, hne', if_false, if_true]
    at c1 c2 c3 c4 c5 c6
  -- after `remove` of the second device
  have hu4 : udisks_linux_drive_object_uevent { devices := [d2], x_vpd := some v } "remove"
      (some d2) = { devices := [], x_vpd := some v } := by
    simp [udisks_linux_drive_object_uevent, find_link_for_sysfs_path]
  have r4 := registry_remove_last_member s3 d2 0 { devices := [d2], x_vpd := some v } v
    (by rw [c3]; simp [g_hash_table_lookup])
    (by rw [c4]; simp [g_hash_table_lookup])
    rfl (by rw [hu4])
  rw [hu4, c1, c2, c3, c4, c5, c6] at r4
  generalize handle_block_uevent s3 "remove" d2 = s4 at r4 ⊢
  obtain ⟨e1, e2, e3, e4, e5, e6⟩ := registry_fields _ _ r4
  simp only [g_hash_table_insert, g_hash_table_remove, if_true] at e1 e2 e3 e4 e5 e6
  refine ⟨0, b2, b3, ?_, c2, ?_, c3, e2, e3⟩
  · rw [b1]; rfl
  · simp only [udisks_linux_drive_object_get_devices, c4, g_hash_table_lookup, if_true]
/-- C12, witness: `/sys/block/sda` and `/sys/block/sdb` with vpd `S1W1`. -/
theorem multi_path_drive_witness :
    "/sys/block/sda" ≠ "/sys/block/sdb" ∧
    ∃ obj,
      (run_uevents { udisks_linux_provider_new with coldplug := false }
          [("add", block_device "/sys/block/sda" (some "S1W1")),
           ("add", block_device "/sys/block/sdb" (some "S1W1"))]).vpd_to_drive
        = [("S1W1", obj)] ∧
      (run_uevents { udisks_linux_provider_new with coldplug := false }
          [("add", block_device "/sys/block/sda" (some "S1W1")),
           ("add", block_device "/sys/block/sdb" (some "S1W1"))]).sysfs_path_to_drive =
        [("/sys/block/sda", obj), ("/sys/block/sdb", obj)] :=
  ⟨by decide,
    (multi_path_drive false (block_device "/sys/block/sda" (some "S1W1"))
      (block_device "/sys/block/sdb" (some "S1W1")) "S1W1" (by decide) rfl rfl rfl rfl).imp
      (fun _ h => ⟨h.1, h.2.1⟩)⟩

/-- C13: for every state and every non-remove event whose device the drive
classifier rejects or accepts without vpd, `handle_block_uevent_for_drive`
returns the state as it is (so the drive indexes, the drive objects and the
job queue are unchanged), while after `handle_block_uevent` the sysfs path of
the device has an entry in `sysfs_to_block`: a new block object caching the
device if the path had none, and otherwise the object it had, which caches the
device if it is live. -/
theorem identity_less_device (s : UDisksLinuxProvider) (a : String) (d : GUdevDevice)
    (ha : a ≠ "remove") (hskip : d.should_include = false ∨ d.vpd = none) :
    handle_block_uevent_for_drive s a d = s ∧
    (∃ b, g_hash_table_lookup (handle_block_uevent s a d).sysfs_to_block d.sysfs_path
        = some b ∧
      (g_hash_table_lookup s.sysfs_to_block d.sysfs_path = none →
        g_hash_table_lookup (handle_block_uevent s a d).block_objects b
          = some { device := d }) ∧
      (∀ b0, g_hash_table_lookup s.sysfs_to_block d.sysfs_path = some b0 →
        b = b0 ∧ ∀ bo, g_hash_table_lookup s.block_objects b0 = some bo →
          g_hash_table_lookup (handle_block_uevent s a d).block_objects b0
            = some { device := d })) ∧
    (handle_block_uevent s a d).vpd_to_drive = s.vpd_to_drive ∧
    (handle_block_uevent s a d).sysfs_path_to_drive = s.sysfs_path_to_drive ∧
    (handle_block_uevent s a d).drive_objects = s.drive_objects ∧
    (handle_block_uevent s a d).jobs = s.jobs := by
  have hD := for_drive_skip s a d ha hskip
  obtain ⟨hs2b, hbo⟩ := handle_block_uevent_block_fields s a d ha
  rw [hD] at hs2b hbo
  obtain ⟨hnew, hknown⟩ := for_block_entry s a d ha
  obtain ⟨f1, f2, f3, f4, -⟩ := for_block_frame s a d
  have hframe : (handle_block_uevent s a d).vpd_to_drive = s.vpd_to_drive ∧
      (handle_block_uevent s a d).sysfs_path_to_drive = s.sysfs_path_to_drive ∧
      (handle_block_uevent s a d).drive_objects = s.drive_objects ∧
      (handle_block_uevent s a d).jobs = s.jobs := by
    by_cases hadd : a = "add"
    · subst hadd
      rw [handle_block_uevent_add, hD]
      exact ⟨f1, f2, f3, f4⟩
    · rw [handle_block_uevent_other s a d ha hadd, hD]
      exact ⟨f1, f2, f3, f4⟩
  refine ⟨hD, ?_, hframe⟩
  rw [hs2b, hbo]
  cases hl : g_hash_table_lookup s.sysfs_to_block d.sysfs_path with
  | none =>
    obtain ⟨h1, h2⟩ := hnew hl
    exact ⟨s.next_object, h1, (fun _ => h2), (fun b0 hb0 => by cases hb0)⟩
  | some b0 =>
    obtain ⟨h1, h2⟩ := hknown b0 hl
    refine ⟨b0, (by rw [h1]; exact hl), (fun h => by cases h), ?_⟩
    intro b1 hb1
    cases hb1
    exact ⟨rfl, h2⟩

/-- C13, witness: `add` of a device without vpd on the new provider. -/
theorem identity_less_device_witness :
    handle_block_uevent_for_drive udisks_linux_provider_new "add"
        (block_device "/sys/block/loop0" none) = udisks_linux_provider_new ∧
      g_hash_table_lookup (handle_block_uevent udisks_linux_provider_new "add"
        (block_device "/sys/block/loop0" none)).sysfs_to_block "/sys/block/loop0" = some 0 ∧
      (handle_block_uevent udisks_linux_provider_new "add"
        (block_device "/sys/block/loop0" none)).vpd_to_drive = [] :=
  ⟨(identity_less_device udisks_linux_provider_new "add" (block_device "/sys/block/loop0" none)
      (by decide) (Or.inr rfl)).1, by decide, by decide⟩

/-! ## Configuration changes and the lock -/

/-- C14: in a reachable state `update_all_block_objects`, which is what each
of the four fstab and crypttab handlers runs, records exactly the `change`
uevents without device for the values of `sysfs_to_block`, one for each block
object stored there and none for any other object; the three indexes and the
cached snapshots of the block objects are as before; and the lock taken for
the snapshot is released before the first of these calls. -/
theorem config_fan_out (s : UDisksLinuxProvider) (h : Reachable s) :
    new_effects s (update_all_block_objects s) =
        (g_hash_table_get_values s.sysfs_to_block).map
          (fun b => Effect.block_uevent b "change" none) ∧
      (∀ b, b ∈ g_hash_table_get_values s.sysfs_to_block ↔
        ∃ path, g_hash_table_lookup s.sysfs_to_block path = some b) ∧
      (∀ b, b ∈ g_hash_table_get_values s.sysfs_to_block →
        (new_effects s (update_all_block_objects s)).count
          (Effect.block_uevent b "change" none) = 1) ∧
      (∀ e ∈ new_effects s (update_all_block_objects s),
        ∃ b ∈ g_hash_table_get_values s.sysfs_to_block,
          e = Effect.block_uevent b "change" none) ∧
      (update_all_block_objects s).sysfs_to_block = s.sysfs_to_block ∧
      (update_all_block_objects s).vpd_to_drive = s.vpd_to_drive ∧
      (update_all_block_objects s).sysfs_path_to_drive = s.sysfs_path_to_drive ∧
      (∀ b, g_hash_table_lookup (update_all_block_objects s).block_objects b =
        g_hash_table_lookup s.block_objects b) ∧
      update_all_block_objects_events s =
        LockEvent.lock :: LockEvent.unlock ::
          (g_hash_table_get_values s.sysfs_to_block).map
            (fun b => LockEvent.effect (Effect.block_uevent b "change" none)) ∧
      (∀ held ∈ lock_at_calls false (update_all_block_objects_events s), held = false) ∧
      fstab_monitor_on_entry_added s = update_all_block_objects s ∧
      fstab_monitor_on_entry_removed s = update_all_block_objects s ∧
      crypttab_monitor_on_entry_added s = update_all_block_objects s ∧
      crypttab_monitor_on_entry_removed s = update_all_block_objects s := by
  obtain ⟨h1, h2, h3, h4, h5⟩ := fan_out_loop (g_hash_table_get_values s.sysfs_to_block) s
  have hne := new_effects_of_eq s (update_all_block_objects s) _ h1
  have hnd := reachable_block_values_nodup s h
  have hinj : Function.Injective (fun b : Nat => Effect.block_uevent b "change" none) := by
    intro x y hxy
    simpa using hxy
  refine ⟨hne, fun b => mem_values_iff _ b (reachable_keys_nodup s h).1, ?_, ?_, h2, h3, h4, h5,
    ?_, ?_, rfl, rfl, rfl, rfl⟩
  · intro b hb
    rw [hne]
    exact List.count_eq_one_of_mem (hnd.map hinj) (List.mem_map.mpr ⟨b, hb, rfl⟩)
  · intro e he
    rw [hne] at he
    obtain ⟨b, hb, rfl⟩ := List.mem_map.mp he
    exact ⟨b, hb, rfl⟩
  · unfold update_all_block_objects_events
    rw [hne]
    simp
  · intro held hheld
    have hev : update_all_block_objects_events s = LockEvent.lock :: LockEvent.unlock ::
        (new_effects s (update_all_block_objects s)).map LockEvent.effect := rfl
    rw [hev] at hheld
    simp only [lock_at_calls, lock_at_calls_effects, List.mem_map] at hheld
    obtain ⟨_, _, rfl⟩ := hheld
    rfl
/-- C14, witness: with three block objects, each receives one `change` uevent
without device and the indexes stay as they are. -/
theorem config_fan_out_witness :
    new_effects state_three_blocks (update_all_block_objects state_three_blocks) =
        [Effect.block_uevent 0 "change" none, Effect.block_uevent 1 "change" none,
         Effect.block_uevent 2 "change" none] ∧
      (update_all_block_objects state_three_blocks).sysfs_to_block =
        state_three_blocks.sysfs_to_block :=
  have h := config_fan_out state_three_blocks (reachable_run_uevents _ _ Reachable.new)
  ⟨h.1, h.2.2.2.2.1⟩

/-- C15, counterexample: on the kernel-uevent path a `change` of
`/sys/block/sda` calls the uevent entry points of its drive object and of its
block object while the lock is held. -/
theorem lock_discipline_counterexample :
    udisks_linux_provider_handle_uevent_events state_sda "change"
        (block_device "/sys/block/sda" (some "S1W1")) =
        [LockEvent.lock,
         LockEvent.effect (Effect.drive_uevent 0 "change"
           (block_device "/sys/block/sda" (some "S1W1"))),
         LockEvent.effect (Effect.block_uevent 1 "change"
           (some (block_device "/sys/block/sda" (some "S1W1")))),
         LockEvent.effect Effect.cleanup_check, LockEvent.unlock] ∧
      lock_at_calls false (udisks_linux_provider_handle_uevent_events state_sda "change"
        (block_device "/sys/block/sda" (some "S1W1"))) = [true, true] := by
  decide

/-- C15, amended: the thread does not hold `provider_lock` at any call of a
block object's uevent entry point in the config fan-out, nor at any call of a
drive's housekeeping in the housekeeping pass (`housekeeping_all_drives`,
`housekeeping_thread_func`) or in the initial housekeeping of a new drive; on
the kernel-uevent path (`udisks_linux_provider_handle_uevent`) the lock is
held at every call of a drive or block object's uevent entry point. -/
theorem lock_discipline (s : UDisksLinuxProvider) (a : String) (d : GUdevDevice)
    (secs time object : Nat) :
    (∀ held ∈ lock_at_calls false (update_all_block_objects_events s), held = false) ∧
    (∀ held ∈ lock_at_calls false (housekeeping_all_drives_events s secs), held = false) ∧
    (∀ held ∈ lock_at_calls false (housekeeping_thread_func_events s time), held = false) ∧
    (∀ held ∈ lock_at_calls false (perform_initial_housekeeping_for_drive_events s object),
      held = false) ∧
    (∀ held ∈ lock_at_calls false (udisks_linux_provider_handle_uevent_events s a d),
      held = true) := by
  refine ⟨?_, ?_, ?_, ?_, ?_⟩
  · intro held hheld
    have hev : update_all_block_objects_events s = LockEvent.lock :: LockEvent.unlock ::
        (new_effects s (update_all_block_objects s)).map LockEvent.effect := rfl
    rw [hev] at hheld
    simp only [lock_at_calls, lock_at_calls_effects, List.mem_map] at hheld
    obtain ⟨_, _, rfl⟩ := hheld
    rfl
  · intro held hheld
    have hev : housekeeping_all_drives_events s secs = LockEvent.lock :: LockEvent.unlock ::
        (new_effects s (housekeeping_all_drives s secs)).map LockEvent.effect := rfl
    rw [hev] at hheld
    simp only [lock_at_calls, lock_at_calls_effects, List.mem_map] at hheld
    obtain ⟨_, _, rfl⟩ := hheld
    rfl
  · intro held hheld
    have hev : housekeeping_thread_func_events s time = LockEvent.lock :: LockEvent.unlock ::
        ((new_effects s (housekeeping_thread_func s time)).map LockEvent.effect ++
          [LockEvent.lock, LockEvent.unlock]) := rfl
    rw [hev] at hheld
    simp only [lock_at_calls, lock_at_calls_append_effects, List.append_nil, List.mem_map]
      at hheld
    obtain ⟨_, _, rfl⟩ := hheld
    rfl
  · intro held hheld
    unfold perform_initial_housekeeping_for_drive_events at hheld
    simp only [lock_at_calls_effects, List.mem_map] at hheld
    obtain ⟨_, _, rfl⟩ := hheld
    rfl
  · intro held hheld
    have hev : udisks_linux_provider_handle_uevent_events s a d = LockEvent.lock ::
        ((new_effects s (udisks_linux_provider_handle_uevent s a d)).map LockEvent.effect ++
          [LockEvent.unlock]) := rfl
    rw [hev] at hheld
    simp only [lock_at_calls, lock_at_calls_append_effects, List.append_nil, List.mem_map]
      at hheld
    obtain ⟨_, _, rfl⟩ := hheld
    rfl
/-- C15, witness: the housekeeping pass and the fan-out after `add` of
`/sys/block/sda` make one call each, without the lock. -/
theorem lock_discipline_witness :
    lock_at_calls false (housekeeping_thread_func_events state_sda 1000) = [false] ∧
      lock_at_calls false (update_all_block_objects_events state_sda) = [false] ∧
      ∀ held ∈ lock_at_calls false (update_all_block_objects_events state_sda), held = false :=
  ⟨by decide, by decide,
    (lock_discipline state_sda "change" (block_device "/sys/block/sda" (some "S1W1"))
      0 1000 0).1⟩

/-! ## The MD-RAID object -/

/-- C16: the member list after `udisks_linux_mdraid_object_uevent`. Without
device the list is unchanged. With a device `d`, if the list has a member
with the sysfs path of `d`, the first such member is deleted on `remove` and
replaced in place by `d` on every other action, the others keeping their
order; if it has none, the list is unchanged on `remove` and gets `d`
appended on every other action. -/
theorem mdraid_member_list
    (udisks_linux_mdraid_update : UDisksMDRaid → UDisksLinuxMDRaidObject → UDisksMDRaid × Bool)
    (object : UDisksLinuxMDRaidObject) (a : String) :
    (udisks_linux_mdraid_object_uevent udisks_linux_mdraid_update object a none).devices
        = object.devices ∧
    (∀ d pre m post, object.devices = pre ++ m :: post → m.sysfs_path = d.sysfs_path →
      (∀ x ∈ pre, x.sysfs_path ≠ d.sysfs_path) →
      (udisks_linux_mdraid_object_uevent udisks_linux_mdraid_update object a (some d)).devices =
        if a = "remove" then pre ++ post else pre ++ d :: post) ∧
    (∀ d, (∀ x ∈ object.devices, x.sysfs_path ≠ d.sysfs_path) →
      (udisks_linux_mdraid_object_uevent udisks_linux_mdraid_update object a (some d)).devices =
        if a = "remove" then object.devices else object.devices ++ [d]) ∧
    (∀ d : GUdevDevice, (∃ x ∈ object.devices, x.sysfs_path = d.sysfs_path) →
      ∃ pre m post, object.devices = pre ++ m :: post ∧ m.sysfs_path = d.sysfs_path ∧
        ∀ x ∈ pre, x.sysfs_path ≠ d.sysfs_path) := by
  refine ⟨?_, ?_, ?_, fun d h => find_link_split _ _ h⟩
  · rw [mdraid_uevent_keeps_devices]
    simp [mdraid_uevent_devices]
  · intro d pre m post hL hm hpre
    rw [mdraid_uevent_keeps_devices, hL]
    have hlink := find_link_first pre post m d.sysfs_path hm hpre
    have herase : (pre ++ m :: post).eraseIdx pre.length = pre ++ post := by
      rw [List.eraseIdx_append_of_length_le (le_refl _)]
      simp
    have hset : (pre ++ m :: post).set pre.length d = pre ++ d :: post := by
      simp [List.set_append]
    by_cases ha : a = "remove"
    · simp [mdraid_uevent_devices, hlink, ha, herase]
    · simp only [mdraid_uevent_devices, hlink, ha, if_false, hset]
  · intro d hnone
    rw [mdraid_uevent_keeps_devices]
    have hn : d.sysfs_path ∉ object.devices.map GUdevDevice.sysfs_path := by
      intro hmem
      obtain ⟨x, hx, hxp⟩ := List.mem_map.mp hmem
      exact hnone x hx hxp
    have hlink := (find_link_none_iff _ _).mpr hn
    by_cases ha : a = "remove"
    · simp [mdraid_uevent_devices, hlink, ha]
    · simp [mdraid_uevent_devices, hlink, ha]

/-- C16, witness: a `remove` of the second of three members. -/
theorem mdraid_member_list_witness :
    (udisks_linux_mdraid_object_uevent (fun i _ => (i, false))
        { devices := [block_device "/sys/block/sda" none, block_device "/sys/block/sdb" none,
            block_device "/sys/block/sdc" none],
          iface_mdraid := none, object_path := none, calls := [] }
        "remove" (some (block_device "/sys/block/sdb" (some "S1W1")))).devices =
      if "remove" = "remove" then
        [block_device "/sys/block/sda" none] ++ [block_device "/sys/block/sdc" none]
      else [block_device "/sys/block/sda" none] ++
        block_device "/sys/block/sdb" (some "S1W1") :: [block_device "/sys/block/sdc" none] :=
  (mdraid_member_list (fun i _ => (i, false))
    { devices := [block_device "/sys/block/sda" none, block_device "/sys/block/sdb" none,
        block_device "/sys/block/sdc" none],
      iface_mdraid := none, object_path := none, calls := [] } "remove").2.1
    (block_device "/sys/block/sdb" (some "S1W1")) [block_device "/sys/block/sda" none]
    (block_device "/sys/block/sdb" none) [block_device "/sys/block/sdc" none] rfl rfl
    (by decide)

/-- C17 (P3): the initial `add` uevent of the construction leaves the member
list of a new MD-RAID object as the single initial device, also on the object
`udisks_linux_mdraid_object_constructed` returns; and after any sequence of
uevents on the new object, or on the constructed one, no two members have the
same sysfs path. -/
theorem mdraid_members_distinct
    (udisks_linux_mdraid_update : UDisksMDRaid → UDisksLinuxMDRaidObject → UDisksMDRaid × Bool)
    (device : GUdevDevice) (evs : List (String × Option GUdevDevice)) :
    (udisks_linux_mdraid_object_new device).devices = [device] ∧
    (udisks_linux_mdraid_object_uevent udisks_linux_mdraid_update
      (udisks_linux_mdraid_object_new device) "add" (some device)).devices = [device] ∧
    (∀ o, udisks_linux_mdraid_object_constructed udisks_linux_mdraid_update
        (udisks_linux_mdraid_object_new device) = some o →
      o.devices = [device] ∧
      ((run_mdraid_uevents udisks_linux_mdraid_update o evs).devices.map
        GUdevDevice.sysfs_path).Nodup) ∧
    ((run_mdraid_uevents udisks_linux_mdraid_update (udisks_linux_mdraid_object_new device)
      evs).devices.map GUdevDevice.sysfs_path).Nodup := by
  have hadd : (udisks_linux_mdraid_object_uevent udisks_linux_mdraid_update
      (udisks_linux_mdraid_object_new device) "add" (some device)).devices = [device] := by
    rw [mdraid_uevent_keeps_devices]
    simp [mdraid_uevent_devices, udisks_linux_mdraid_object_new, find_link_for_sysfs_path]
  refine ⟨rfl, hadd, ?_, ?_⟩
  · intro o ho
    have hdev : o.devices = [device] := by
      unfold udisks_linux_mdraid_object_constructed at ho
      simp only [udisks_linux_mdraid_object_new, List.head?_cons] at ho
      split at ho
      · cases ho
      · split at ho
        · cases ho
        · cases ho
          exact hadd
    refine ⟨hdev, run_mdraid_uevents_nodup _ o evs ?_⟩
    rw [hdev]
    simp
  · apply run_mdraid_uevents_nodup
    simp [udisks_linux_mdraid_object_new]
/-- C17, witness: the object constructed for `/sys/block/md0` with array
UUID `ab:cd` has the one member, and a second `add` of the same path followed
by an `add` of another path leaves two members of different paths. -/
theorem mdraid_members_distinct_witness :
    ∃ o, udisks_linux_mdraid_object_constructed (fun _ _ => ({ uuid := some "ab:cd" }, true))
        (udisks_linux_mdraid_object_new (block_device "/sys/block/md0" none)) = some o ∧
      o.devices = [block_device "/sys/block/md0" none] ∧
      ((run_mdraid_uevents (fun _ _ => ({ uuid := some "ab:cd" }, true)) o
        [("add", some (block_device "/sys/block/md0" (some "S1W1"))),
         ("add", some (block_device "/sys/block/sdb" none))]).devices.map
        GUdevDevice.sysfs_path).Nodup :=
  ⟨_, rfl, (mdraid_members_distinct (fun _ _ => ({ uuid := some "ab:cd" }, true))
    (block_device "/sys/block/md0" none)
    [("add", some (block_device "/sys/block/md0" (some "S1W1"))),
     ("add", some (block_device "/sys/block/sdb" none))]).2.2.1 _ (by decide)⟩

/-! ## The interface updater -/

/-- C18: the postcondition of `update_iface`, for a connect callback that
leaves the slot and the record of calls alone. After the call the slot is
non-empty iff `has_func` returned true. Slot non-empty and `has` false: the
interface is unpublished, the slot cleared, `update_func` not called, the
result false. Slot empty and `has` false: only `has_func` was called, the
result is false. Slot non-empty and `has` true: `update_func` is called once
on the stored interface and the result is its return value. Slot empty and
`has` true: a skeleton is constructed, the connect callback called if there
is one, `update_func` called once on the new skeleton, the result is its
return value. The calls of one call of `update_iface` are those of
`update_iface_trace`, so a skeleton is constructed only when the slot was
empty and `has` is true. -/
theorem update_iface_postcondition (object : UDisksLinuxMDRaidObject) (a : String)
    (has_func : UDisksLinuxMDRaidObject → Bool)
    (connect_func : Option (UDisksLinuxMDRaidObject → UDisksLinuxMDRaidObject))
    (update_func : UDisksLinuxMDRaidObject → String → UDisksMDRaid → UDisksMDRaid × Bool)
    (skeleton : UDisksMDRaid) (hconnect : connect_frame connect_func) :
    ((update_iface object a has_func connect_func update_func skeleton).2.iface_mdraid.isSome =
      has_func object) ∧
    (∀ iface, object.iface_mdraid = some iface → has_func object = false →
      update_iface object a has_func connect_func update_func skeleton =
        (false, { object with iface_mdraid := none,
                              calls := object.calls ++
                                [IfaceCall.has_func, IfaceCall.remove_interface] })) ∧
    (object.iface_mdraid = none → has_func object = false →
      update_iface object a has_func connect_func update_func skeleton =
        (false, { object with calls := object.calls ++ [IfaceCall.has_func] })) ∧
    (∀ iface, object.iface_mdraid = some iface → has_func object = true →
      update_iface object a has_func connect_func update_func skeleton =
        ((update_func { object with calls := object.calls ++ [IfaceCall.has_func] } a iface).2,
          { object with
            iface_mdraid := some
              (update_func { object with calls := object.calls ++ [IfaceCall.has_func] }
                a iface).1,
            calls := object.calls ++ [IfaceCall.has_func, IfaceCall.update_func a] })) ∧
    (object.iface_mdraid = none → has_func object = true →
      ∃ o : UDisksLinuxMDRaidObject,
        (connect_func = none →
          o = { object with iface_mdraid := some skeleton,
                            calls := object.calls ++
                              [IfaceCall.has_func, IfaceCall.g_object_new] }) ∧
        (∀ c, connect_func = some c →
          o = { c { object with iface_mdraid := some skeleton,
                                calls := object.calls ++
                                  [IfaceCall.has_func, IfaceCall.g_object_new] } with
                calls := object.calls ++
                  [IfaceCall.has_func, IfaceCall.g_object_new, IfaceCall.connect_func] }) ∧
        o.iface_mdraid = some skeleton ∧
        o.calls = object.calls ++ IfaceCall.has_func :: IfaceCall.g_object_new ::
          (if connect_func.isSome then [IfaceCall.connect_func] else []) ∧
        update_iface object a has_func connect_func update_func skeleton =
          ((update_func o a skeleton).2,
            { o with iface_mdraid := some (update_func o a skeleton).1,
                     calls := o.calls ++
                       [IfaceCall.update_func a, IfaceCall.add_interface] })) ∧
    ((update_iface object a has_func connect_func update_func skeleton).2.calls =
      object.calls ++ update_iface_trace object.iface_mdraid.isNone (has_func object)
        connect_func.isSome a) ∧
    (∀ slot_empty has connect, IfaceCall.g_object_new ∈
        update_iface_trace slot_empty has connect a ↔ slot_empty = true ∧ has = true) ∧
    (∀ slot_empty has connect, IfaceCall.connect_func ∈
        update_iface_trace slot_empty has connect a ↔
          slot_empty = true ∧ has = true ∧ connect = true) ∧
    (∀ slot_empty has connect a', (update_iface_trace slot_empty has connect a).count
        (IfaceCall.update_func a') = if has = true ∧ a' = a then 1 else 0) := by
  refine ⟨(update_iface_shape object a has_func connect_func update_func skeleton hconnect).1,
    fun iface hs hh => update_iface_present_unwanted object a has_func connect_func update_func
      skeleton iface hs hh,
    fun hs hh => update_iface_absent_unwanted object a has_func connect_func update_func
      skeleton hs hh,
    fun iface hs hh => update_iface_present_wanted object a has_func connect_func update_func
      skeleton iface hs hh,
    fun hs hh => update_iface_absent_wanted object a has_func connect_func update_func
      skeleton hconnect hs hh,
    (update_iface_shape object a has_func connect_func update_func skeleton hconnect).2,
    ?_, ?_, ?_⟩
  · intro slot_empty has connect
    cases slot_empty <;> cases has <;> cases connect <;> simp [update_iface_trace]
  · intro slot_empty has connect
    cases slot_empty <;> cases has <;> cases connect <;> simp [update_iface_trace]
  · intro slot_empty has connect a'
    by_cases ha : a' = a
    · subst ha
      cases slot_empty <;> cases has <;> cases connect <;>
        simp [update_iface_trace, List.count_cons]
    · have hne : ¬ (IfaceCall.update_func a == IfaceCall.update_func a') = true := by
        intro h
        have := eq_of_beq h
        cases this
        exact ha rfl
      cases slot_empty <;> cases has <;> cases connect <;>
        simp [update_iface_trace, List.count_cons, ha, hne]

/-- C18, witness: the first `add` uevent of an MD-RAID object, through the
callbacks `mdraid_check`, `mdraid_connect`, `mdraid_update`: the slot gets
the updated skeleton and the calls are those of the empty slot with `has`
true. -/
theorem update_iface_postcondition_witness :
    connect_frame (some mdraid_connect) ∧
      (update_iface (udisks_linux_mdraid_object_new (block_device "/sys/block/md0" none)) "add"
        mdraid_check (some mdraid_connect)
        (mdraid_update (fun _ _ => ({ uuid := some "ab:cd" }, true)))
        { uuid := none }).2.calls =
      (udisks_linux_mdraid_object_new (block_device "/sys/block/md0" none)).calls ++
        update_iface_trace
          (udisks_linux_mdraid_object_new
            (block_device "/sys/block/md0" none)).iface_mdraid.isNone
          (mdraid_check (udisks_linux_mdraid_object_new (block_device "/sys/block/md0" none)))
          (some mdraid_connect).isSome "add" :=
  ⟨mdraid_connect_frame,
    (update_iface_postcondition
      (udisks_linux_mdraid_object_new (block_device "/sys/block/md0" none)) "add"
      mdraid_check (some mdraid_connect)
      (mdraid_update (fun _ _ => ({ uuid := some "ab:cd" }, true)))
      { uuid := none } mdraid_connect_frame).2.2.2.2.2.1⟩

/-- C19, counterexample: on an object with the slot empty, `update_iface`
with an `update_func` that returns false publishes the interface all the
same: the result of the call is false and the calls end with `update_func`
and `add_interface`. -/
theorem publication_after_success_counterexample :
    (∀ o a i, (mdraid_update (fun i _ => (i, false)) o a i).2 = false) ∧
    update_iface (udisks_linux_mdraid_object_new (block_device "/sys/block/md0" none)) "add"
        mdraid_check (some mdraid_connect) (mdraid_update (fun i _ => (i, false)))
        { uuid := none } =
      (false,
        { devices := [block_device "/sys/block/md0" none],
          iface_mdraid := some { uuid := none },
          object_path := none,
          calls := [IfaceCall.has_func, IfaceCall.g_object_new, IfaceCall.connect_func,
            IfaceCall.update_func "add", IfaceCall.add_interface] }) :=
  ⟨fun _ _ _ => rfl, by decide⟩

/-- C19, amended: in one call of `update_iface` the interface is published
(`add_interface`) once if the slot was empty and `has_func` returned true,
so the slot went from empty to non-empty, and not at all otherwise; when it
is published, `add_interface` is the last call and the call right before it
is `update_func`, whatever `update_func` returned. Over any sequence of calls
on a new object, and over any sequence of uevents on a new MD-RAID object,
`add_interface` is never called while the interface is published and always
right after `update_func`, and the interface is published at the end exactly
when the slot is non-empty. -/
theorem publication_after_update (object : UDisksLinuxMDRaidObject) (a : String)
    (has_func : UDisksLinuxMDRaidObject → Bool)
    (connect_func : Option (UDisksLinuxMDRaidObject → UDisksLinuxMDRaidObject))
    (update_func : UDisksLinuxMDRaidObject → String → UDisksMDRaid → UDisksMDRaid × Bool)
    (skeleton : UDisksMDRaid) (device : GUdevDevice) (seq : List IfaceFuncs)
    (udisks_linux_mdraid_update : UDisksMDRaid → UDisksLinuxMDRaidObject → UDisksMDRaid × Bool)
    (evs : List (String × Option GUdevDevice))
    (hconnect : connect_frame connect_func)
    (hseq : ∀ f ∈ seq, connect_frame f.connect_func) :
    ((update_iface object a has_func connect_func update_func skeleton).2.calls.count
        IfaceCall.add_interface =
      object.calls.count IfaceCall.add_interface +
        if object.iface_mdraid = none ∧
          (update_iface object a has_func connect_func update_func
            skeleton).2.iface_mdraid.isSome = true
        then 1 else 0) ∧
    (object.iface_mdraid = none → has_func object = true →
      ∃ calls, (update_iface object a has_func connect_func update_func skeleton).2.calls =
        object.calls ++ calls ++ [IfaceCall.update_func a, IfaceCall.add_interface] ∧
        IfaceCall.add_interface ∉ calls) ∧
    ((publication (update_iface_calls (udisks_linux_mdraid_object_new device)
        seq).calls).in_order = true ∧
      (publication (update_iface_calls (udisks_linux_mdraid_object_new device)
        seq).calls).published =
        (update_iface_calls (udisks_linux_mdraid_object_new device) seq).iface_mdraid.isSome) ∧
    ((publication (run_mdraid_uevents udisks_linux_mdraid_update
        (udisks_linux_mdraid_object_new device) evs).calls).in_order = true ∧
      (publication (run_mdraid_uevents udisks_linux_mdraid_update
        (udisks_linux_mdraid_object_new device) evs).calls).published =
        (run_mdraid_uevents udisks_linux_mdraid_update
          (udisks_linux_mdraid_object_new device) evs).iface_mdraid.isSome) := by
  obtain ⟨s1, s2⟩ := update_iface_shape object a has_func connect_func update_func skeleton
    hconnect
  refine ⟨?_, ?_, update_iface_calls_publication seq _ hseq rfl rfl,
    run_mdraid_uevents_publication udisks_linux_mdraid_update evs _ rfl rfl⟩
  · rw [s2, s1, List.count_append]
    cases hs : object.iface_mdraid <;> cases has_func object <;> cases connect_func <;>
      simp [update_iface_trace, List.count_cons]
  · intro hs hh
    rw [s2, hs, hh]
    refine ⟨IfaceCall.has_func :: IfaceCall.g_object_new ::
      (if connect_func.isSome then [IfaceCall.connect_func] else []), ?_, ?_⟩
    · cases connect_func <;> simp [update_iface_trace]
    · cases connect_func <;> simp

/-- C19, witness: the interface of a new MD-RAID object is taken away and
added again, and each publication comes right after an update. -/
theorem publication_after_update_witness :
    connect_frame (some mdraid_connect) ∧
      (update_iface_calls (udisks_linux_mdraid_object_new (block_device "/sys/block/md0" none))
        [{ uevent_action := "add", has_func := fun _ => true,
           connect_func := some mdraid_connect,
           update_func := fun _ _ i => (i, false), skeleton := { uuid := none } },
         { uevent_action := "change", has_func := fun _ => false,
           connect_func := some mdraid_connect,
           update_func := fun _ _ i => (i, false), skeleton := { uuid := none } },
         { uevent_action := "change", has_func := fun _ => true,
           connect_func := some mdraid_connect,
           update_func := fun _ _ i => (i, false), skeleton := { uuid := none } }]).calls =
        [IfaceCall.has_func, IfaceCall.g_object_new, IfaceCall.connect_func,
          IfaceCall.update_func "add", IfaceCall.add_interface,
          IfaceCall.has_func, IfaceCall.remove_interface,
          IfaceCall.has_func, IfaceCall.g_object_new, IfaceCall.connect_func,
          IfaceCall.update_func "change", IfaceCall.add_interface] ∧
      (publication (update_iface_calls
        (udisks_linux_mdraid_object_new (block_device "/sys/block/md0" none))
        [{ uevent_action := "add", has_func := fun _ => true,
           connect_func := some mdraid_connect,
           update_func := fun _ _ i => (i, false), skeleton := { uuid := none } },
         { uevent_action := "change", has_func := fun _ => false,
           connect_func := some mdraid_connect,
           update_func := fun _ _ i => (i, false), skeleton := { uuid := none } },
         { uevent_action := "change", has_func := fun _ => true,
           connect_func := some mdraid_connect,
           update_func := fun _ _ i => (i, false), skeleton := { uuid := none } }]).calls).in_order
        = true :=
  ⟨mdraid_connect_frame, by decide,
    (publication_after_update
      (udisks_linux_mdraid_object_new (block_device "/sys/block/md0" none)) "add"
      mdraid_check (some mdraid_connect) (fun _ _ i => (i, false)) { uuid := none }
      (block_device "/sys/block/md0" none)
      [{ uevent_action := "add", has_func := fun _ => true,
         connect_func := some mdraid_connect,
         update_func := fun _ _ i => (i, false), skeleton := { uuid := none } },
       { uevent_action := "change", has_func := fun _ => false,
         connect_func := some mdraid_connect,
         update_func := fun _ _ i => (i, false), skeleton := { uuid := none } },
       { uevent_action := "change", has_func := fun _ => true,
         connect_func := some mdraid_connect,
         update_func := fun _ _ i => (i, false), skeleton := { uuid := none } }]
      (fun i _ => (i, false)) [] mdraid_connect_frame
      (by
        intro f hf
        simp only [List.mem_cons, List.mem_singleton, List.not_mem_nil, or_false] at hf
        rcases hf with h | h | h <;> subst h <;> exact mdraid_connect_frame)).2.2.1.1⟩

/-! ## The housekeeping interval -/

/-- C20, counterexample: in the reachable state after a pass at clock
reading 1000, where `housekeeping_last` is 1000, a pass at clock reading 999
(the clock was set back) passes 4294967295 to the drive, and a pass at clock
reading 1000 + 2^32 passes 0 although it is not the first pass and
`now - last` is 2^32. -/
theorem housekeeping_interval_counterexample :
    Reachable state_housekept ∧
    state_housekept.housekeeping_last = 1000 ∧
    new_effects state_housekept (housekeeping_thread_func state_housekept 999) =
      [Effect.drive_housekeeping 0 4294967295] ∧
    new_effects state_housekept (housekeeping_thread_func state_housekept 4294968296) =
      [Effect.drive_housekeeping 0 0] ∧
    4294968296 - 1000 = 4294967296 :=
  ⟨Reachable.job _ _ _ (Reachable.timeout _ (reachable_run_uevents _ _ Reachable.new)),
    by decide, by decide, by decide, by decide⟩

/-- C20, amended: in a reachable state, the pass of `housekeeping_thread_func`
at clock reading `time` calls the housekeeping of every drive in the
snapshot of `vpd_to_drive` exactly once, in the order of the snapshot and
with one value `secs` for all, whatever the calls return (a failed call adds
a warning only), and leaves `housekeeping_last = now`, where `now` is `time`
as a 64-bit unsigned. The value `secs` is 0 if the stored `housekeeping_last`
is 0, and otherwise `now - last` reduced modulo 2^32, which is `now - last`
when `last ≤ now < last + 2^32`. -/
theorem housekeeping_interval (s : UDisksLinuxProvider) (h : Reachable s) (time : Nat)
    (udisks_linux_drive_object_housekeeping : Nat → Nat → Bool) :
    ∃ secs : Nat,
      new_effects s (housekeeping_thread_func s time) =
        (g_hash_table_get_values s.vpd_to_drive).map
          (fun o => Effect.drive_housekeeping o secs) ∧
      (s.housekeeping_last = 0 → secs = 0) ∧
      (0 < s.housekeeping_last →
        (secs : Int) = (((time % 2 ^ 64 : Nat) : Int) - (s.housekeeping_last : Int)) % 2 ^ 32) ∧
      (0 < s.housekeeping_last → s.housekeeping_last ≤ time % 2 ^ 64 →
        time % 2 ^ 64 < s.housekeeping_last + 2 ^ 32 →
        secs = time % 2 ^ 64 - s.housekeeping_last) ∧
      (housekeeping_thread_func s time).housekeeping_last = time % 2 ^ 64 ∧
      (∀ o ∈ g_hash_table_get_values s.vpd_to_drive, ∀ v,
        (new_effects s (housekeeping_thread_func s time)).count
          (Effect.drive_housekeeping o v) = if v = secs then 1 else 0) ∧
      (housekeeping_all_drives_loop udisks_linux_drive_object_housekeeping secs
          (g_hash_table_get_values s.vpd_to_drive)).1 =
        (g_hash_table_get_values s.vpd_to_drive).map (fun o => (o, secs)) ∧
      new_effects s (housekeeping_thread_func s time) =
        (housekeeping_all_drives_loop udisks_linux_drive_object_housekeeping secs
          (g_hash_table_get_values s.vpd_to_drive)).1.map
          (fun c => Effect.drive_housekeeping c.1 c.2) := by
  obtain ⟨e1, e2⟩ := housekeeping_thread_func_effects s time
  have hlast := reachable_housekeeping_last s h
  refine ⟨_, e1, ?_, ?_, ?_, e2, ?_, (housekeeping_loop_calls _ _ _).1, ?_⟩
  · intro h0
    simp [h0]
  · intro hpos
    rw [if_pos hpos]
    exact secs_since_last_int _ _ hlast
  · intro hpos h1 h2
    rw [if_pos hpos]
    exact secs_since_last_exact _ _ h1 h2
  · intro o ho v
    rw [e1]
    exact count_drive_housekeeping _ (reachable_drive_values_nodup s h) _ o ho v
  · rw [e1, (housekeeping_loop_calls _ _ _).1, List.map_map]
    rfl

/-- C20, witness: the pass at clock reading 1600 after the pass at 1000, on
the provider with the drive of `/sys/block/sda`, passes 600 to the drive,
whether the call fails or not. -/
theorem housekeeping_interval_witness :
    Reachable state_housekept ∧
      new_effects state_housekept (housekeeping_thread_func state_housekept 1600) =
        [Effect.drive_housekeeping 0 600] ∧
      ∃ secs : Nat,
        new_effects state_housekept (housekeeping_thread_func state_housekept 1600) =
          (g_hash_table_get_values state_housekept.vpd_to_drive).map
            (fun o => Effect.drive_housekeeping o secs) ∧
        (state_housekept.housekeeping_last = 0 → secs = 0) :=
  ⟨Reachable.job _ _ _ (Reachable.timeout _ (reachable_run_uevents _ _ Reachable.new)),
    by decide,
    (housekeeping_interval state_housekept
      (Reachable.job _ _ _ (Reachable.timeout _ (reachable_run_uevents _ _ Reachable.new))) 1600
      (fun _ _ => false)).imp (fun _ hs => ⟨hs.1, hs.2.1⟩)⟩

end UDisks
